import Mathlib

/-!
Verification development for the excel-mcp-server repository.

This file gives a shallow embedding, in Lean 4, of the spreadsheet mutation
engine of the repository (src/tools/insert_excel_row.py,
src/tools/delete_excel_row.py, src/tools/insert_cell_text.py) and settles the
frozen claims about it.  File I/O (loading and saving a workbook) is modelled
by passing a sheet value in and returning the sheet that would be saved (or
none when the code returns before its single save call); the openpyxl cell
grid is modelled as an association list of (row, column)-indexed cells, with
the openpyxl behaviours the code relies on (cell access creates the cell;
max_row / max_column are the largest occupied indices, at least 1;
insert_rows / delete_rows shift whole rows).  Python dynamic values that can
appear in row data and cells are modelled by the `Value` type below.
-/

namespace ExcelMCP

/-- Model of a Python value as it occurs in row data and cells of this
program: a string, an integer, or None.  (The rows exercised by the tools in
the claims carry strings, integers and nulls; floats and booleans are not
needed to settle any claim.) -/
inductive Value where
  | vStr (s : String)
  | vInt (n : Int)
  | vNone
deriving DecidableEq, Repr

/-- Python str() of a value: strings unchanged, integers in decimal,
str(None) = "None". -/
def pyStr : Value → String
  | .vStr s => s
  | .vInt n => toString n
  | .vNone => ("None")

/-- A single apostrophe character, used in the error messages of the source
(for quoting column names). -/
def sq : String := String.mk [Char.ofNat 39]

/-- Lowest digit as a character. -/
def digitChar (n : Nat) : Char := Char.ofNat (48 + n)

/-- Fuel-indexed digit rendering; the fuel always suffices at its one use
below. -/
def decimalDigitsAux : Nat → Nat → List Char
  | 0, _ => []
  | fuel + 1, n =>
      if n < 10 then [digitChar n]
      else decimalDigitsAux fuel (n / 10) ++ [digitChar (n % 10)]

/-- Decimal digit characters of a natural number, most significant first;
matches Python str() on non-negative integers. -/
def decimalDigits (n : Nat) : List Char := decimalDigitsAux (n + 1) n

/-- Decimal characters of an integer, with a leading minus sign when
negative; matches Python str() on integers. -/
def intChars (i : Int) : List Char :=
  if i < 0 then Char.ofNat 45 :: decimalDigits i.natAbs
  else decimalDigits i.toNat

/-- Numeric value of a list of decimal digit characters, as Python
int() computes it on a digit string (leading zeros allowed). -/
def natOfDigits (ds : List Char) : Nat :=
  ds.foldl (fun a c => 10 * a + (c.toNat - 48)) 0

/-- ASCII decimal digit test, as used for the regex class \d on the inputs
that occur here. -/
def isDigitA (c : Char) : Bool := 48 ≤ c.toNat && c.toNat ≤ 57

/-- ASCII upper-case letter test, the regex class [A-Z]. -/
def isUpperA (c : Char) : Bool := 65 ≤ c.toNat && c.toNat ≤ 90

/-- Python whitespace test for str.strip() / int()-stripping on the
characters that occur in this program. -/
def isWS (c : Char) : Bool := c = ' ' || c = Char.ofNat 9 || c = Char.ofNat 10 || c = Char.ofNat 13

/-- Python str.strip() on a character list. -/
def stripChars (l : List Char) : List Char :=
  ((l.dropWhile isWS).reverse.dropWhile isWS).reverse

/-- Python str.strip() on a string. -/
def pyStrip (s : String) : String := String.mk (stripChars s.data)

/-- Python int(s) on a string: optional surrounding whitespace, optional
sign, then one or more decimal digits; anything else raises ValueError,
modelled as none.  (Underscore digit grouping is not modelled: the program
always applies int() to an underscore-free token obtained from split.) -/
def pyInt (s : String) : Option Int :=
  let l := stripChars s.data
  let core : List Char × Bool :=
    if l.head? = some (Char.ofNat 45) then (l.tail, true)
    else if l.head? = some (Char.ofNat 43) then (l.tail, false)
    else (l, false)
  if core.1 ≠ [] ∧ core.1.all isDigitA then
    some (if core.2 then -(natOfDigits core.1 : Int) else (natOfDigits core.1 : Int))
  else none

/-- Python str.split(sep) for a one-character separator, on character
lists: splits at every occurrence, keeping empty pieces. -/
def splitOnChar (sep : Char) : List Char → List (List Char)
  | [] => [[]]
  | c :: rest =>
      if c = sep then [] :: splitOnChar sep rest
      else
        match splitOnChar sep rest with
        | [] => [[c]]
        | p :: ps => (c :: p) :: ps

/-- Last element of a Python list, l[-1]; the split result is never empty. -/
def lastToken (ps : List (List Char)) : List Char := (ps.reverse.head?).getD []

/-- List-level string prefix test. -/
def isPrefixChars : List Char → List Char → Bool
  | [], _ => true
  | _ :: _, [] => false
  | p :: ps, c :: cs => p == c && isPrefixChars ps cs

/-- Python str.startswith. -/
def pyStartsWith (s pre : String) : Bool := isPrefixChars pre.data s.data

/-- src/tools/insert_excel_row.py, _determine_insert_position: maps the
symbolic insert position and the current max_row to the 1-indexed target row,
or to (0, error message).  "after_row_N" takes the last underscore-separated
token of the whole position string and applies Python int() to it. -/
def determine_insert_position (insert_position : String) (max_row : Nat) :
    Int × Option String :=
  if insert_position = ("end") then ((max_row : Int) + 1, none)
  else if insert_position = ("beginning") then (2, none)
  else if pyStartsWith insert_position ("after_row_") then
    match pyInt (String.mk (lastToken (splitOnChar (Char.ofNat 95) insert_position.data))) with
    | some target_row => (target_row + 1, none)
    | none => (0, some ((("无效的插入位置格式: ") ++ insert_position)))
  else (0, some ((("不支持的插入位置: ") ++ insert_position)))

/-!
## Formula reference rewriting

src/tools/insert_excel_row.py, _adjust_formula_references: re.sub with the
pattern ([A-Z]+)(\d+) and a callback.  re.sub scans left to right for
non-overlapping matches: a maximal run of upper-case letters immediately
followed by at least one decimal digit is a cell-reference token; an
upper-case run not followed by a digit, and every other character, is copied
through.  The scanner below reproduces this with explicit fuel (the fuel is
always at least the length of the remaining input, so it never runs out).
-/

/-- One output piece of the regex scan: a literal character, or a matched
cell-reference token (letters, digits). -/
inductive Piece where
  | lit (c : Char)
  | ref (ls ds : List Char)
deriving DecidableEq, Repr

/-- Fuel-indexed regex scan for ([A-Z]+)(\d+). -/
def scanAux : Nat → List Char → List Piece
  | 0, _ => []
  | _ + 1, [] => []
  | fuel + 1, c :: rest =>
      if isUpperA c then
        let ls := (c :: rest).takeWhile isUpperA
        let r1 := (c :: rest).dropWhile isUpperA
        let ds := r1.takeWhile isDigitA
        let r2 := r1.dropWhile isDigitA
        if ds = [] then ls.map Piece.lit ++ scanAux fuel r1
        else Piece.ref ls ds :: scanAux fuel r2
      else Piece.lit c :: scanAux fuel rest

/-- Regex scan of a character list for ([A-Z]+)(\d+) tokens. -/
def scanPieces (l : List Char) : List Piece := scanAux l.length l

/-- The digit adjustment of the callback replace_cell_ref: a referenced row
strictly above original_max_row is shifted by
(current_row - original_max_row - 1), in Python integer arithmetic; any other
row keeps its original digit text (the token is returned as match.group(0)). -/
def adjustDigits (current_row original_max_row : Int) (ds : List Char) : List Char :=
  if (natOfDigits ds : Int) > original_max_row then
    intChars ((natOfDigits ds : Int) + (current_row - original_max_row - 1))
  else ds

/-- Rendering of one scanned piece after the callback: literals are copied,
tokens get their digits adjusted (column letters always preserved). -/
def renderPiece (current_row original_max_row : Int) : Piece → List Char
  | .lit c => [c]
  | .ref ls ds => ls ++ adjustDigits current_row original_max_row ds

/-- src/tools/insert_excel_row.py, _adjust_formula_references.  (The
try/except around the body can only be triggered by a failure inside re or
int, which cannot happen on the matched tokens; the fallback that returns the
formula unchanged is therefore dead and not modelled.) -/
def adjust_formula_references (formula : String) (current_row original_max_row : Int) : String :=
  String.mk (((scanPieces formula.data).map (renderPiece current_row original_max_row)).flatten)

/-- Cell-reference tokens of a formula string, as (column letters, row
number) pairs in order of occurrence. -/
def refValue : Piece → Option (String × Nat)
  | .lit _ => none
  | .ref ls ds => some (String.mk ls, natOfDigits ds)

/-- The list of cell-reference tokens of a formula string. -/
def cellRefs (s : String) : List (String × Nat) := (scanPieces s.data).filterMap refValue

/-- What the per-piece rendering concatenates to. -/
def renderAll (current_row original_max_row : Int) (ps : List Piece) : List Char :=
  (ps.map (renderPiece current_row original_max_row)).flatten

/-- The per-piece transformation actually effected by the rewriter: literals
kept, token digits adjusted. -/
def transfPiece (current_row original_max_row : Int) : Piece → Piece
  | .lit c => .lit c
  | .ref ls ds => .ref ls (adjustDigits current_row original_max_row ds)

/-!
## Cell styles

Model of the openpyxl style attributes that the two formatting helpers read
and write.  Fields are restricted to the attributes the source mentions;
colors and side styles are kept abstract as optional strings.
-/

/-- openpyxl Font, restricted to the attributes the source copies. -/
structure Font where
  name : Option String := none
  size : Option Rat := none
  bold : Option Bool := none
  italic : Option Bool := none
  color : Option String := none
deriving DecidableEq, Repr

/-- openpyxl PatternFill, restricted to the attributes the source copies. -/
structure PatternFill where
  fill_type : Option String := none
  start_color : Option String := none
  end_color : Option String := none
deriving DecidableEq, Repr

/-- One side of an openpyxl Border. -/
structure Side where
  style : Option String := none
  color : Option String := none
deriving DecidableEq, Repr

/-- openpyxl Border, restricted to the four sides the source copies. -/
structure Border where
  left : Side := {}
  right : Side := {}
  top : Side := {}
  bottom : Side := {}
deriving DecidableEq, Repr

/-- openpyxl Alignment, restricted to the attributes the source sets. -/
structure Alignment where
  horizontal : Option String := none
  vertical : Option String := none
  wrap_text : Option Bool := none
deriving DecidableEq, Repr

/-- The style of one cell. -/
structure CellStyle where
  font : Font := {}
  fill : PatternFill := {}
  border : Border := {}
  alignment : Alignment := {}
  number_format : String := ("General")
deriving DecidableEq, Repr

/-- The alignment unconditionally applied by both tools: left, center, no
wrap. -/
def leftAlignment : Alignment :=
  { horizontal := some ("left"), vertical := some ("center"), wrap_text := some false }

/-- src/tools/insert_excel_row.py, _apply_cell_alignment.  The target cell's
alignment is unconditionally forced to left/center/no-wrap; when
preserve_formatting is set and a reference cell is supplied, the reference's
font (name, size, bold, italic, color), fill (type and colors) and border
(four sides) are copied by attribute; alignment is deliberately not copied.
(openpyxl style objects are always truthy, so the `if reference_cell.font:`
style guards in the source always pass when a reference cell is present; the
try/except guards openpyxl styling errors that the value model cannot
raise.) -/
def apply_cell_alignment (cell : CellStyle) (preserve_formatting : Bool)
    (reference_cell : Option CellStyle) : CellStyle :=
  let c1 : CellStyle := { cell with alignment := leftAlignment }
  match preserve_formatting, reference_cell with
  | true, some ref =>
      { c1 with
        font := { name := ref.font.name, size := ref.font.size, bold := ref.font.bold,
                  italic := ref.font.italic, color := ref.font.color }
        fill := { fill_type := ref.fill.fill_type, start_color := ref.fill.start_color,
                  end_color := ref.fill.end_color }
        border := { left := ref.border.left, right := ref.border.right,
                    top := ref.border.top, bottom := ref.border.bottom } }
  | _, _ => c1

/-- src/tools/insert_cell_text.py, _apply_cell_formatting.  Alignment is
forced to left/center/no-wrap; when preserve_formatting is set and an
original cell is supplied, its font, fill and border objects are assigned
whole, and its number format is assigned when truthy (a non-empty string).
At the call site the "original cell" is the target cell itself, read through
the same handle after the alignment write, so the copies are self-copies of
the attributes unaffected by the alignment write. -/
def apply_cell_formatting (cell : CellStyle) (preserve_formatting : Bool)
    (original_cell : Option CellStyle) : CellStyle :=
  let c1 : CellStyle := { cell with alignment := leftAlignment }
  match preserve_formatting, original_cell with
  | true, some orig =>
      { c1 with
        font := orig.font
        fill := orig.fill
        border := orig.border
        number_format := if orig.number_format ≠ ("") then orig.number_format
                         else c1.number_format }
  | _, _ => c1

/-!
## The sheet model

openpyxl worksheet cells keyed by (row, column), both 1-indexed, as an
association list (first binding wins; the operations never create duplicate
keys).  max_row / max_column are the largest occupied indices and are 1 for
an empty sheet, as in openpyxl.  Accessing a cell creates it; insert_rows /
delete_rows shift whole rows including styles, as openpyxl does.
-/

/-- One cell: a value and a style. -/
structure Cell where
  value : Value := .vNone
  style : CellStyle := {}
deriving DecidableEq, Repr

/-- The cell grid of one worksheet. -/
abbrev SheetL : Type := List ((Nat × Nat) × Cell)

/-- Cell stored at (r, c), if the cell has been created. -/
def getCell (s : SheetL) (r c : Nat) : Option Cell :=
  (List.find? (fun e => e.1 == (r, c)) s).map (fun e => e.2)

/-- worksheet.cell(r, c).value as Python sees it: None for a cell that was
never created. -/
def cellValue (s : SheetL) (r c : Nat) : Value :=
  match getCell s r c with
  | some cl => cl.value
  | none => .vNone

/-- Remove the binding for (r, c), if any. -/
def eraseCell (s : SheetL) (r c : Nat) : SheetL :=
  List.filter (fun e => !(e.1 == (r, c))) s

/-- Store a cell at (r, c), replacing any existing binding. -/
def setCell (s : SheetL) (r c : Nat) (cl : Cell) : SheetL :=
  ((r, c), cl) :: eraseCell s r c

/-- worksheet[coord] / worksheet.cell(r, c): creates an empty cell when the
coordinate has none (this is what makes cell access affect max_row). -/
def createCell (s : SheetL) (r c : Nat) : SheetL :=
  if (getCell s r c).isSome then s else ((r, c), {}) :: s

/-- Set the value of the cell at (r, c) (creating it if needed). -/
def setValue (s : SheetL) (r c : Nat) (v : Value) : SheetL :=
  setCell s r c { (getCell s r c).getD {} with value := v }

/-- Set the style of the cell at (r, c) (creating it if needed). -/
def setStyle (s : SheetL) (r c : Nat) (st : CellStyle) : SheetL :=
  setCell s r c { (getCell s r c).getD {} with style := st }

/-- worksheet.max_row: largest occupied row index, at least 1. -/
def maxRow (s : SheetL) : Nat := List.foldr (fun e a => max e.1.1 a) 1 s

/-- worksheet.max_column: largest occupied column index, at least 1. -/
def maxCol (s : SheetL) : Nat := List.foldr (fun e a => max e.1.2 a) 1 s

/-- worksheet.insert_rows(k): every row at index ≥ k moves down by one. -/
def insertRowsAt (s : SheetL) (k : Nat) : SheetL :=
  s.map (fun e => if k ≤ e.1.1 then ((e.1.1 + 1, e.1.2), e.2) else e)

/-- worksheet.delete_rows(k): row k disappears, rows above it move up. -/
def deleteRowAt (s : SheetL) (k : Nat) : SheetL :=
  s.filterMap (fun e =>
    if e.1.1 = k then none
    else if k < e.1.1 then some ((e.1.1 - 1, e.1.2), e.2)
    else some e)

/-!
## Data validation

src/tools/insert_excel_row.py, _validate_data and its helpers.  Rows of
incoming data are Python dicts, modelled as association lists with unique
keys; validation rules are a dict from column name to a rule dict.
-/

/-- One incoming data row: a mapping from column name to value. -/
abbrev Row : Type := List (String × Value)

/-- Python dict lookup on a row. -/
def lookupRow (row : Row) (col : String) : Option Value :=
  (List.find? (fun e => e.1 == col) row).map (fun e => e.2)

/-- One validation rule dict.  The optional user regex of the 'pattern' key
is an input to the tool and is modelled by its matching predicate (re.match
anchored at the start).  Absent keys are none / the Python defaults. -/
structure VRule where
  required : Bool := false
  type : String := ("string")
  min_value : Option Rat := none
  max_value : Option Rat := none
  min_length : Option Nat := none
  max_length : Option Nat := none
  pattern : Option (String → Bool) := none

/-- Python float(s) on the decimal forms this program can receive: optional
surrounding whitespace, optional sign, digits with an optional fractional
part.  (Exponent, inf/nan and underscore forms of the Python float grammar
are not modelled; no claim exercises them.)  none models ValueError. -/
def parseUnsigned (l : List Char) : Option Rat :=
  let ip := l.takeWhile isDigitA
  let rest := l.dropWhile isDigitA
  match rest with
  | [] => if ip = [] then none else some ((natOfDigits ip : Rat))
  | c :: fracs =>
      if c = Char.ofNat 46 && fracs.all isDigitA && (!ip.isEmpty || !fracs.isEmpty) then
        some ((natOfDigits ip : Rat) + (natOfDigits fracs : Rat) / ((10 : Rat) ^ fracs.length))
      else none

/-- Python float(value) for the values that can reach the numeric check. -/
def pyFloat : Value → Option Rat
  | .vInt n => some ((n : Rat))
  | .vNone => none
  | .vStr s =>
      let l := stripChars s.data
      match l with
      | c :: rest =>
          if c = Char.ofNat 45 then (parseUnsigned rest).map (fun q => -q)
          else if c = Char.ofNat 43 then parseUnsigned rest
          else parseUnsigned l
      | [] => none

/-- Character class [a-zA-Z0-9._%+-] of the email regex. -/
def isEmailLocalChar (c : Char) : Bool :=
  c.isAlpha || isDigitA c || c = Char.ofNat 46 || c = Char.ofNat 95 ||
    c = Char.ofNat 37 || c = Char.ofNat 43 || c = Char.ofNat 45

/-- Character class [a-zA-Z0-9.-] of the email regex. -/
def isEmailDomainChar (c : Char) : Bool :=
  c.isAlpha || isDigitA c || c = Char.ofNat 46 || c = Char.ofNat 45

/-- re.match of the source's email pattern
^[a-zA-Z0-9._%+-]+@[a-zA-Z0-9.-]+\.[a-zA-Z]{2,}$ — decided directly: the
classes exclude the at sign, so the string must split as local@domain, and
the final [a-zA-Z]{2,} group must be the maximal trailing letter run of the
domain, preceded by a literal dot and a non-empty class-2 prefix. -/
def email_matches (s : String) : Bool :=
  match splitOnChar (Char.ofNat 64) s.data with
  | [localPart, domain] =>
      !localPart.isEmpty && localPart.all isEmailLocalChar &&
      (let revd := domain.reverse
       let tld := revd.takeWhile (fun c => c.isAlpha)
       match revd.dropWhile (fun c => c.isAlpha) with
       | d :: restRev =>
           d = Char.ofNat 46 && tld.length ≥ 2 && !restRev.isEmpty &&
             restRev.all isEmailDomainChar
       | [] => false)
  | _ => false

/-- The error messages one (column, rule, value) triple contributes, in
source order.  (The numeric values interpolated into the bound-violation
messages are rendered with Lean Rat printing rather than Python float
printing; no claim depends on those characters.) -/
def fieldErrors (col : String) (rule : VRule) (value : Value) : List String :=
  if rule.required && (value == Value.vNone || pyStrip (pyStr value) == ("")) then
    [("列 ") ++ sq ++ col ++ sq ++ (" 为必填项")]
  else if value != Value.vNone && pyStrip (pyStr value) != ("") then
    (if rule.type = ("number") then
      match pyFloat value with
      | some q =>
          (match rule.min_value with
           | some mn =>
               if q < mn then
                 [("列 ") ++ sq ++ col ++ sq ++ (" 值 ") ++ toString q ++
                   (" 小于最小值 ") ++ toString mn]
               else []
           | none => []) ++
          (match rule.max_value with
           | some mx =>
               if q > mx then
                 [("列 ") ++ sq ++ col ++ sq ++ (" 值 ") ++ toString q ++
                   (" 大于最大值 ") ++ toString mx]
               else []
           | none => [])
      | none => [("列 ") ++ sq ++ col ++ sq ++ (" 不是有效的数字")]
    else if rule.type = ("email") then
      if !email_matches (pyStr value) then
        [("列 ") ++ sq ++ col ++ sq ++ (" 不是有效的邮箱格式")]
      else []
    else []) ++
    (match rule.pattern with
     | some p =>
         if !p (pyStr value) then
           [("列 ") ++ sq ++ col ++ sq ++ (" 不符合指定格式")]
         else []
     | none => []) ++
    (if rule.type = ("string") then
      (match rule.min_length with
       | some mn =>
           if (pyStr value).length < mn then
             [("列 ") ++ sq ++ col ++ sq ++ (" 长度不能少于 ") ++ toString mn ++ (" 个字符")]
           else []
       | none => []) ++
      (match rule.max_length with
       | some mx =>
           if (pyStr value).length > mx then
             [("列 ") ++ sq ++ col ++ sq ++ (" 长度不能超过 ") ++ toString mx ++ (" 个字符")]
           else []
       | none => [])
    else [])
  else []

/-- All error messages of one candidate row: rules for columns absent from
the row mapping contribute nothing. -/
def row_errors (validation_rules : List (String × VRule)) (row : Row) : List String :=
  validation_rules.flatMap (fun cr =>
    match lookupRow row cr.1 with
    | some v => fieldErrors cr.1 cr.2 v
    | none => [])

/-- The validation report of _validate_data. -/
structure VReport where
  passed : Nat := 0
  failed : Nat := 0
  errors : List String := []
deriving DecidableEq, Repr

/-- src/tools/insert_excel_row.py, _validate_data.  With no rules (None or an
empty dict, both falsy) every row passes untouched.  Otherwise rows with any
error are dropped and their messages recorded with the 1-based index of the
row in the input batch; rows without errors are kept in order. -/
def validate_data (rows_to_insert : List Row)
    (validation_rules : Option (List (String × VRule))) : List Row × VReport :=
  match validation_rules with
  | none => (rows_to_insert, { passed := rows_to_insert.length })
  | some [] => (rows_to_insert, { passed := rows_to_insert.length })
  | some rules =>
      rows_to_insert.enum.foldl
        (fun acc ir =>
          let errs := row_errors rules ir.2
          if errs.isEmpty then
            (acc.1 ++ [ir.2], { acc.2 with passed := acc.2.passed + 1 })
          else
            (acc.1,
              { acc.2 with
                failed := acc.2.failed + 1
                errors := acc.2.errors ++
                  errs.map (fun e => ("第") ++ toString (ir.1 + 1) ++ ("行: ") ++ e) }))
        ([], {})

/-!
## Empty-row reconciliation and headers
-/

/-- One cell is blank for _detect_empty_rows when its value is None or
whitespace-only text (the source tests
`cell_value is not None and str(cell_value).strip()`). -/
def isBlankCell (v : Value) : Bool :=
  match v with
  | .vNone => true
  | v => pyStrip (pyStr v) == ("")

/-- A row is empty when every cell in columns 1..max_column is blank.
(Reading the cells creates them in openpyxl, but only inside the existing
row/column extent, which no later read of this program can observe.) -/
def rowIsEmpty (s : SheetL) (mc : Nat) (r : Nat) : Bool :=
  (List.range' 1 mc).all (fun c => isBlankCell (cellValue s r c))

/-- src/tools/insert_excel_row.py, _detect_empty_rows: indices of the empty
rows among rows 2..max_row, in ascending order. -/
def detect_empty_rows (s : SheetL) : List Nat :=
  (List.range' 2 (maxRow s - 1)).filter (fun r => rowIsEmpty s (maxCol s) r)

/-- Descending insertion, for list.sort(reverse=True). -/
def insertDesc (a : Nat) : List Nat → List Nat
  | [] => [a]
  | b :: t => if b < a then a :: b :: t else b :: insertDesc a t

/-- list.sort(reverse=True). -/
def sortDesc (l : List Nat) : List Nat := l.foldr insertDesc []

/-- src/tools/insert_excel_row.py, _remove_empty_rows: sorts the detected
rows in descending order and deletes them one by one, returning the new
sheet and the number of deletions performed. -/
def remove_empty_rows (s : SheetL) (empty_rows : List Nat) : SheetL × Nat :=
  ((sortDesc empty_rows).foldl (fun acc r => deleteRowAt acc r) s, empty_rows.length)

/-!
## Writing rows with formatting
-/

/-- The formula report accumulated by _insert_data_with_formatting. -/
structure FormulaReport where
  processed : Nat := 0
  adjusted : Nat := 0
deriving DecidableEq, Repr

/-- Writing one cell of one inserted row, from the inner loop of
_insert_data_with_formatting: the cell is created by the subscript access
(which is what bumps max_row to at least current_row before the formula
rewriter reads it), its value is written (the raw value; None when the header
is absent from the row mapping; the rewritten text when formula handling is
on and the value is a string starting with "="), the reference cell, when
present, is created by its own subscript access, and the alignment policy is
applied. -/
def writeCell (s : SheetL) (fr : FormulaReport) (row_data : Row) (header : String)
    (current_row col : Nat) (preserve_formatting calculate_formulas : Bool)
    (reference_row : Option Nat) : SheetL × FormulaReport :=
  let s1 := createCell s current_row col
  let step2 : SheetL × FormulaReport :=
    match lookupRow row_data header with
    | none => (setValue s1 current_row col Value.vNone, fr)
    | some v =>
        match v, calculate_formulas with
        | .vStr f, true =>
            if pyStartsWith f ("=") then
              let adjusted := adjust_formula_references f (current_row : Int) ((maxRow s1 : Int))
              (setValue s1 current_row col (.vStr adjusted),
                { processed := fr.processed + 1,
                  adjusted := fr.adjusted + (if adjusted ≠ f then 1 else 0) })
            else (setValue s1 current_row col v, fr)
        | _, _ => (setValue s1 current_row col v, fr)
  let s2 := step2.1
  let s3 := match reference_row with
    | some rr => createCell s2 rr col
    | none => s2
  let refSt : Option CellStyle :=
    match reference_row with
    | some rr => some ((getCell s3 rr col).getD {}).style
    | none => none
  let cur := (getCell s3 current_row col).getD {}
  (setStyle s3 current_row col (apply_cell_alignment cur.style preserve_formatting refSt),
    step2.2)

/-- One inserted row: every header column is written, enumerated from
column 1. -/
def writeRowCells (s : SheetL) (fr : FormulaReport) (row_data : Row)
    (headers : List String) (current_row : Nat)
    (preserve_formatting calculate_formulas : Bool) (reference_row : Option Nat) :
    SheetL × FormulaReport :=
  headers.enum.foldl
    (fun acc ih =>
      writeCell acc.1 acc.2 row_data ih.2 current_row (ih.1 + 1)
        preserve_formatting calculate_formulas reference_row)
    (s, fr)

/-- src/tools/insert_excel_row.py, _insert_data_with_formatting: the i-th
validated row is written to row insert_row + i. -/
def insert_data_with_formatting (s : SheetL) (rows_to_insert : List Row)
    (headers : List String) (insert_row : Nat)
    (preserve_formatting calculate_formulas : Bool) (reference_row : Option Nat) :
    SheetL × FormulaReport :=
  rows_to_insert.enum.foldl
    (fun acc ir =>
      writeRowCells acc.1 acc.2 ir.2 headers (insert_row + ir.1)
        preserve_formatting calculate_formulas reference_row)
    (s, {})

/-!
## The three tool pipelines

File-system facts (existence of the path, its lower-cased extension) are
inputs; the workbook is a non-empty list of named sheets whose first element
is the active sheet.  Each outcome carries the result record fields the
claims inspect and the sheet content passed to workbook.save, none when the
tool returns before its single save call.
-/

/-- Python repr of a list of strings, as interpolated into the
sheet-not-found message by f"{workbook.sheetnames}". -/
def pyListRepr (names : List String) : String :=
  ("[") ++ String.intercalate (", ") (names.map (fun n => sq ++ n ++ sq)) ++ ("]")

/-- Sheet resolution shared by the three tools: a named sheet must exist
(the error enumerates the available names); otherwise the active (first)
sheet is used. -/
def resolveSheet (sheet_name : Option String) (sheets : List (String × SheetL)) :
    Except String (String × SheetL) :=
  match sheet_name with
  | some nm =>
      match sheets.find? (fun e => e.1 == nm) with
      | some e => .ok e
      | none =>
          .error (("工作表 ") ++ sq ++ nm ++ sq ++ (" 不存在。可用工作表: ") ++
            pyListRepr (sheets.map (fun e => e.1)))
  | none =>
      match sheets.head? with
      | some e => .ok e
      | none => .error (("工作簿没有工作表"))

/-- src/tools/insert_excel_row.py, _validate_parameters: batch size bounds
(checked before any file access), then file existence, then extension. -/
def insert_validate_parameters (filePath : String) (fileExists : Bool) (ext : String)
    (batch_size : Int) : Option String :=
  if batch_size > 500 then
    some (("batch_size 参数不能超过 500，当前值: ") ++ toString batch_size)
  else if batch_size ≤ 0 then
    some (("batch_size 参数必须大于 0，当前值: ") ++ toString batch_size)
  else if !fileExists then some (("文件不存在: ") ++ filePath)
  else if !(ext = (".xlsx") || ext = (".xls")) then
    some (("不支持的文件格式: ") ++ ext ++ ("。仅支持 .xlsx 和 .xls 文件"))
  else none

/-- row_data may be a single mapping or a list of mappings. -/
inductive RowData where
  | single (r : Row)
  | many (rs : List Row)

/-- Normalization of row_data into a list of rows. -/
def normalizeRows : RowData → List Row
  | .single r => [r]
  | .many rs => rs

/-- The success payload of insert_excel_row (the fields the claims
inspect). -/
structure InsertData where
  inserted_rows : Nat
  insert_position : String
  actual_insert_row : Int
  validation_report : VReport
  formula_report : FormulaReport
  empty_rows_removed : Nat
  empty_rows_detected : Nat
  final_row_count : Int
deriving DecidableEq, Repr

/-- The data field of an insert result: the full success payload, or just
the validation report on the no-valid-rows failure path. -/
inductive InsertPayload where
  | reportOnly (r : VReport)
  | full (d : InsertData)
deriving DecidableEq, Repr

/-- The result record of insert_excel_row, plus the saved sheet (none when
the tool returns before its save call, leaving the file unchanged). -/
structure InsertOutcome where
  success : Bool
  error : Option String
  data : Option InsertPayload
  saved : Option SheetL
deriving DecidableEq, Repr

/-- src/tools/insert_excel_row.py, insert_excel_row.  The emptiness guard on
data_rows is kept although openpyxl's iter_rows always yields at least one
(possibly all-None) row tuple, because max_row and max_column are at least
1; writing to a resolved row below 1 makes openpyxl raise on the cell
coordinate, which the catch-all handler turns into an unknown-error result
with no save. -/
def insert_excel_row (filePath : String) (fileExists : Bool) (ext : String)
    (row_data : RowData) (sheet_name : Option String) (insert_position : String)
    (validation_rules : Option (List (String × VRule)))
    (preserve_formatting calculate_formulas : Bool) (batch_size : Int)
    (sheets : List (String × SheetL)) : InsertOutcome :=
  match insert_validate_parameters filePath fileExists ext batch_size with
  | some e => ⟨false, some e, none, none⟩
  | none =>
    let rows_to_insert := normalizeRows row_data
    if (rows_to_insert.length : Int) > batch_size then
      ⟨false, some (("要插入的行数 (") ++ toString rows_to_insert.length ++
        (") 超过批量处理限制 (") ++ toString batch_size ++ (")")), none, none⟩
    else
      match resolveSheet sheet_name sheets with
      | .error e => ⟨false, some e, none, none⟩
      | .ok ws0 =>
        let worksheet := ws0.2
        let data_rows : List (List Value) :=
          (List.range' 1 (maxRow worksheet)).map
            (fun r => (List.range' 1 (maxCol worksheet)).map (cellValue worksheet r))
        if data_rows.isEmpty then
          ⟨false, some (("工作表为空，无法确定列结构")), none, none⟩
        else
          let headers := (data_rows.headD []).enum.map
            (fun iv =>
              match iv.2 with
              | .vNone => ("Column_") ++ toString (iv.1 + 1)
              | v => pyStr v)
          let vd := validate_data rows_to_insert validation_rules
          let validated_rows := vd.1
          let validation_report := vd.2
          if validated_rows.isEmpty then
            ⟨false, some (("所有行都未通过验证，没有数据可插入")),
              some (.reportOnly validation_report), none⟩
          else
            let max_row := maxRow worksheet
            let ipos := determine_insert_position insert_position max_row
            match ipos.2 with
            | some e => ⟨false, some e, none, none⟩
            | none =>
              let insert_row := ipos.1
              if insert_row < 1 then
                ⟨false, some (("插入Excel行时发生未知错误")), none, none⟩
              else
                let ir := insert_row.toNat
                let ws1 :=
                  if insert_position ≠ ("end") then
                    (List.range validated_rows.length).foldl
                      (fun acc i => insertRowsAt acc (ir + i)) worksheet
                  else worksheet
                let reference_row : Option Nat :=
                  if preserve_formatting then some (max 2 (min max_row (ir - 1))) else none
                let wr := insert_data_with_formatting ws1 validated_rows headers ir
                  preserve_formatting calculate_formulas reference_row
                let ws2 := wr.1
                let empty_rows := detect_empty_rows ws2
                let rem := remove_empty_rows ws2 empty_rows
                let ws3 := rem.1
                ⟨true, none, some (.full {
                  inserted_rows := validated_rows.length
                  insert_position := insert_position
                  actual_insert_row := insert_row
                  validation_report := validation_report
                  formula_report := wr.2
                  empty_rows_removed := rem.2
                  empty_rows_detected := empty_rows.length
                  final_row_count := (maxRow ws3 : Int) - 1 }), some ws3⟩

/-- The success payload of delete_excel_row. -/
structure DeleteData where
  deleted_row_number : Int
  remaining_rows_count : Int
  data_rows_count : Int
deriving DecidableEq, Repr

/-- The result record of delete_excel_row, plus the saved sheet. -/
structure DeleteOutcome where
  success : Bool
  error : Option String
  data : Option DeleteData
  saved : Option SheetL
deriving DecidableEq, Repr

/-- src/tools/delete_excel_row.py, delete_excel_row: file checks, header
protection (row_number < 2), sheet resolution, range check against max_row,
then the header-only check, then the single-row deletion and save.  The
remaining counts are computed from the pre-deletion max_row. -/
def delete_excel_row (filePath : String) (fileExists : Bool) (ext : String)
    (row_number : Int) (sheet_name : Option String)
    (sheets : List (String × SheetL)) : DeleteOutcome :=
  if !fileExists then ⟨false, some (("文件不存在: ") ++ filePath), none, none⟩
  else if !(ext = (".xlsx") || ext = (".xls")) then
    ⟨false, some (("不支持的文件格式: ") ++ ext ++ ("。仅支持 .xlsx 和 .xls 文件")), none, none⟩
  else if row_number < 2 then
    ⟨false, some (("行号必须大于等于2（第1行是标题行，不可删除），当前值: ") ++
      toString row_number), none, none⟩
  else
    match resolveSheet sheet_name sheets with
    | .error e => ⟨false, some e, none, none⟩
    | .ok ws0 =>
      let worksheet := ws0.2
      let max_row := maxRow worksheet
      if row_number > (max_row : Int) then
        ⟨false, some (("行号 ") ++ toString row_number ++
          (" 超出数据范围。当前工作表最大行数: ") ++ toString max_row), none, none⟩
      else if max_row ≤ 1 then
        ⟨false, some (("工作表中没有数据行可以删除（只有标题行或工作表为空）")), none, none⟩
      else
        let ws2 := deleteRowAt worksheet row_number.toNat
        ⟨true, none, some {
          deleted_row_number := row_number
          remaining_rows_count := (max_row : Int) - 1
          data_rows_count := (max_row : Int) - 1 - 1 }, some ws2⟩

/-- Fuel-indexed bijective base-26 rendering; the fuel always suffices at
its one use below. -/
def columnLettersAux : Nat → Nat → List Char
  | 0, _ => []
  | fuel + 1, n =>
      if n ≤ 26 then [Char.ofNat (64 + n)]
      else columnLettersAux fuel ((n - 1) / 26) ++ [Char.ofNat (64 + ((n - 1) % 26 + 1))]

/-- openpyxl get_column_letter: bijective base-26 column letters. -/
def columnLetters (n : Nat) : List Char := columnLettersAux (n + 1) n

/-- Python f-string rendering of type(value) for the non-string error
message. -/
def pyTypeName : Value → String
  | .vStr _ => ("<class ") ++ sq ++ ("str") ++ sq ++ (">")
  | .vInt _ => ("<class ") ++ sq ++ ("int") ++ sq ++ (">")
  | .vNone => ("<class ") ++ sq ++ ("NoneType") ++ sq ++ (">")

/-- src/tools/insert_cell_text.py, _validate_parameters: file checks, then
coordinate bounds (1..1048576 rows, 1..16384 columns), then the text checks
(string type, no leading "=" after strip, length at most 32767), in source
order.  All of this runs before the workbook is opened. -/
def cell_validate_parameters (filePath : String) (fileExists : Bool) (ext : String)
    (row_number column_number : Int) (text_content : Value) : Option String :=
  if !fileExists then some (("文件不存在: ") ++ filePath)
  else if !(ext = (".xlsx") || ext = (".xls")) then
    some (("不支持的文件格式: ") ++ ext ++ ("。仅支持 .xlsx 和 .xls 文件"))
  else if row_number < 1 then
    some (("行号必须大于等于1，当前值: ") ++ toString row_number)
  else if column_number < 1 then
    some (("列号必须大于等于1，当前值: ") ++ toString column_number)
  else if row_number > 1048576 then
    some (("行号不能超过1048576，当前值: ") ++ toString row_number)
  else if column_number > 16384 then
    some (("列号不能超过16384，当前值: ") ++ toString column_number)
  else
    match text_content with
    | .vStr t =>
        if pyStartsWith (pyStrip t) ("=") then
          some (("不允许插入公式，此工具仅支持纯文本插入"))
        else if t.length > 32767 then
          some (("文本长度不能超过32767个字符，当前长度: ") ++ toString t.length)
        else none
    | v => some (("文本内容必须是字符串类型，当前类型: ") ++ pyTypeName v)

/-- The success payload of insert_cell_text. -/
structure CellTextData where
  cell_position : String
  row_number : Int
  column_number : Int
  text_content : String
  text_length : Nat
  original_value : Value
  cell_existed : Bool
deriving DecidableEq, Repr

/-- The result record of insert_cell_text, plus the saved sheet. -/
structure CellTextOutcome where
  success : Bool
  error : Option String
  data : Option CellTextData
  saved : Option SheetL
deriving DecidableEq, Repr

/-- src/tools/insert_cell_text.py, insert_cell_text: parameter validation
(before the workbook is opened), sheet resolution, then: the target cell is
created by access, its previous value recorded, the text written, the
formatting policy applied (the "original cell" is the same cell object), and
the workbook saved.  The non-string fallback arm is unreachable: the
validator has already rejected non-string text. -/
def insert_cell_text (filePath : String) (fileExists : Bool) (ext : String)
    (row_number column_number : Int) (text_content : Value)
    (sheet_name : Option String) (preserve_formatting : Bool)
    (sheets : List (String × SheetL)) : CellTextOutcome :=
  match cell_validate_parameters filePath fileExists ext row_number column_number text_content with
  | some e => ⟨false, some e, none, none⟩
  | none =>
    match resolveSheet sheet_name sheets with
    | .error e => ⟨false, some e, none, none⟩
    | .ok ws0 =>
      match text_content with
      | .vStr t =>
          let r := row_number.toNat
          let c := column_number.toNat
          let s1 := createCell ws0.2 r c
          let original_value := cellValue s1 r c
          let s2 := setValue s1 r c (.vStr t)
          let origStyle : Option CellStyle :=
            if preserve_formatting then some ((getCell s2 r c).getD {}).style else none
          let s3 := setStyle s2 r c
            (apply_cell_formatting ((getCell s2 r c).getD {}).style preserve_formatting origStyle)
          ⟨true, none, some {
            cell_position := String.mk (columnLetters c) ++ toString row_number
            row_number := row_number
            column_number := column_number
            text_content := t
            text_length := t.length
            original_value := original_value
            cell_existed := original_value ≠ .vNone }, some s3⟩
      | _ => ⟨false, some (("文本内容必须是字符串类型")), none, none⟩

/-- True when some cell has been created in row r (used to state structural
hypotheses about sheets). -/
def rowHasCell (s : SheetL) (r : Nat) : Bool := s.any (fun e => e.1.1 == r)

/-- A value the writer treats as a formula: a string starting with "=". -/
def isFormulaValue : Value → Bool
  | .vStr f => pyStartsWith f ("=")
  | _ => false

/-- The success payload of an insert outcome, if any. -/
def insertDataOf (o : InsertOutcome) : Option InsertData :=
  match o.data with
  | some (.full d) => some d
  | _ => none

/-!
### Lemmas about the scanner
-/

theorem mem_takeWhile_sat {α} (p : α → Bool) :
    ∀ (l : List α) (x : α), x ∈ l.takeWhile p → p x = true := by
  intro l
  induction l with
  | nil => intro x hx; simp [List.takeWhile] at hx
  | cons a t ih =>
      intro x hx
      simp only [List.takeWhile] at hx
      cases hpa : p a with
      | true => rw [hpa] at hx; simp at hx; rcases hx with h | h
                · exact h ▸ hpa
                · exact ih x h
      | false => rw [hpa] at hx; simp at hx

theorem dropWhile_head_false {α} (p : α → Bool) :
    ∀ (l : List α) (c : α), (l.dropWhile p).head? = some c → p c = false := by
  intro l
  induction l with
  | nil => intro c hc; simp [List.dropWhile] at hc
  | cons a t ih =>
      intro c hc
      simp only [List.dropWhile] at hc
      cases hpa : p a with
      | true => rw [hpa] at hc; exact ih c hc
      | false => rw [hpa] at hc; simp at hc; exact hc ▸ hpa

theorem takeWhile_nil_of_head {α} (p : α → Bool) (l : List α)
    (h : ∀ c, l.head? = some c → p c = false) : l.takeWhile p = [] := by
  cases l with
  | nil => rfl
  | cons a t => simp [List.takeWhile, h a rfl]

theorem dropWhile_self_of_head {α} (p : α → Bool) (l : List α)
    (h : ∀ c, l.head? = some c → p c = false) : l.dropWhile p = l := by
  cases l with
  | nil => rfl
  | cons a t => simp [List.dropWhile, h a rfl]

theorem takeWhile_append_all {α} (p : α → Bool) :
    ∀ (l1 l2 : List α), (∀ x ∈ l1, p x = true) →
      (l1 ++ l2).takeWhile p = l1 ++ l2.takeWhile p := by
  intro l1
  induction l1 with
  | nil => intro l2 _; rfl
  | cons a t ih =>
      intro l2 h
      have ha : p a = true := h a (by simp)
      simp [List.takeWhile, ha, ih l2 (fun x hx => h x (by simp [hx]))]

theorem dropWhile_append_all {α} (p : α → Bool) :
    ∀ (l1 l2 : List α), (∀ x ∈ l1, p x = true) →
      (l1 ++ l2).dropWhile p = l2.dropWhile p := by
  intro l1
  induction l1 with
  | nil => intro l2 _; rfl
  | cons a t ih =>
      intro l2 h
      have ha : p a = true := h a (by simp)
      simp [List.dropWhile, ha, ih l2 (fun x hx => h x (by simp [hx]))]

theorem length_dropWhile_le' {α} (p : α → Bool) :
    ∀ (l : List α), (l.dropWhile p).length ≤ l.length := by
  intro l
  induction l with
  | nil => simp [List.dropWhile]
  | cons a t ih =>
      simp only [List.dropWhile]
      cases p a with
      | true => simpa using Nat.le_trans ih (by simp)
      | false => simp

theorem isDigitA_not_upper {c : Char} (h : isDigitA c = true) : isUpperA c = false := by
  simp [isDigitA] at h
  simp [isUpperA]
  omega

/-- Fuel does not matter once it is at least the length of the input. -/
theorem scanAux_fuel : ∀ (f1 : Nat) (f2 : Nat) (l : List Char),
    l.length ≤ f1 → l.length ≤ f2 → scanAux f1 l = scanAux f2 l := by
  intro f1
  induction f1 with
  | zero =>
      intro f2 l h1 _
      have : l = [] := List.length_eq_zero.mp (Nat.le_zero.mp h1)
      subst this
      cases f2 <;> rfl
  | succ f ih =>
      intro f2 l h1 h2
      cases l with
      | nil => cases f2 <;> rfl
      | cons c rest =>
          cases f2 with
          | zero => simp at h2
          | succ f2' =>
              simp only [scanAux]
              cases hc : isUpperA c with
              | false =>
                  simp only [hc, Bool.false_eq_true, if_false, List.cons.injEq, true_and]
                  exact ih f2' rest (by simpa using h1) (by simpa using h2)
              | true =>
                  simp only [hc, if_true]
                  have hr1 : ((c :: rest).dropWhile isUpperA).length ≤ rest.length := by
                    simp [List.dropWhile, hc]
                    exact length_dropWhile_le' isUpperA rest
                  have hrest1 : ((c :: rest).dropWhile isUpperA).length ≤ f := by
                    exact Nat.le_trans hr1 (by simpa using h1)
                  have hrest2 : ((c :: rest).dropWhile isUpperA).length ≤ f2' := by
                    exact Nat.le_trans hr1 (by simpa using h2)
                  have hr2a : (((c :: rest).dropWhile isUpperA).dropWhile isDigitA).length ≤ f :=
                    Nat.le_trans (length_dropWhile_le' isDigitA _) hrest1
                  have hr2b : (((c :: rest).dropWhile isUpperA).dropWhile isDigitA).length ≤ f2' :=
                    Nat.le_trans (length_dropWhile_le' isDigitA _) hrest2
                  rw [ih f2' _ hrest1 hrest2, ih f2' _ hr2a hr2b]

theorem scanAux_eq_scanPieces {fuel : Nat} {l : List Char} (h : l.length ≤ fuel) :
    scanAux fuel l = scanPieces l :=
  scanAux_fuel fuel l.length l h Nat.le.refl

/-- One unfolding of the scan on input starting with an upper-case letter:
either the letter run is followed by digits (a token) or it is emitted as
literals. -/
theorem scan_decomp (c : Char) (rest : List Char) (hc : isUpperA c = true) :
    (((c :: rest).dropWhile isUpperA).takeWhile isDigitA = [] ∧
      scanPieces (c :: rest) =
        ((c :: rest).takeWhile isUpperA).map Piece.lit ++
          scanPieces ((c :: rest).dropWhile isUpperA)) ∨
    (((c :: rest).dropWhile isUpperA).takeWhile isDigitA ≠ [] ∧
      scanPieces (c :: rest) =
        Piece.ref ((c :: rest).takeWhile isUpperA)
            (((c :: rest).dropWhile isUpperA).takeWhile isDigitA) ::
          scanPieces (((c :: rest).dropWhile isUpperA).dropWhile isDigitA)) := by
  have hr1 : ((c :: rest).dropWhile isUpperA).length ≤ rest.length := by
    simp [List.dropWhile, hc]
    exact length_dropWhile_le' isUpperA rest
  by_cases hds : ((c :: rest).dropWhile isUpperA).takeWhile isDigitA = []
  · left
    refine ⟨hds, ?_⟩
    show scanAux (c :: rest).length (c :: rest) = _
    simp only [scanAux, hc, if_true, hds, if_true]
    rw [scanAux_eq_scanPieces (by simpa using hr1)]
  · right
    refine ⟨hds, ?_⟩
    show scanAux (c :: rest).length (c :: rest) = _
    simp only [scanAux, hc, if_true, hds, if_false]
    rw [scanAux_eq_scanPieces
      (Nat.le_trans (length_dropWhile_le' isDigitA _) (by simpa using hr1))]

theorem scan_cons_notUpper {c : Char} {rest : List Char} (h : isUpperA c = false) :
    scanPieces (c :: rest) = Piece.lit c :: scanPieces rest := by
  show scanAux (c :: rest).length (c :: rest) = _
  simp only [scanAux, h, Bool.false_eq_true, if_false, List.cons.injEq, true_and]
  exact scanAux_eq_scanPieces (by simp)

/-- Re-building the scan of a literal letter run followed by a non-letter,
non-digit boundary. -/
theorem scan_lits {ls X : List Char} (h1 : ls ≠ []) (h2 : ∀ x ∈ ls, isUpperA x = true)
    (h3 : ∀ c, X.head? = some c → isUpperA c = false ∧ isDigitA c = false) :
    scanPieces (ls ++ X) = ls.map Piece.lit ++ scanPieces X := by
  cases ls with
  | nil => exact absurd rfl h1
  | cons a t =>
      have ha : isUpperA a = true := h2 a (by simp)
      have htw : ((a :: t) ++ X).takeWhile isUpperA = a :: t := by
        rw [takeWhile_append_all isUpperA (a :: t) X h2,
          takeWhile_nil_of_head isUpperA X (fun c hc => (h3 c hc).1), List.append_nil]
      have hdw : ((a :: t) ++ X).dropWhile isUpperA = X := by
        rw [dropWhile_append_all isUpperA (a :: t) X h2]
        exact dropWhile_self_of_head isUpperA X (fun c hc => (h3 c hc).1)
      have hds : (((a :: t) ++ X).dropWhile isUpperA).takeWhile isDigitA = [] := by
        rw [hdw]
        exact takeWhile_nil_of_head isDigitA X (fun c hc => (h3 c hc).2)
      have := scan_decomp a (t ++ X) ha
      simp only [List.cons_append] at this ⊢
      rcases this with ⟨_, heq⟩ | ⟨hne, _⟩
      · rw [heq]
        simp only [List.cons_append] at htw hdw
        rw [htw, hdw]
      · exact absurd (by simpa [List.cons_append] using hds) hne

/-- Re-building the scan of a token (letters then digits) followed by a
non-digit boundary. -/
theorem scan_ref {ls ds X : List Char} (h1 : ls ≠ []) (h2 : ∀ x ∈ ls, isUpperA x = true)
    (h3 : ds ≠ []) (h4 : ∀ x ∈ ds, isDigitA x = true)
    (h5 : ∀ c, X.head? = some c → isDigitA c = false) :
    scanPieces (ls ++ (ds ++ X)) = Piece.ref ls ds :: scanPieces X := by
  cases ls with
  | nil => exact absurd rfl h1
  | cons a t =>
      have ha : isUpperA a = true := h2 a (by simp)
      have hdhead : ∀ c, (ds ++ X).head? = some c → isUpperA c = false := by
        intro c hc
        cases ds with
        | nil => exact absurd rfl h3
        | cons d dt =>
            simp at hc
            exact hc ▸ isDigitA_not_upper (h4 d (by simp))
      have htw : ((a :: t) ++ (ds ++ X)).takeWhile isUpperA = a :: t := by
        rw [takeWhile_append_all isUpperA (a :: t) (ds ++ X) h2,
          takeWhile_nil_of_head isUpperA (ds ++ X) hdhead, List.append_nil]
      have hdw : ((a :: t) ++ (ds ++ X)).dropWhile isUpperA = ds ++ X := by
        rw [dropWhile_append_all isUpperA (a :: t) (ds ++ X) h2]
        exact dropWhile_self_of_head isUpperA (ds ++ X) hdhead
      have hds2 : (ds ++ X).takeWhile isDigitA = ds := by
        rw [takeWhile_append_all isDigitA ds X h4,
          takeWhile_nil_of_head isDigitA X h5, List.append_nil]
      have hds3 : (ds ++ X).dropWhile isDigitA = X := by
        rw [dropWhile_append_all isDigitA ds X h4]
        exact dropWhile_self_of_head isDigitA X h5
      have := scan_decomp a (t ++ (ds ++ X)) ha
      simp only [List.cons_append, List.append_assoc] at this htw hdw ⊢
      rcases this with ⟨hnil, _⟩ | ⟨_, hEq⟩
      · rw [hdw, hds2] at hnil
        exact absurd hnil h3
      · rw [hEq, htw, hdw, hds2, hds3]

theorem digitChar_toNat {d : Nat} (h : d < 10) : (digitChar d).toNat = 48 + d := by
  interval_cases d <;> decide

theorem digitChar_isDigit {d : Nat} (h : d < 10) : isDigitA (digitChar d) = true := by
  interval_cases d <;> decide

theorem decimalDigitsAux_fuel : ∀ (f1 f2 n : Nat), n < f1 → n < f2 →
    decimalDigitsAux f1 n = decimalDigitsAux f2 n := by
  intro f1
  induction f1 with
  | zero => intro f2 n h1 _; omega
  | succ f ih =>
      intro f2 n h1 h2
      cases f2 with
      | zero => omega
      | succ f2' =>
          simp only [decimalDigitsAux]
          by_cases hn : n < 10
          · simp [hn]
          · simp only [hn, if_false]
            have hd : n / 10 < n := Nat.div_lt_self (by omega) (by omega)
            rw [ih f2' (n / 10) (by omega) (by omega)]

/-- The recursion equation the Python-style rendering satisfies. -/
theorem decimalDigits_unfold (n : Nat) :
    decimalDigits n =
      if n < 10 then [digitChar n]
      else decimalDigits (n / 10) ++ [digitChar (n % 10)] := by
  show decimalDigitsAux (n + 1) n = _
  simp only [decimalDigitsAux]
  by_cases hn : n < 10
  · simp [hn]
  · simp only [hn, if_false]
    have hd : n / 10 < n := Nat.div_lt_self (by omega) (by omega)
    rw [decimalDigitsAux_fuel n (n / 10 + 1) (n / 10) (by omega) (by omega)]
    rfl

theorem decimalDigits_ne_nil (n : Nat) : decimalDigits n ≠ [] := by
  rw [decimalDigits_unfold]
  split
  · simp
  · simp

theorem decimalDigits_all_digit (n : Nat) :
    ∀ c ∈ decimalDigits n, isDigitA c = true := by
  induction n using Nat.strong_induction_on with
  | _ n ih =>
      rw [decimalDigits_unfold]
      split
      · next h =>
          intro c hc
          simp at hc
          exact hc ▸ digitChar_isDigit h
      · next h =>
          intro c hc
          simp at hc
          rcases hc with hc | hc
          · exact ih (n / 10) (Nat.div_lt_self (by omega) (by omega)) c hc
          · exact hc ▸ digitChar_isDigit (Nat.mod_lt _ (by omega))

theorem natOfDigits_append_last (l : List Char) (c : Char) :
    natOfDigits (l ++ [c]) = 10 * natOfDigits l + (c.toNat - 48) := by
  simp [natOfDigits, List.foldl_append]

theorem natOfDigits_decimalDigits (n : Nat) : natOfDigits (decimalDigits n) = n := by
  induction n using Nat.strong_induction_on with
  | _ n ih =>
      rw [decimalDigits_unfold]
      split
      · next h =>
          simp [natOfDigits, digitChar_toNat h]
      · next h =>
          rw [natOfDigits_append_last,
            ih (n / 10) (Nat.div_lt_self (by omega) (by omega)),
            digitChar_toNat (Nat.mod_lt _ (by omega))]
          omega

theorem intChars_of_pos {i : Int} (h : 1 ≤ i) : intChars i = decimalDigits i.toNat := by
  rw [intChars, if_neg (by omega)]

theorem natOfDigits_intChars {i : Int} (h : 1 ≤ i) :
    (natOfDigits (intChars i) : Int) = i := by
  rw [intChars_of_pos h, natOfDigits_decimalDigits]
  omega

theorem adjust_formula_references_eq (f : String) (R M : Int) :
    adjust_formula_references f R M = String.mk (renderAll R M (scanPieces f.data)) := rfl

theorem renderAll_append (R M : Int) (a b : List Piece) :
    renderAll R M (a ++ b) = renderAll R M a ++ renderAll R M b := by
  simp [renderAll]

theorem renderAll_lits (R M : Int) (ls : List Char) :
    renderAll R M (ls.map Piece.lit) = ls := by
  induction ls with
  | nil => rfl
  | cons a t ih => simp [renderAll, renderPiece] at ih ⊢; exact ih

theorem renderAll_cons (R M : Int) (p : Piece) (ps : List Piece) :
    renderAll R M (p :: ps) = renderPiece R M p ++ renderAll R M ps := by
  simp [renderAll]

/-- The adjusted digit list of a token is a non-empty all-digit list when the
row being written is at least 1. -/
theorem adjustDigits_all_digit (R M : Int) (hR : 1 ≤ R) (ds : List Char)
    (hds : ∀ x ∈ ds, isDigitA x = true) (hne : ds ≠ []) :
    adjustDigits R M ds ≠ [] ∧ ∀ x ∈ adjustDigits R M ds, isDigitA x = true := by
  rw [adjustDigits]
  split
  · next h =>
      rw [intChars_of_pos (by omega)]
      exact ⟨decimalDigits_ne_nil _, decimalDigits_all_digit _⟩
  · next h =>
      exact ⟨hne, hds⟩

/-- Transformed token digits evaluate to the shifted row number. -/
theorem natOfDigits_adjustDigits (R M : Int) (hR : 1 ≤ R) (ds : List Char) :
    natOfDigits (adjustDigits R M ds) =
      if (natOfDigits ds : Int) > M then ((natOfDigits ds : Int) + (R - M - 1)).toNat
      else natOfDigits ds := by
  rw [adjustDigits]
  split
  · next hgt =>
      have h1 : (1 : Int) ≤ (natOfDigits ds : Int) + (R - M - 1) := by omega
      have h2 := natOfDigits_intChars h1
      omega
  · next hle => rfl

theorem map_transf_lits (R M : Int) (ls : List Char) :
    (ls.map Piece.lit).map (transfPiece R M) = ls.map Piece.lit := by
  induction ls with
  | nil => rfl
  | cons a t ih => simp only [List.map_cons, transfPiece, ih]

/-- First character of the rendered scan output equals the first character of
the input. -/
theorem head_renderAll_scan (R M : Int) :
    ∀ l : List Char, (renderAll R M (scanPieces l)).head? = l.head? := by
  intro l
  cases l with
  | nil => rfl
  | cons c rest =>
      cases hc : isUpperA c with
      | false =>
          rw [scan_cons_notUpper hc, renderAll_cons]
          simp [renderPiece]
      | true =>
          have hls : (c :: rest).takeWhile isUpperA = c :: rest.takeWhile isUpperA := by
            simp [List.takeWhile, hc]
          rcases scan_decomp c rest hc with ⟨_, hEq⟩ | ⟨_, hEq⟩
          · rw [hEq, renderAll_append, renderAll_lits, hls]
            simp
          · rw [hEq, renderAll_cons]
            simp only [renderPiece, hls]
            simp

/-- Main rescanning theorem: scanning the rewritten formula yields exactly
the transformed pieces of the original scan, provided the row being written
is at least 1 (as it always is at the rewriter's call site). -/
theorem scan_render_scan (R M : Int) (hR : 1 ≤ R) :
    ∀ (n : Nat) (l : List Char), l.length ≤ n →
      scanPieces (renderAll R M (scanPieces l)) = (scanPieces l).map (transfPiece R M) := by
  intro n
  induction n with
  | zero =>
      intro l h
      have : l = [] := List.length_eq_zero.mp (Nat.le_zero.mp h)
      subst this
      rfl
  | succ n ih =>
      intro l h
      cases l with
      | nil => rfl
      | cons c rest =>
          cases hc : isUpperA c with
          | false =>
              rw [scan_cons_notUpper hc, renderAll_cons]
              simp only [renderPiece, List.singleton_append, List.map_cons, transfPiece]
              rw [scan_cons_notUpper hc, ih rest (by simpa using h)]
          | true =>
              have hls : (c :: rest).takeWhile isUpperA = c :: rest.takeWhile isUpperA := by
                simp [List.takeWhile, hc]
              have hlsne : (c :: rest).takeWhile isUpperA ≠ [] := by
                rw [hls]; simp
              have hlsall : ∀ x ∈ (c :: rest).takeWhile isUpperA, isUpperA x = true :=
                fun x hx => mem_takeWhile_sat isUpperA _ x hx
              have hr1len : ((c :: rest).dropWhile isUpperA).length ≤ rest.length := by
                simp [List.dropWhile, hc]
                exact length_dropWhile_le' isUpperA rest
              rcases scan_decomp c rest hc with ⟨hds, hEq⟩ | ⟨hds, hEq⟩
              · -- letters not followed by digits: emitted as literals
                rw [hEq, renderAll_append, renderAll_lits]
                have hbound : ∀ x, (renderAll R M (scanPieces ((c :: rest).dropWhile isUpperA))).head? = some x →
                    isUpperA x = false ∧ isDigitA x = false := by
                  intro x hx
                  rw [head_renderAll_scan] at hx
                  exact ⟨dropWhile_head_false isUpperA _ x hx,
                    (by
                      have := takeWhile_nil_of_head isDigitA ((c :: rest).dropWhile isUpperA)
                      cases hcase : ((c :: rest).dropWhile isUpperA) with
                      | nil => rw [hcase] at hx; simp at hx
                      | cons y ys =>
                          rw [hcase] at hx hds
                          simp at hx
                          subst hx
                          simp [List.takeWhile] at hds
                          cases hdy : isDigitA y with
                          | false => rfl
                          | true => rw [hdy] at hds; simp at hds)⟩
                rw [scan_lits hlsne hlsall hbound]
                rw [ih _ (Nat.le_trans hr1len (by simpa using h))]
                rw [List.map_append, map_transf_lits]
              · -- a token: letters followed by digits
                set ls := (c :: rest).takeWhile isUpperA with hlsdef
                set dds := ((c :: rest).dropWhile isUpperA).takeWhile isDigitA with hddsdef
                set r2 := ((c :: rest).dropWhile isUpperA).dropWhile isDigitA with hr2def
                have hddsall : ∀ x ∈ dds, isDigitA x = true :=
                  fun x hx => mem_takeWhile_sat isDigitA _ x hx
                have hE := adjustDigits_all_digit R M hR dds hddsall hds
                have hr2head : ∀ x, (renderAll R M (scanPieces r2)).head? = some x →
                    isDigitA x = false := by
                  intro x hx
                  rw [head_renderAll_scan] at hx
                  exact dropWhile_head_false isDigitA _ x hx
                rw [hEq, renderAll_cons]
                simp only [renderPiece]
                rw [List.append_assoc]
                rw [scan_ref hlsne hlsall hE.1 hE.2 hr2head]
                have hr2len : r2.length ≤ n := by
                  rw [hr2def]
                  exact Nat.le_trans (Nat.le_trans (length_dropWhile_le' isDigitA _) hr1len)
                    (by simpa using h)
                rw [ih r2 hr2len]
                simp [transfPiece]

/-- Token-level characterization of _adjust_formula_references: every
cell-reference token at or below original_max_row is unchanged, every token
above it is shifted by (current_row - original_max_row - 1); column letters
and token order are preserved.  Hypothesis: the row being written to is at
least 1 (openpyxl raises on any smaller coordinate before the rewriter could
be called). -/
theorem cellRefs_adjust (f : String) (R M : Int) (hR : 1 ≤ R) :
    cellRefs (adjust_formula_references f R M) =
      (cellRefs f).map (fun t =>
        (t.1, if (t.2 : Int) > M then ((t.2 : Int) + (R - M - 1)).toNat else t.2)) := by
  rw [adjust_formula_references_eq, cellRefs, cellRefs]
  show (scanPieces (renderAll R M (scanPieces f.data))).filterMap refValue = _
  rw [scan_render_scan R M hR f.data.length f.data Nat.le.refl]
  rw [List.filterMap_map, List.map_filterMap]
  congr 1
  funext p
  cases p with
  | lit c => rfl
  | ref ls ds =>
      simp [Function.comp, transfPiece, refValue, natOfDigits_adjustDigits R M hR]

/-!
### Lemmas about the sheet model
-/

theorem maxRow_nil : maxRow [] = 1 := rfl

theorem maxRow_cons (e : (Nat × Nat) × Cell) (t : SheetL) :
    maxRow (e :: t) = max e.1.1 (maxRow t) := rfl

theorem maxCol_cons (e : (Nat × Nat) × Cell) (t : SheetL) :
    maxCol (e :: t) = max e.1.2 (maxCol t) := rfl

theorem one_le_maxRow (s : SheetL) : 1 ≤ maxRow s := by
  induction s with
  | nil => exact Nat.le.refl
  | cons e t ih => rw [maxRow_cons]; exact Nat.le_trans ih (Nat.le_max_right _ _)

theorem one_le_maxCol (s : SheetL) : 1 ≤ maxCol s := by
  induction s with
  | nil => exact Nat.le.refl
  | cons e t ih => rw [maxCol_cons]; exact Nat.le_trans ih (Nat.le_max_right _ _)

theorem le_maxRow_of_mem {s : SheetL} {e : (Nat × Nat) × Cell} (he : e ∈ s) :
    e.1.1 ≤ maxRow s := by
  induction s with
  | nil => simp at he
  | cons a t ih =>
      rw [maxRow_cons]
      rcases List.mem_cons.mp he with h | h
      · exact h ▸ Nat.le_max_left _ _
      · exact Nat.le_trans (ih h) (Nat.le_max_right _ _)

theorem le_maxCol_of_mem {s : SheetL} {e : (Nat × Nat) × Cell} (he : e ∈ s) :
    e.1.2 ≤ maxCol s := by
  induction s with
  | nil => simp at he
  | cons a t ih =>
      rw [maxCol_cons]
      rcases List.mem_cons.mp he with h | h
      · exact h ▸ Nat.le_max_left _ _
      · exact Nat.le_trans (ih h) (Nat.le_max_right _ _)

theorem maxRow_le {s : SheetL} {b : Nat} (hb : 1 ≤ b) (h : ∀ e ∈ s, e.1.1 ≤ b) :
    maxRow s ≤ b := by
  induction s with
  | nil => exact hb
  | cons a t ih =>
      rw [maxRow_cons]
      exact max_le (h a (by simp)) (ih (fun e he => h e (by simp [he])))

theorem maxRow_attained (s : SheetL) : maxRow s = 1 ∨ ∃ e ∈ s, e.1.1 = maxRow s := by
  induction s with
  | nil => exact Or.inl rfl
  | cons a t ih =>
      rw [maxRow_cons]
      rcases Nat.le_total a.1.1 (maxRow t) with hle | hle
      · rw [max_eq_right hle]
        rcases ih with h1 | ⟨e, he, heq⟩
        · rcases Nat.eq_or_lt_of_le (Nat.le_trans hle (le_of_eq h1)) with ha | _
          · exact Or.inr ⟨a, by simp, by omega⟩
          · exact Or.inl h1
        · exact Or.inr ⟨e, by simp [he], heq⟩
      · rw [max_eq_left hle]
        exact Or.inr ⟨a, by simp, rfl⟩

theorem getCell_cons_same (s : SheetL) (r c : Nat) (cl : Cell) :
    getCell (((r, c), cl) :: s) r c = some cl := by
  unfold getCell
  rw [List.find?_cons_of_pos _ (by simp)]
  rfl

theorem getCell_setCell_same (s : SheetL) (r c : Nat) (cl : Cell) :
    getCell (setCell s r c cl) r c = some cl := getCell_cons_same ..

theorem find?_eraseCell (s : SheetL) (r c : Nat) (k' : Nat × Nat) (h : k' ≠ (r, c)) :
    List.find? (fun e => e.1 == k') (eraseCell s r c) =
      List.find? (fun e => e.1 == k') s := by
  induction s with
  | nil => rfl
  | cons a t ih =>
      unfold eraseCell at ih ⊢
      by_cases ha : a.1 = (r, c)
      · rw [List.filter_cons_of_neg (by simp [ha]), ih,
          List.find?_cons_of_neg _ (by simp [ha]; exact fun hh => h hh.symm)]
      · rw [List.filter_cons_of_pos (by simp [ha])]
        by_cases ha2 : a.1 = k'
        · rw [List.find?_cons_of_pos _ (by simp [ha2]),
            List.find?_cons_of_pos _ (by simp [ha2])]
        · rw [List.find?_cons_of_neg _ (by simp [ha2]),
            List.find?_cons_of_neg _ (by simp [ha2]), ih]

theorem getCell_setCell_ne (s : SheetL) (r c : Nat) (cl : Cell) {r' c' : Nat}
    (h : (r', c') ≠ (r, c)) :
    getCell (setCell s r c cl) r' c' = getCell s r' c' := by
  unfold getCell setCell
  rw [List.find?_cons_of_neg _
      (by simp; intro h1 h2; exact h (by simp [h1, h2])),
    find?_eraseCell s r c _ h]

theorem createCell_of_isSome {s : SheetL} {r c : Nat} (h : (getCell s r c).isSome) :
    createCell s r c = s := by
  unfold createCell
  rw [if_pos h]

theorem getCell_createCell_ne (s : SheetL) (r c : Nat) {r' c' : Nat}
    (h : (r', c') ≠ (r, c)) :
    getCell (createCell s r c) r' c' = getCell s r' c' := by
  unfold createCell
  split
  · rfl
  · unfold getCell
    rw [List.find?_cons_of_neg _ (by simp; intro h1 h2; exact h (by simp [h1, h2]))]

theorem cellValue_createCell (s : SheetL) (r c r' c' : Nat) :
    cellValue (createCell s r c) r' c' = cellValue s r' c' := by
  by_cases hk : (r', c') = (r, c)
  · have h1 : r' = r := congrArg Prod.fst hk
    have h2 : c' = c := congrArg Prod.snd hk
    subst h1; subst h2
    unfold createCell
    split
    · rfl
    · next hns =>
        have hnone : getCell s r' c' = none := by
          cases hg : getCell s r' c' with
          | none => rfl
          | some x => rw [hg] at hns; simp at hns
        unfold cellValue
        rw [hnone, getCell_cons_same]
  · rw [cellValue, getCell_createCell_ne s r c hk, cellValue]

theorem cellValue_setValue_same (s : SheetL) (r c : Nat) (v : Value) :
    cellValue (setValue s r c v) r c = v := by
  unfold cellValue setValue
  rw [getCell_setCell_same]

theorem cellValue_setValue_ne (s : SheetL) (r c : Nat) (v : Value) {r' c' : Nat}
    (h : (r', c') ≠ (r, c)) :
    cellValue (setValue s r c v) r' c' = cellValue s r' c' := by
  unfold cellValue setValue
  rw [getCell_setCell_ne _ _ _ _ h]

theorem cellValue_setStyle (s : SheetL) (r c : Nat) (st : CellStyle) (r' c' : Nat) :
    cellValue (setStyle s r c st) r' c' = cellValue s r' c' := by
  by_cases hk : (r', c') = (r, c)
  · have h1 : r' = r := congrArg Prod.fst hk
    have h2 : c' = c := congrArg Prod.snd hk
    subst h1; subst h2
    unfold cellValue setStyle
    rw [getCell_setCell_same]
    cases hg : getCell s r' c' <;> rfl
  · unfold cellValue setStyle
    rw [getCell_setCell_ne _ _ _ _ hk]

theorem getCell_setStyle_same (s : SheetL) (r c : Nat) (st : CellStyle) :
    getCell (setStyle s r c st) r c = some { (getCell s r c).getD {} with style := st } := by
  unfold setStyle
  rw [getCell_setCell_same]

theorem maxRow_eraseCell_le (s : SheetL) (r c : Nat) :
    maxRow (eraseCell s r c) ≤ maxRow s := by
  apply maxRow_le (one_le_maxRow s)
  intro e he
  exact le_maxRow_of_mem (List.mem_of_mem_filter he)

theorem maxRow_setCell (s : SheetL) (r c : Nat) (cl : Cell) :
    maxRow (setCell s r c cl) = max r (maxRow s) := by
  apply Nat.le_antisymm
  · rw [setCell, maxRow_cons]
    exact max_le (Nat.le_max_left _ _)
      (Nat.le_trans (maxRow_eraseCell_le s r c) (Nat.le_max_right _ _))
  · apply max_le
    · exact le_maxRow_of_mem (e := ((r, c), cl)) (by simp [setCell])
    · rcases maxRow_attained s with h1 | ⟨e, he, heq⟩
      · rw [h1]; exact one_le_maxRow _
      · by_cases hk : e.1 = (r, c)
        · have : e.1.1 = r := by rw [hk]
          rw [← heq, this]
          exact le_maxRow_of_mem (e := ((r, c), cl)) (by simp [setCell])
        · rw [← heq]
          exact le_maxRow_of_mem (by simp [setCell, eraseCell, List.mem_filter, he, hk])

theorem maxRow_setValue (s : SheetL) (r c : Nat) (v : Value) :
    maxRow (setValue s r c v) = max r (maxRow s) := maxRow_setCell ..

theorem maxRow_setStyle (s : SheetL) (r c : Nat) (st : CellStyle) :
    maxRow (setStyle s r c st) = max r (maxRow s) := maxRow_setCell ..

theorem maxRow_createCell (s : SheetL) (r c : Nat) :
    maxRow (createCell s r c) = max (maxRow s) r := by
  unfold createCell
  split
  · next h =>
      rw [Option.isSome_iff_exists] at h
      obtain ⟨cl, hcl⟩ := h
      unfold getCell at hcl
      obtain ⟨e, he1, he2⟩ : ∃ e, List.find? (fun e => e.1 == (r, c)) s = some e ∧ e.2 = cl := by
        cases hf : List.find? (fun e => e.1 == (r, c)) s with
        | none => rw [hf] at hcl; simp at hcl
        | some e => rw [hf] at hcl; simp at hcl; exact ⟨e, rfl, hcl⟩
      have hmem := List.mem_of_find?_eq_some he1
      have hkey : e.1 = (r, c) := by simpa using List.find?_some he1
      have : r ≤ maxRow s := by
        have := le_maxRow_of_mem hmem
        rw [hkey] at this
        exact this
      exact (max_eq_left this).symm
  · rw [maxRow_cons]
    exact Nat.max_comm ..

theorem rowHasCell_iff {s : SheetL} {r : Nat} :
    rowHasCell s r = true ↔ ∃ e ∈ s, e.1.1 = r := by
  unfold rowHasCell
  rw [List.any_eq_true]
  constructor
  · rintro ⟨e, he, hp⟩; exact ⟨e, he, by simpa using hp⟩
  · rintro ⟨e, he, hp⟩; exact ⟨e, he, by simpa using hp⟩

theorem foldr_max_le {l : List Nat} {x : Nat} (hx : x ∈ l) : x ≤ l.foldr max 0 := by
  induction l with
  | nil => simp at hx
  | cons a t ih =>
      simp only [List.foldr]
      rcases List.mem_cons.mp hx with h | h
      · exact h ▸ Nat.le_max_left _ _
      · exact Nat.le_trans (ih h) (Nat.le_max_right _ _)

theorem foldr_max_mem {l : List Nat} (h : l ≠ []) : l.foldr max 0 ∈ l := by
  induction l with
  | nil => exact absurd rfl h
  | cons a t ih =>
      simp only [List.foldr]
      rcases Nat.le_total a (t.foldr max 0) with hle | hle
      · rw [max_eq_right hle]
        cases ht : t with
        | nil => subst ht; simp at hle ⊢; omega
        | cons b t' => exact List.mem_cons_of_mem a (ht ▸ ih (by simp [ht]))
      · rw [max_eq_left hle]
        exact List.mem_cons_self a t

/-!
### Lemmas about the Python string helpers and the position resolver
-/

theorem head?_mem {α} {l : List α} {c : α} (h : l.head? = some c) : c ∈ l := by
  cases l with
  | nil => simp at h
  | cons a t =>
      simp at h
      simp [h]

theorem isPrefixChars_self_append : ∀ (p x : List Char), isPrefixChars p (p ++ x) = true := by
  intro p x
  induction p with
  | nil => rfl
  | cons a t ih => simp [isPrefixChars, ih]

theorem splitOnChar_ne_nil (sep : Char) : ∀ l, splitOnChar sep l ≠ [] := by
  intro l
  cases l with
  | nil => simp [splitOnChar]
  | cons c rest =>
      simp only [splitOnChar]
      split
      · simp
      · split
        · simp
        · simp

theorem splitOnChar_no_sep (sep : Char) : ∀ l : List Char, (∀ c ∈ l, c ≠ sep) →
    splitOnChar sep l = [l] := by
  intro l
  induction l with
  | nil => intro _; rfl
  | cons a t ih =>
      intro h
      simp only [splitOnChar]
      rw [if_neg (h a (by simp)), ih (fun c hc => h c (by simp [hc]))]

theorem splitOnChar_append_cons (sep : Char) (Y : List Char) :
    ∀ X : List Char, splitOnChar sep (X ++ sep :: Y) =
      splitOnChar sep X ++ splitOnChar sep Y := by
  intro X
  induction X with
  | nil => simp [splitOnChar]
  | cons a t ih =>
      by_cases ha : a = sep
      · subst ha
        simp [splitOnChar, List.append_eq, ih]
      · simp only [List.cons_append, splitOnChar, if_neg ha, List.append_eq, ih]
        cases hsp : splitOnChar sep t with
        | nil => exact absurd hsp (splitOnChar_ne_nil sep t)
        | cons p ps => simp

theorem lastToken_split_suffix (suffix : List Char)
    (h : ∀ c ∈ suffix, c ≠ Char.ofNat 95) :
    lastToken (splitOnChar (Char.ofNat 95) (("after_row_").data ++ suffix)) = suffix := by
  have hd : ("after_row_").data = ("after_row").data ++ [Char.ofNat 95] := by decide
  rw [hd, List.append_assoc, List.singleton_append, splitOnChar_append_cons,
    splitOnChar_no_sep _ suffix h, lastToken]
  simp

theorem stripChars_of_no_ws {l : List Char} (h : ∀ c ∈ l, isWS c = false) :
    stripChars l = l := by
  unfold stripChars
  rw [dropWhile_self_of_head isWS l (fun c hc => h c (head?_mem hc)),
    dropWhile_self_of_head isWS l.reverse
      (fun c hc => h c (by simpa using head?_mem hc))]
  simp

theorem isDigitA_not_ws {c : Char} (h : isDigitA c = true) : isWS c = false := by
  have h' : 48 ≤ c.toNat ∧ c.toNat ≤ 57 := by simpa [isDigitA] using h
  by_contra hc
  rw [Bool.not_eq_false] at hc
  have : c = ' ' ∨ c = Char.ofNat 9 ∨ c = Char.ofNat 10 ∨ c = Char.ofNat 13 := by
    simpa [isWS, or_assoc] using hc
  rcases this with h1 | h1 | h1 | h1 <;>
    (rw [h1] at h'; revert h'; decide)

theorem isDigitA_ne_of_toNat {c : Char} (h : isDigitA c = true) {d : Char}
    (hd : d.toNat < 48 ∨ 57 < d.toNat) : c ≠ d := by
  intro he
  subst he
  simp [isDigitA] at h
  omega

theorem pyInt_digits {ds : List Char} (h1 : ds ≠ []) (h2 : ∀ c ∈ ds, isDigitA c = true) :
    pyInt (String.mk ds) = some ((natOfDigits ds : Int)) := by
  have hs : stripChars (String.mk ds).data = ds :=
    stripChars_of_no_ws (fun c hc => isDigitA_not_ws (h2 c hc))
  simp only [pyInt, hs]
  cases ds with
  | nil => exact absurd rfl h1
  | cons c rest =>
      have hc := h2 c (by simp)
      have hc45 : c ≠ Char.ofNat 45 := isDigitA_ne_of_toNat hc (by decide)
      have hc43 : c ≠ Char.ofNat 43 := isDigitA_ne_of_toNat hc (by decide)
      simp [hc45, hc43, List.all_eq_true.mpr h2]

theorem intChars_no_underscore (k : Int) : ∀ c ∈ intChars k, c ≠ Char.ofNat 95 := by
  intro c hc
  unfold intChars at hc
  split at hc
  · rcases List.mem_cons.mp hc with h | h
    · subst h; decide
    · exact isDigitA_ne_of_toNat (decimalDigits_all_digit _ c h) (by decide)
  · exact isDigitA_ne_of_toNat (decimalDigits_all_digit _ c hc) (by decide)

theorem pyInt_intChars (k : Int) : pyInt (String.mk (intChars k)) = some k := by
  have hnws : ∀ c ∈ intChars k, isWS c = false := by
    intro c hc
    unfold intChars at hc
    split at hc
    · rcases List.mem_cons.mp hc with h | h
      · subst h; decide
      · exact isDigitA_not_ws (decimalDigits_all_digit _ c h)
    · exact isDigitA_not_ws (decimalDigits_all_digit _ c hc)
  have hs : stripChars (String.mk (intChars k)).data = intChars k :=
    stripChars_of_no_ws hnws
  simp only [pyInt, hs]
  unfold intChars
  split
  · next hneg =>
      cases hdd : decimalDigits k.natAbs with
      | nil => exact absurd hdd (decimalDigits_ne_nil _)
      | cons d dt =>
          have hval : natOfDigits (d :: dt) = k.natAbs :=
            hdd ▸ natOfDigits_decimalDigits k.natAbs
          have hall : (d :: dt).all isDigitA = true :=
            List.all_eq_true.mpr (fun x hx => decimalDigits_all_digit _ x (hdd ▸ hx))
          simp [hall]
          rw [hval]
          omega
  · next hpos =>
      cases hdd : decimalDigits k.toNat with
      | nil => exact absurd hdd (decimalDigits_ne_nil _)
      | cons d dt =>
          have hd := decimalDigits_all_digit k.toNat d (by rw [hdd]; simp)
          have hd45 : d ≠ Char.ofNat 45 := isDigitA_ne_of_toNat hd (by decide)
          have hd43 : d ≠ Char.ofNat 43 := isDigitA_ne_of_toNat hd (by decide)
          have hval : natOfDigits (d :: dt) = k.toNat :=
            hdd ▸ natOfDigits_decimalDigits k.toNat
          have hall : (d :: dt).all isDigitA = true :=
            List.all_eq_true.mpr (fun x hx => decimalDigits_all_digit _ x (hdd ▸ hx))
          simp [hd45, hd43, hall]
          rw [hval]
          omega

theorem resolver_end (m : Nat) :
    determine_insert_position ("end") m = ((m : Int) + 1, none) := by
  unfold determine_insert_position
  rw [if_pos rfl]

theorem resolver_beginning (m : Nat) :
    determine_insert_position ("beginning") m = (2, none) := by
  unfold determine_insert_position
  rw [if_neg (by decide), if_pos rfl]

theorem after_row_append_ne_end (x : String) : ("after_row_") ++ x ≠ ("end") := by
  intro he
  have h := congrArg String.data he
  rw [String.data_append] at h
  have hlen := congrArg List.length h
  rw [List.length_append] at hlen
  have h10 : ("after_row_").data.length = 10 := by decide
  have h3 : ("end").data.length = 3 := by decide
  omega

theorem after_row_append_ne_beginning (x : String) :
    ("after_row_") ++ x ≠ ("beginning") := by
  intro he
  have h := congrArg String.data he
  rw [String.data_append] at h
  have hlen := congrArg List.length h
  rw [List.length_append] at hlen
  have h10 : ("after_row_").data.length = 10 := by decide
  have h9 : ("beginning").data.length = 9 := by decide
  omega

theorem resolver_after_row (suffix : List Char)
    (hs : ∀ c ∈ suffix, c ≠ Char.ofNat 95) (m : Nat) :
    determine_insert_position (("after_row_") ++ String.mk suffix) m =
      (match pyInt (String.mk suffix) with
       | some k => (k + 1, none)
       | none => (0, some ((("无效的插入位置格式: ") ++
           (("after_row_") ++ String.mk suffix))))) := by
  have hdata : (("after_row_") ++ String.mk suffix).data = ("after_row_").data ++ suffix :=
    String.data_append ..
  have hpre : pyStartsWith (("after_row_") ++ String.mk suffix) ("after_row_") = true := by
    unfold pyStartsWith
    rw [hdata]
    exact isPrefixChars_self_append _ _
  unfold determine_insert_position
  rw [if_neg (after_row_append_ne_end _), if_neg (after_row_append_ne_beginning _),
    if_pos hpre, hdata, lastToken_split_suffix suffix hs]

theorem resolver_after_row_int (k : Int) (m : Nat) :
    determine_insert_position (("after_row_") ++ String.mk (intChars k)) m =
      (k + 1, none) := by
  rw [resolver_after_row (intChars k) (intChars_no_underscore k) m, pyInt_intChars k]

/-!
### Claim C4 — position resolver (corrected)
-/

/-- C4, counterexample to the claim as stated: the claim says an
"after_row_" form whose suffix is not a positive integer yields an
InvalidPosition error, but "after_row_0" resolves to row 1 with no error
(Python int("0") parses, and 0 + 1 = 1). -/
theorem claimC4_counterexample :
    determine_insert_position ("after_row_0") 5 = (1, none) := by decide

/-- C4 (amended): the resolver maps "end" to max_row + 1, "beginning" to 2,
and "after_row_<suffix>" to k + 1 whenever the last underscore-separated
token of the position string parses as an integer k under Python int() —
including k = 0 and negative k, with no InvalidPosition error and no
positivity requirement; InvalidPosition arises exactly for an integer-free
suffix or for any string matching none of the three forms. -/
theorem claimC4_amended_theorem (m : Nat) :
    determine_insert_position ("end") m = ((m : Int) + 1, none) ∧
    determine_insert_position ("beginning") m = (2, none) ∧
    (∀ k : Int, determine_insert_position (("after_row_") ++ String.mk (intChars k)) m =
      (k + 1, none)) ∧
    (∀ suffix : List Char, (∀ c ∈ suffix, c ≠ Char.ofNat 95) →
      pyInt (String.mk suffix) = none →
      determine_insert_position (("after_row_") ++ String.mk suffix) m =
        (0, some ((("无效的插入位置格式: ") ++ (("after_row_") ++ String.mk suffix))))) ∧
    (∀ s : String, s ≠ ("end") → s ≠ ("beginning") →
      pyStartsWith s ("after_row_") = false →
      determine_insert_position s m = (0, some ((("不支持的插入位置: ") ++ s)))) := by
  refine ⟨resolver_end m, resolver_beginning m, fun k => resolver_after_row_int k m,
    fun suffix hsu hpi => ?_, fun s h1 h2 h3 => ?_⟩
  · rw [resolver_after_row suffix hsu m, hpi]
  · unfold determine_insert_position
    rw [if_neg h1, if_neg h2, h3]
    rfl

/-- C4, witness: the amended theorem applied at concrete inputs, with each
hypothesis discharged by computation. -/
theorem claimC4_amended_witness :
    determine_insert_position ("end") 5 = ((5 : Int) + 1, none) ∧
    determine_insert_position (("after_row_") ++ String.mk (intChars 7)) 5 = (7 + 1, none) ∧
    determine_insert_position (("after_row_") ++ String.mk [Char.ofNat 120]) 5 =
      (0, some ((("无效的插入位置格式: ") ++ (("after_row_") ++ String.mk [Char.ofNat 120])))) ∧
    determine_insert_position ("middle") 5 = (0, some ((("不支持的插入位置: ") ++ ("middle")))) :=
  ⟨(claimC4_amended_theorem 5).1,
   (claimC4_amended_theorem 5).2.2.1 7,
   (claimC4_amended_theorem 5).2.2.2.1 [Char.ofNat 120] (by decide) (by decide),
   (claimC4_amended_theorem 5).2.2.2.2 ("middle") (by decide) (by decide) (by decide)⟩

/-!
### Claim C5 — DeleteRow behaviour (corrected)
-/

/-- C5, counterexample to the claim as stated: deleting the only data row
succeeds and leaves a header-only sheet, but the subsequent DeleteRow on
that sheet fails with the out-of-range error message (row_number 2 exceeds
max_row 1, a check made before the header-only check), not with the
no-data-rows message the claim announces; the two messages differ. -/
theorem claimC5_counterexample :
    (delete_excel_row ("f.xlsx") true (".xlsx") 2 none
      [(("Sheet1"), [((1, 1), (⟨.vStr ("H"), {}⟩ : Cell)),
        ((2, 1), (⟨.vStr ("a"), {}⟩ : Cell))])]).saved =
      some [((1, 1), (⟨.vStr ("H"), {}⟩ : Cell))] ∧
    (delete_excel_row ("f.xlsx") true (".xlsx") 2 none
      [(("Sheet1"), [((1, 1), (⟨.vStr ("H"), {}⟩ : Cell))])]).error =
      some (("行号 2 超出数据范围。当前工作表最大行数: 1")) ∧
    (("行号 2 超出数据范围。当前工作表最大行数: 1") : String) ≠
      ("工作表中没有数据行可以删除（只有标题行或工作表为空）") := by decide

/-- Common helper: the first character of an appended string. -/
theorem data_head_append (a b : String) {c : Char} (h : a.data.head? = some c) :
    (a ++ b).data.head? = some c := by
  rw [String.data_append]
  cases hd : a.data with
  | nil => rw [hd] at h; simp at h
  | cons x t => rw [hd] at h; simp at h; simp [h]

/-- The out-of-range message never coincides with the no-data-rows
message (their first characters differ). -/
theorem range_msg_ne_nodata (r : Int) (m : Nat) :
    (("行号 ") ++ toString r ++ (" 超出数据范围。当前工作表最大行数: ") ++ toString m) ≠
      ("工作表中没有数据行可以删除（只有标题行或工作表为空）") := by
  intro h
  have hL : ((("行号 ") ++ toString r ++ (" 超出数据范围。当前工作表最大行数: ") ++
      toString m) : String).data.head? = some (Char.ofNat 34892) :=
    data_head_append _ _ (data_head_append _ _ (data_head_append _ _ (by decide)))
  rw [h] at hL
  revert hL
  decide

/-- C5 (amended): row_number < 2 always fails with the header-protection
InvalidRow error and no save; DeleteRow(2) on a sheet with exactly one data
row (max_row = 2) succeeds, reports zero remaining data rows, and the saved
sheet has no cell in any row at or below row 2's old position; but a
subsequent DeleteRow on the header-only sheet fails with the out-of-range
InvalidRow error — the NoDataRows branch is unreachable, because
row_number ≥ 2 > max_row = 1 always triggers the range check first. -/
theorem claimC5_amended_theorem (fp nm : String) (row : Int) (s : SheetL) :
    (row < 2 →
      delete_excel_row fp true (".xlsx") row none [(nm, s)] =
        ⟨false, some ((("行号必须大于等于2（第1行是标题行，不可删除），当前值: ") ++
          toString row)), none, none⟩) ∧
    (row = 2 → maxRow s = 2 →
      (delete_excel_row fp true (".xlsx") row none [(nm, s)]).success = true ∧
      (delete_excel_row fp true (".xlsx") row none [(nm, s)]).data =
        some { deleted_row_number := 2, remaining_rows_count := 1, data_rows_count := 0 } ∧
      (delete_excel_row fp true (".xlsx") row none [(nm, s)]).saved =
        some (deleteRowAt s 2) ∧
      (∀ r c : Nat, 2 ≤ r → getCell (deleteRowAt s 2) r c = none)) ∧
    (maxRow s = 1 → 2 ≤ row →
      delete_excel_row fp true (".xlsx") row none [(nm, s)] =
        ⟨false, some ((("行号 ") ++ toString row ++
          (" 超出数据范围。当前工作表最大行数: ") ++ toString (1 : Nat))), none, none⟩ ∧
      (("行号 ") ++ toString row ++ (" 超出数据范围。当前工作表最大行数: ") ++
          toString (1 : Nat)) ≠
        ("工作表中没有数据行可以删除（只有标题行或工作表为空）")) := by
  refine ⟨fun hlt => ?_, fun hrow hmax => ?_, fun hmax hge => ?_⟩
  · unfold delete_excel_row
    rw [if_neg (by simp), if_neg (by decide), if_pos hlt]
  · subst hrow
    unfold delete_excel_row
    rw [if_neg (by simp), if_neg (by decide), if_neg (by omega)]
    show (match resolveSheet none [(nm, s)] with | _ => _ : DeleteOutcome).success = _ ∧ _
    rw [show resolveSheet none [(nm, s)] = .ok (nm, s) from rfl]
    simp only [hmax]
    rw [if_neg (by omega), if_neg (by omega)]
    refine ⟨rfl, rfl, rfl, fun r c hr => ?_⟩
    rw [getCell]
    rw [List.find?_eq_none.mpr ?_]
    · rfl
    · intro e he hbeq
      rcases List.mem_filterMap.mp he with ⟨e0, he0, hf⟩
      have hle : e0.1.1 ≤ 2 := hmax ▸ le_maxRow_of_mem he0
      by_cases h2 : e0.1.1 = 2
      · rw [if_pos h2] at hf; simp at hf
      · rw [if_neg h2, if_neg (by omega)] at hf
        simp at hf
        subst hf
        have hpair : e0.1 = (r, c) := by simpa using hbeq
        have hr1 : e0.1.1 = r := congrArg Prod.fst hpair
        omega
  · constructor
    · unfold delete_excel_row
      rw [if_neg (by simp), if_neg (by decide), if_neg (by omega)]
      show (match resolveSheet none [(nm, s)] with | _ => _ : DeleteOutcome) = _
      rw [show resolveSheet none [(nm, s)] = .ok (nm, s) from rfl]
      simp only [hmax]
      rw [if_pos (by omega)]
    · exact range_msg_ne_nodata row 1

/-- C5, witness: the amended theorem applied to concrete sheets. -/
theorem claimC5_amended_witness :
    (delete_excel_row ("f.xlsx") true (".xlsx") 1 none
      [(("S"), [((1, 1), (⟨.vStr ("H"), {}⟩ : Cell))])]).success = false ∧
    (delete_excel_row ("f.xlsx") true (".xlsx") 2 none
      [(("S"), ([((1, 1), ⟨.vStr ("H"), {}⟩), ((2, 1), ⟨.vStr ("a"), {}⟩)] : SheetL))]).success
        = true ∧
    getCell (deleteRowAt ([((1, 1), ⟨.vStr ("H"), {}⟩), ((2, 1), ⟨.vStr ("a"), {}⟩)] : SheetL) 2)
      2 1 = none ∧
    (delete_excel_row ("f.xlsx") true (".xlsx") 2 none
      [(("S"), [((1, 1), (⟨.vStr ("H"), {}⟩ : Cell))])]).success = false := by
  have h1 := (claimC5_amended_theorem ("f.xlsx") ("S") 1
    [((1, 1), ⟨.vStr ("H"), {}⟩)]).1 (by decide)
  have h2 := (claimC5_amended_theorem ("f.xlsx") ("S") 2
    [((1, 1), ⟨.vStr ("H"), {}⟩), ((2, 1), ⟨.vStr ("a"), {}⟩)]).2.1 rfl (by decide)
  have h3 := (claimC5_amended_theorem ("f.xlsx") ("S") 2
    [((1, 1), ⟨.vStr ("H"), {}⟩)]).2.2 (by decide) (by decide)
  exact ⟨by rw [h1], h2.1, h2.2.2.2 2 1 (by decide), by rw [h3.1]⟩

/-!
### Claim C9 — SetCellText rejections (corrected)
-/

theorem dropWhile_append_single {α} (p : α → Bool) {c : α} (hc : p c = false) :
    ∀ l : List α, (l ++ [c]).dropWhile p = l.dropWhile p ++ [c] := by
  intro l
  induction l with
  | nil => simp [List.dropWhile, hc]
  | cons a t ih =>
      simp only [List.cons_append, List.dropWhile_cons]
      cases ha : p a with
      | true => simpa using ih
      | false => simp

theorem stripChars_cons_head {c : Char} {l : List Char} (hc : isWS c = false) :
    stripChars (c :: l) = c :: (l.reverse.dropWhile isWS).reverse := by
  unfold stripChars
  rw [List.dropWhile_cons, if_neg (by simp [hc]), List.reverse_cons,
    dropWhile_append_single isWS hc, List.reverse_append]
  simp

theorem pyStartsWith_strip_eq {t : String} (h : t.data.head? = some (Char.ofNat 61)) :
    pyStartsWith (pyStrip t) ("=") = true := by
  obtain ⟨rest, hrest⟩ : ∃ rest, t.data = Char.ofNat 61 :: rest := by
    cases hd : t.data with
    | nil => rw [hd] at h; simp at h
    | cons a t' => rw [hd] at h; simp at h; exact ⟨t', by rw [h]⟩
  unfold pyStartsWith pyStrip
  rw [hrest, stripChars_cons_head (by decide)]
  rw [show ("=").data = [Char.ofNat 61] from by decide]
  simp [isPrefixChars]

/-- If the SetCellText parameter validator reports no error, every check
passed: the file exists with a supported extension, the coordinates are in
range, and the text is a string that does not start with "=" after strip and
is not over-long. -/
theorem cell_validate_none_inversion {fp : String} {fe : Bool} {ext : String}
    {r c : Int} {t : Value}
    (h : cell_validate_parameters fp fe ext r c t = none) :
    fe = true ∧ (ext = (".xlsx") ∨ ext = (".xls")) ∧ 1 ≤ r ∧ r ≤ 1048576 ∧ 1 ≤ c ∧
      c ≤ 16384 ∧ ∃ tt, t = .vStr tt ∧ pyStartsWith (pyStrip tt) ("=") = false ∧
      tt.length ≤ 32767 := by
  unfold cell_validate_parameters at h
  split_ifs at h with h1 h2 h3 h4 h5 h6
  split at h
  · next tt =>
      split_ifs at h with h7 h8
      refine ⟨by simpa using h1, by
          rcases Classical.em (ext = (".xlsx")) with hx | hx
          · exact Or.inl hx
          · exact Or.inr ((by simpa using h2 : ¬ext = (".xlsx") → ext = (".xls")) hx),
        by omega, by omega, by omega, by omega, tt, rfl, by simpa using h7, by omega⟩
  · next => simp at h

/-- A validator error makes insert_cell_text fail with that error and no
save. -/
theorem insert_cell_text_validator_error {fp : String} {fe : Bool} {ext : String}
    {r c : Int} {t : Value} {nm : Option String} {pf : Bool}
    {sheets : List (String × SheetL)} {e : String}
    (h : cell_validate_parameters fp fe ext r c t = some e) :
    insert_cell_text fp fe ext r c t nm pf sheets = ⟨false, some e, none, none⟩ := by
  unfold insert_cell_text
  rw [h]

/-- A text beginning with "=" can never pass the validator. -/
theorem cell_validate_eq_text_some (fp : String) (fe : Bool) (ext : String)
    (r c : Int) {t : String} (h : t.data.head? = some (Char.ofNat 61))
    (nm : Option String) (pf : Bool) (sheets : List (String × SheetL)) :
    ∃ e, cell_validate_parameters fp fe ext r c (.vStr t) = some e := by
  cases hv : cell_validate_parameters fp fe ext r c (.vStr t) with
  | some e => exact ⟨e, rfl⟩
  | none =>
      obtain ⟨-, -, -, -, -, -, tt, htt, hns, -⟩ := cell_validate_none_inversion hv
      cases htt
      rw [pyStartsWith_strip_eq h] at hns
      simp at hns

/-- C9, counterexample to the claim as stated: for a call whose text begins
with "=" but whose row number is 0, the failure message is the row-bound
error, not the FormulaNotAllowed error the claim announces (the row check
precedes the formula check). -/
theorem claimC9_counterexample :
    (insert_cell_text ("f.xlsx") true (".xlsx") 0 1 (.vStr ("=SUM(A1:A2)")) none true
      [(("Sheet1"), [((1, 1), (⟨.vStr ("H"), {}⟩ : Cell))])]).error =
      some (("行号必须大于等于1，当前值: 0")) ∧
    (("行号必须大于等于1，当前值: 0") : String) ≠
      ("不允许插入公式，此工具仅支持纯文本插入") := by decide

/-- C9 (amended): every SetCellText call whose text begins with "=" fails
before the workbook is opened and never saves; the failure is specifically
the FormulaNotAllowed error when the file, extension, and coordinate checks
pass (otherwise it is that earlier check's error, as the counterexample
shows).  Out-of-range coordinates, non-string text, and text longer than
32767 characters are likewise rejected before the workbook is opened, with
no save. -/
theorem claimC9_amended_theorem :
    (∀ (fp : String) (fe : Bool) (ext : String) (r c : Int) (t : String)
        (nm : Option String) (pf : Bool) (sheets : List (String × SheetL)),
      t.data.head? = some (Char.ofNat 61) →
      (insert_cell_text fp fe ext r c (.vStr t) nm pf sheets).success = false ∧
      (insert_cell_text fp fe ext r c (.vStr t) nm pf sheets).saved = none) ∧
    (∀ (fp : String) (r c : Int) (t : String) (nm : Option String) (pf : Bool)
        (sheets : List (String × SheetL)),
      t.data.head? = some (Char.ofNat 61) →
      1 ≤ r → r ≤ 1048576 → 1 ≤ c → c ≤ 16384 →
      (insert_cell_text fp true (".xlsx") r c (.vStr t) nm pf sheets).error =
        some (("不允许插入公式，此工具仅支持纯文本插入"))) ∧
    (∀ (fp : String) (fe : Bool) (ext : String) (r c : Int) (t : Value)
        (nm : Option String) (pf : Bool) (sheets : List (String × SheetL)),
      (r < 1 ∨ r > 1048576 ∨ c < 1 ∨ c > 16384) →
      (insert_cell_text fp fe ext r c t nm pf sheets).success = false ∧
      (insert_cell_text fp fe ext r c t nm pf sheets).saved = none) ∧
    (∀ (fp : String) (r c : Int) (v : Value) (nm : Option String) (pf : Bool)
        (sheets : List (String × SheetL)),
      (∀ u, v ≠ .vStr u) → 1 ≤ r → r ≤ 1048576 → 1 ≤ c → c ≤ 16384 →
      (insert_cell_text fp true (".xlsx") r c v nm pf sheets).error =
        some ((("文本内容必须是字符串类型，当前类型: ") ++ pyTypeName v)) ∧
      (insert_cell_text fp true (".xlsx") r c v nm pf sheets).saved = none) ∧
    (∀ (fp : String) (fe : Bool) (ext : String) (r c : Int) (t : String)
        (nm : Option String) (pf : Bool) (sheets : List (String × SheetL)),
      t.length > 32767 →
      (insert_cell_text fp fe ext r c (.vStr t) nm pf sheets).success = false ∧
      (insert_cell_text fp fe ext r c (.vStr t) nm pf sheets).saved = none) := by
  refine ⟨?_, ?_, ?_, ?_, ?_⟩
  · intro fp fe ext r c t nm pf sheets h
    obtain ⟨e, he⟩ := cell_validate_eq_text_some fp fe ext r c h nm pf sheets
    rw [insert_cell_text_validator_error he]
    exact ⟨rfl, rfl⟩
  · intro fp r c t nm pf sheets h hr1 hr2 hc1 hc2
    have hv : cell_validate_parameters fp true (".xlsx") r c (.vStr t) =
        some (("不允许插入公式，此工具仅支持纯文本插入")) := by
      unfold cell_validate_parameters
      rw [if_neg (by simp), if_neg (by decide), if_neg (by omega), if_neg (by omega),
        if_neg (by omega), if_neg (by omega)]
      simp [pyStartsWith_strip_eq h]
    rw [insert_cell_text_validator_error hv]
  · intro fp fe ext r c t nm pf sheets h
    cases hv : cell_validate_parameters fp fe ext r c t with
    | some e => rw [insert_cell_text_validator_error hv]; exact ⟨rfl, rfl⟩
    | none =>
        obtain ⟨-, -, hr1, hr2, hc1, hc2, -⟩ := cell_validate_none_inversion hv
        omega
  · intro fp r c v nm pf sheets hnv hr1 hr2 hc1 hc2
    have hv : cell_validate_parameters fp true (".xlsx") r c v =
        some ((("文本内容必须是字符串类型，当前类型: ") ++ pyTypeName v)) := by
      unfold cell_validate_parameters
      rw [if_neg (by simp), if_neg (by decide), if_neg (by omega), if_neg (by omega),
        if_neg (by omega), if_neg (by omega)]
      cases v with
      | vStr u => exact absurd rfl (hnv u)
      | vInt n => rfl
      | vNone => rfl
    rw [insert_cell_text_validator_error hv]
    exact ⟨rfl, rfl⟩
  · intro fp fe ext r c t nm pf sheets h
    cases hv : cell_validate_parameters fp fe ext r c (.vStr t) with
    | some e => rw [insert_cell_text_validator_error hv]; exact ⟨rfl, rfl⟩
    | none =>
        obtain ⟨-, -, -, -, -, -, tt, htt, -, hlen⟩ := cell_validate_none_inversion hv
        cases htt
        omega

/-- C9, witness: the amended theorem applied at concrete inputs. -/
theorem claimC9_amended_witness :
    (insert_cell_text ("f.xlsx") true (".xlsx") 2 3 (.vStr ("=SUM(A1:A2)")) none true
      [(("S"), [((1, 1), (⟨.vStr ("H"), {}⟩ : Cell))])]).error =
      some (("不允许插入公式，此工具仅支持纯文本插入")) ∧
    (insert_cell_text ("f.xlsx") true (".xlsx") 2000000 3 (.vStr ("x")) none true
      [(("S"), [((1, 1), (⟨.vStr ("H"), {}⟩ : Cell))])]).saved = none ∧
    (insert_cell_text ("f.xlsx") true (".xlsx") 2 3 (.vInt 5) none true
      [(("S"), [((1, 1), (⟨.vStr ("H"), {}⟩ : Cell))])]).error =
      some ((("文本内容必须是字符串类型，当前类型: ") ++ pyTypeName (.vInt 5))) := by
  refine ⟨?_, ?_, ?_⟩
  · exact claimC9_amended_theorem.2.1 ("f.xlsx") 2 3 ("=SUM(A1:A2)") none true
      [(("S"), [((1, 1), ⟨.vStr ("H"), {}⟩)])] (by decide) (by decide) (by decide)
      (by decide) (by decide)
  · exact (claimC9_amended_theorem.2.2.1 ("f.xlsx") true (".xlsx") 2000000 3 (.vStr ("x"))
      none true [(("S"), [((1, 1), ⟨.vStr ("H"), {}⟩)])] (by omega)).2
  · exact (claimC9_amended_theorem.2.2.2.1 ("f.xlsx") 2 3 (.vInt 5) none true
      [(("S"), [((1, 1), ⟨.vStr ("H"), {}⟩)])] (fun u => by simp) (by decide) (by decide)
      (by decide) (by decide)).1

/-!
### Claim C8 — alignment policy (confirmed)
-/

theorem apply_cell_alignment_alignment (st : CellStyle) (p : Bool) (o : Option CellStyle) :
    (apply_cell_alignment st p o).alignment = leftAlignment := by
  cases p <;> cases o <;> rfl

theorem apply_cell_formatting_alignment (st : CellStyle) (p : Bool) (o : Option CellStyle) :
    (apply_cell_formatting st p o).alignment = leftAlignment := by
  cases p <;> cases o <;> rfl

/-- The style of the cell just written by writeCell carries the forced
alignment. -/
theorem writeCell_style_alignment (s : SheetL) (fr : FormulaReport) (row : Row)
    (hdr : String) (r c : Nat) (pf cf : Bool) (rro : Option Nat) :
    ((getCell ((writeCell s fr row hdr r c pf cf rro).1) r c).getD {}).style.alignment =
      leftAlignment := by
  show ((getCell (setStyle _ r c _) r c).getD {}).style.alignment = leftAlignment
  rw [getCell_setStyle_same]
  simp [apply_cell_alignment_alignment]

/-- Any sheet saved by insert_cell_text holds the forced alignment at the
written coordinate. -/
theorem insert_cell_text_saved_alignment (fp : String) (fe : Bool) (ext : String)
    (r c : Int) (t : Value) (nm : Option String) (pf : Bool)
    (sheets : List (String × SheetL)) (s' : SheetL)
    (h : (insert_cell_text fp fe ext r c t nm pf sheets).saved = some s') :
    ((getCell s' r.toNat c.toNat).getD {}).style.alignment = leftAlignment := by
  unfold insert_cell_text at h
  cases hv : cell_validate_parameters fp fe ext r c t with
  | some e => rw [hv] at h; simp at h
  | none =>
      rw [hv] at h
      cases hr : resolveSheet nm sheets with
      | error e => rw [hr] at h; simp at h
      | ok ws0 =>
          rw [hr] at h
          cases t with
          | vStr tt =>
              have hs' : setStyle
                  (setValue (createCell ws0.2 r.toNat c.toNat) r.toNat c.toNat (.vStr tt))
                  r.toNat c.toNat
                  (apply_cell_formatting
                    ((getCell (setValue (createCell ws0.2 r.toNat c.toNat) r.toNat c.toNat
                        (.vStr tt)) r.toNat c.toNat).getD {}).style pf
                    (if pf then
                      some ((getCell (setValue (createCell ws0.2 r.toNat c.toNat) r.toNat
                        c.toNat (.vStr tt)) r.toNat c.toNat).getD {}).style
                     else none)) = s' := by
                simpa using h
              rw [← hs', getCell_setStyle_same]
              simp [apply_cell_formatting_alignment]
          | vInt n => simp at h
          | vNone => simp at h

/-- C8: both formatting helpers unconditionally force left/center/no-wrap
alignment; with preserve_formatting set and a reference cell present, font,
fill and border are copied from the reference while alignment is never
copied; the cell written by the row writer and the cell saved by
SetCellText end with the forced alignment. -/
theorem claimC8_theorem :
    (∀ (st : CellStyle) (p : Bool) (o : Option CellStyle),
      (apply_cell_alignment st p o).alignment = leftAlignment ∧
      (apply_cell_formatting st p o).alignment = leftAlignment) ∧
    (∀ (st rf : CellStyle),
      (apply_cell_alignment st true (some rf)).font = rf.font ∧
      (apply_cell_alignment st true (some rf)).fill = rf.fill ∧
      (apply_cell_alignment st true (some rf)).border = rf.border ∧
      (apply_cell_formatting st true (some rf)).font = rf.font ∧
      (apply_cell_formatting st true (some rf)).fill = rf.fill ∧
      (apply_cell_formatting st true (some rf)).border = rf.border) ∧
    (∀ (st : CellStyle) (o : Option CellStyle),
      (apply_cell_alignment st false o) = { st with alignment := leftAlignment } ∧
      (apply_cell_formatting st false o) = { st with alignment := leftAlignment }) ∧
    (∀ (s : SheetL) (fr : FormulaReport) (row : Row) (hdr : String) (r c : Nat)
        (pf cf : Bool) (rro : Option Nat),
      ((getCell ((writeCell s fr row hdr r c pf cf rro).1) r c).getD {}).style.alignment =
        leftAlignment) ∧
    (∀ (fp : String) (fe : Bool) (ext : String) (r c : Int) (t : Value)
        (nm : Option String) (pf : Bool) (sheets : List (String × SheetL)) (s' : SheetL),
      (insert_cell_text fp fe ext r c t nm pf sheets).saved = some s' →
      ((getCell s' r.toNat c.toNat).getD {}).style.alignment = leftAlignment) := by
  refine ⟨fun st p o => ⟨apply_cell_alignment_alignment st p o,
      apply_cell_formatting_alignment st p o⟩,
    fun st rf => ⟨rfl, rfl, rfl, rfl, rfl, rfl⟩,
    fun st o => ⟨by cases o <;> rfl, by cases o <;> rfl⟩,
    writeCell_style_alignment,
    insert_cell_text_saved_alignment⟩

/-- C8, witness: the conjunct with a hypothesis applied at a concrete
successful SetCellText call. -/
theorem claimC8_witness :
    ((getCell (((insert_cell_text ("f.xlsx") true (".xlsx") 2 3 (.vStr ("hello")) none true
        [(("S"), [((1, 1), (⟨.vStr ("H"), {}⟩ : Cell))])]).saved).getD [])
      (2 : Int).toNat (3 : Int).toNat).getD {}).style.alignment = leftAlignment := by
  have hsome : (insert_cell_text ("f.xlsx") true (".xlsx") 2 3 (.vStr ("hello")) none true
      [(("S"), [((1, 1), (⟨.vStr ("H"), {}⟩ : Cell))])]).saved =
      some (((insert_cell_text ("f.xlsx") true (".xlsx") 2 3 (.vStr ("hello")) none true
        [(("S"), [((1, 1), (⟨.vStr ("H"), {}⟩ : Cell))])]).saved).getD []) := by decide
  exact claimC8_theorem.2.2.2.2 ("f.xlsx") true (".xlsx") 2 3 (.vStr ("hello")) none true
    [(("S"), [((1, 1), ⟨.vStr ("H"), {}⟩)])] _ hsome

/-!
### Shared pipeline lemmas
-/

theorem insert_validate_ok (fp : String) (bs : Int) (h1 : bs ≤ 500) (h2 : 0 < bs) :
    insert_validate_parameters fp true (".xlsx") bs = none := by
  unfold insert_validate_parameters
  rw [if_neg (by omega), if_neg (by omega), if_neg (by simp), if_neg (by decide)]

theorem resolveSheet_single (nm : String) (s : SheetL) :
    resolveSheet none [(nm, s)] = .ok (nm, s) := rfl

theorem data_rows_not_empty (s : SheetL) :
    ((List.range' 1 (maxRow s)).map
      (fun r => (List.range' 1 (maxCol s)).map (cellValue s r))).isEmpty = false := by
  have h1 := one_le_maxRow s
  cases h : List.range' 1 (maxRow s) with
  | nil =>
      have := List.range'_eq_nil.mp h
      omega
  | cons a t => simp [h]

/-!
### Claim C6 — empty committed set (confirmed)
-/

/-- C6: when validation leaves no committable rows, insert_excel_row fails
with the no-valid-rows error, returns the validation report as the data
payload, and performs no save (the file on disk is unchanged). -/
theorem claimC6_theorem (fp nm : String) (rd : RowData) (pos : String)
    (vr : Option (List (String × VRule))) (pf cf : Bool) (bs : Int) (s : SheetL)
    (hbs1 : bs ≤ 500) (hbs2 : 0 < bs)
    (hlen : ((normalizeRows rd).length : Int) ≤ bs)
    (hval : (validate_data (normalizeRows rd) vr).1 = []) :
    insert_excel_row fp true (".xlsx") rd none pos vr pf cf bs [(nm, s)] =
      ⟨false, some (("所有行都未通过验证，没有数据可插入")),
        some (.reportOnly (validate_data (normalizeRows rd) vr).2), none⟩ := by
  simp only [insert_excel_row, insert_validate_ok fp bs hbs1 hbs2, resolveSheet_single]
  rw [if_neg (by omega : ¬ ((normalizeRows rd).length : Int) > bs)]
  rw [if_neg (by simp [data_rows_not_empty s])]
  rw [if_pos (by simp [hval])]

/-- C6, witness: a concrete batch in which the single row fails a required
check, so nothing is committable. -/
theorem claimC6_witness :
    insert_excel_row ("f.xlsx") true (".xlsx")
        (.many [[(("Age"), .vStr (""))]]) none ("end")
        (some [(("Age"), { required := true })]) true true 100
        [(("S"), [((1, 1), (⟨.vStr ("H"), {}⟩ : Cell))])] =
      ⟨false, some (("所有行都未通过验证，没有数据可插入")),
        some (.reportOnly ((validate_data (normalizeRows (.many [[(("Age"), .vStr (""))]]))
          (some [(("Age"), { required := true })])).2)), none⟩ := by
  exact claimC6_theorem ("f.xlsx") ("S") (.many [[(("Age"), .vStr (""))]]) ("end")
    (some [(("Age"), { required := true })]) true true 100
    [((1, 1), ⟨.vStr ("H"), {}⟩)] (by omega) (by omega) (by decide) (by rfl)

/-!
### Claim C10 — absent columns skip validation (confirmed)
-/

/-- The final sheet of one writeCell, as a style write over a value write
over cell creation (with the reference cell possibly created in between). -/
theorem writeCell_sheet_shape (s : SheetL) (fr : FormulaReport) (row : Row)
    (hdr : String) (r c : Nat) (pf cf : Bool) (rro : Option Nat) :
    ∃ V ST, (writeCell s fr row hdr r c pf cf rro).1 =
      setStyle (match rro with
        | some rr => createCell (setValue (createCell s r c) r c V) rr c
        | none => setValue (createCell s r c) r c V) r c ST := by
  cases rro with
  | some rr =>
      cases hlk : lookupRow row hdr with
      | none =>
          simp only [writeCell, hlk]
          exact ⟨_, _, rfl⟩
      | some v =>
          cases v with
          | vStr f =>
              cases cf with
              | true =>
                  by_cases hf : pyStartsWith f ("=") = true
                  · simp only [writeCell, hlk]
                    rw [if_pos hf]
                    exact ⟨_, _, rfl⟩
                  · simp only [writeCell, hlk]
                    rw [if_neg hf]
                    exact ⟨_, _, rfl⟩
              | false =>
                  simp only [writeCell, hlk]
                  exact ⟨_, _, rfl⟩
          | vInt n =>
              simp only [writeCell, hlk]
              exact ⟨_, _, rfl⟩
          | vNone =>
              simp only [writeCell, hlk]
              exact ⟨_, _, rfl⟩
  | none =>
      cases hlk : lookupRow row hdr with
      | none =>
          simp only [writeCell, hlk]
          exact ⟨_, _, rfl⟩
      | some v =>
          cases v with
          | vStr f =>
              cases cf with
              | true =>
                  by_cases hf : pyStartsWith f ("=") = true
                  · simp only [writeCell, hlk]
                    rw [if_pos hf]
                    exact ⟨_, _, rfl⟩
                  · simp only [writeCell, hlk]
                    rw [if_neg hf]
                    exact ⟨_, _, rfl⟩
              | false =>
                  simp only [writeCell, hlk]
                  exact ⟨_, _, rfl⟩
          | vInt n =>
              simp only [writeCell, hlk]
              exact ⟨_, _, rfl⟩
          | vNone =>
              simp only [writeCell, hlk]
              exact ⟨_, _, rfl⟩

/-- Cells other than the one being written keep their value through one
writeCell (the reference-cell access creates at most an empty cell, which is
invisible to value reads). -/
theorem writeCell_cellValue_frame (s : SheetL) (fr : FormulaReport) (row : Row)
    (hdr : String) (r c : Nat) (pf cf : Bool) (rro : Option Nat) {r' c' : Nat}
    (h : (r', c') ≠ (r, c)) :
    cellValue ((writeCell s fr row hdr r c pf cf rro).1) r' c' = cellValue s r' c' := by
  cases rro with
  | some rr =>
      obtain ⟨V, ST, hsh⟩ := writeCell_sheet_shape s fr row hdr r c pf cf (some rr)
      rw [hsh]
      simp only [cellValue_setStyle, cellValue_createCell]
      rw [cellValue_setValue_ne _ _ _ _ h, cellValue_createCell]
  | none =>
      obtain ⟨V, ST, hsh⟩ := writeCell_sheet_shape s fr row hdr r c pf cf none
      rw [hsh]
      simp only [cellValue_setStyle]
      rw [cellValue_setValue_ne _ _ _ _ h, cellValue_createCell]

/-- A header column absent from the row mapping is written as a null cell. -/
theorem writeCell_value_none (s : SheetL) (fr : FormulaReport) (row : Row)
    (hdr : String) (r c : Nat) (pf cf : Bool) (rro : Option Nat)
    (hlk : lookupRow row hdr = none) :
    cellValue ((writeCell s fr row hdr r c pf cf rro).1) r c = .vNone := by
  cases rro with
  | some rr =>
      simp only [writeCell, hlk]
      simp only [cellValue_setStyle, cellValue_createCell, cellValue_setValue_same]
  | none =>
      simp only [writeCell, hlk]
      simp only [cellValue_setStyle, cellValue_setValue_same]

/-- A header column present in the row mapping with a value the formula
branch does not fire on is written verbatim. -/
theorem writeCell_value_raw (s : SheetL) (fr : FormulaReport) (row : Row)
    (hdr : String) (r c : Nat) (pf cf : Bool) (rro : Option Nat) {v : Value}
    (hlk : lookupRow row hdr = some v) (hnf : cf = true → isFormulaValue v = false) :
    cellValue ((writeCell s fr row hdr r c pf cf rro).1) r c = v := by
  cases rro with
  | some rr =>
      cases v with
      | vStr f =>
          cases cf with
          | true =>
              have hf : pyStartsWith f ("=") = false := by
                have := hnf rfl
                simpa [isFormulaValue] using this
              simp only [writeCell, hlk]
              rw [if_neg (by simp [hf])]
              simp only [cellValue_setStyle, cellValue_createCell, cellValue_setValue_same]
          | false =>
              simp only [writeCell, hlk]
              simp only [cellValue_setStyle, cellValue_createCell, cellValue_setValue_same]
      | vInt n =>
          simp only [writeCell, hlk]
          simp only [cellValue_setStyle, cellValue_createCell, cellValue_setValue_same]
      | vNone =>
          simp only [writeCell, hlk]
          simp only [cellValue_setStyle, cellValue_createCell, cellValue_setValue_same]
  | none =>
      cases v with
      | vStr f =>
          cases cf with
          | true =>
              have hf : pyStartsWith f ("=") = false := by
                have := hnf rfl
                simpa [isFormulaValue] using this
              simp only [writeCell, hlk]
              rw [if_neg (by simp [hf])]
              simp only [cellValue_setStyle, cellValue_setValue_same]
          | false =>
              simp only [writeCell, hlk]
              simp only [cellValue_setStyle, cellValue_setValue_same]
      | vInt n =>
          simp only [writeCell, hlk]
          simp only [cellValue_setStyle, cellValue_setValue_same]
      | vNone =>
          simp only [writeCell, hlk]
          simp only [cellValue_setStyle, cellValue_setValue_same]

/-- Cells outside the written column range keep their value through the
per-row fold of writeRowCells. -/
theorem writeRow_fold_frame (row : Row) (r : Nat) (pf cf : Bool) (rro : Option Nat) :
    ∀ (headers : List String) (i0 : Nat) (p : SheetL × FormulaReport) (r' c' : Nat),
      (∀ j, j < headers.length → (r', c') ≠ (r, i0 + j + 1)) →
      cellValue (((List.enumFrom i0 headers).foldl
        (fun acc ih2 => writeCell acc.1 acc.2 row ih2.2 r (ih2.1 + 1) pf cf rro) p).1) r' c' =
        cellValue p.1 r' c' := by
  intro headers
  induction headers with
  | nil => intro i0 p r' c' hne; rfl
  | cons hd tl ih =>
      intro i0 p r' c' hne
      simp only [List.enumFrom, List.foldl_cons]
      rw [ih (i0 + 1) (writeCell p.1 p.2 row hd r (i0 + 1) pf cf rro) r' c' ?htl]
      · exact writeCell_cellValue_frame p.1 p.2 row hd r (i0 + 1) pf cf rro
          (by simpa using hne 0 (by simp))
      case htl =>
        intro j hj
        have h1 := hne (j + 1) (by simp; omega)
        have hco : i0 + 1 + j + 1 = i0 + (j + 1) + 1 := by omega
        rw [hco]
        exact h1

/-- A header whose column is absent from the row mapping ends as a null
cell after the per-row fold. -/
theorem writeRow_fold_absent (row : Row) (r : Nat) (pf cf : Bool) (rro : Option Nat) :
    ∀ (headers : List String) (i0 : Nat) (p : SheetL × FormulaReport) (j : Nat)
      (hj : j < headers.length),
      lookupRow row (headers.get ⟨j, hj⟩) = none →
      cellValue (((List.enumFrom i0 headers).foldl
        (fun acc ih2 => writeCell acc.1 acc.2 row ih2.2 r (ih2.1 + 1) pf cf rro) p).1)
        r (i0 + j + 1) = .vNone := by
  intro headers
  induction headers with
  | nil => intro i0 p j hj; exact absurd hj (by simp)
  | cons hd tl ih =>
      intro i0 p j hj hlk
      simp only [List.enumFrom, List.foldl_cons]
      cases j with
      | zero =>
          rw [writeRow_fold_frame row r pf cf rro tl (i0 + 1)
            (writeCell p.1 p.2 row hd r (i0 + 1) pf cf rro) r (i0 + 0 + 1) ?hcols]
          · exact writeCell_value_none p.1 p.2 row hd r (i0 + 1) pf cf rro hlk
          case hcols =>
            intro j hj2
            simp only [ne_eq, Prod.mk.injEq, not_and]
            intro _
            omega
      | succ j2 =>
          have hco : i0 + (j2 + 1) + 1 = i0 + 1 + j2 + 1 := by omega
          rw [hco]
          exact ih (i0 + 1) (writeCell p.1 p.2 row hd r (i0 + 1) pf cf rro) j2
            (by simpa using Nat.lt_of_succ_lt_succ (by simpa using hj)) hlk

/-- writeRowCells leaves a null cell in every column whose header is absent
from the row mapping. -/
theorem writeRowCells_absent_null (s : SheetL) (fr : FormulaReport) (row : Row)
    (headers : List String) (r : Nat) (pf cf : Bool) (rro : Option Nat)
    (j : Nat) (hj : j < headers.length)
    (hlk : lookupRow row (headers.get ⟨j, hj⟩) = none) :
    cellValue ((writeRowCells s fr row headers r pf cf rro).1) r (j + 1) = .vNone := by
  have h := writeRow_fold_absent row r pf cf rro headers 0 (s, fr) j hj hlk
  simp only [writeRowCells, List.enum]
  simpa using h

/-- A rule whose column is absent from the row contributes no error at all
(required included). -/
theorem row_errors_skip (col : String) (rule : VRule) (rest : List (String × VRule))
    (row : Row) (hlk : lookupRow row col = none) :
    row_errors ((col, rule) :: rest) row = row_errors rest row := by
  simp only [row_errors, List.flatMap_cons, hlk]
  rfl

/-- A row whose mapping misses every rule column produces no errors. -/
theorem row_errors_all_absent (row : Row) :
    ∀ (rules : List (String × VRule)), (∀ cr ∈ rules, lookupRow row cr.1 = none) →
      row_errors rules row = [] := by
  intro rules
  induction rules with
  | nil => intro h; rfl
  | cons cr rs ih =>
      intro h
      rw [show cr = (cr.1, cr.2) from rfl,
        row_errors_skip cr.1 cr.2 rs row (h cr (by simp))]
      exact ih (fun c hc => h c (by simp [hc]))

/-- A one-row batch whose row misses every rule column passes validation
untouched. -/
theorem validate_single_all_absent (row : Row) (rules : List (String × VRule))
    (h : ∀ cr ∈ rules, lookupRow row cr.1 = none) :
    validate_data [row] (some rules) = ([row], { passed := 1 }) := by
  cases rules with
  | nil => rfl
  | cons cr rs =>
      have hre := row_errors_all_absent row (cr :: rs) h
      simp [validate_data, List.enum, List.enumFrom, hre]

/-- C10: a validation rule whose column name is absent from the row applies
no check at all — a (col, rule) entry with lookup miss is skipped even when
required is set, a row missing every rule column passes validation and is
committed, the writer leaves a null cell in a column absent from the row
mapping, and a row matching no header at all is written all-null. -/
theorem claimC10_theorem :
    (∀ (col : String) (rule : VRule) (rest : List (String × VRule)) (row : Row),
      lookupRow row col = none →
      row_errors ((col, rule) :: rest) row = row_errors rest row) ∧
    (∀ (row : Row) (rules : List (String × VRule)),
      (∀ cr ∈ rules, lookupRow row cr.1 = none) →
      validate_data [row] (some rules) = ([row], { passed := 1 })) ∧
    (∀ (s : SheetL) (fr : FormulaReport) (row : Row) (hdr : String) (r c : Nat)
      (pf cf : Bool) (rro : Option Nat), lookupRow row hdr = none →
      cellValue ((writeCell s fr row hdr r c pf cf rro).1) r c = .vNone) ∧
    (∀ (s : SheetL) (fr : FormulaReport) (row : Row) (headers : List String)
      (r : Nat) (pf cf : Bool) (rro : Option Nat) (j : Nat) (hj : j < headers.length),
      (∀ hd ∈ headers, lookupRow row hd = none) →
      cellValue ((writeRowCells s fr row headers r pf cf rro).1) r (j + 1) = .vNone) := by
  refine ⟨row_errors_skip, validate_single_all_absent, writeCell_value_none, ?_⟩
  intro s fr row headers r pf cf rro j hj habs
  exact writeRowCells_absent_null s fr row headers r pf cf rro j hj
    (habs _ (headers.get_mem _ _))

/-- C10, witness: a row carrying only an unrelated column passes a
required-Age rule untouched, and a row with no matching header is written
as a null cell. -/
theorem claimC10_witness :
    validate_data [[(("X"), Value.vInt 5)]]
        (some [(("Age"), { required := true })]) =
      ([[(("X"), Value.vInt 5)]], { passed := 1 }) ∧
    cellValue ((writeRowCells [] {} [(("X"), Value.vInt 5)] [("Age")] 2 true true none).1)
      2 1 = .vNone :=
  ⟨claimC10_theorem.2.1 [(("X"), Value.vInt 5)] [(("Age"), { required := true })]
      (by decide),
    claimC10_theorem.2.2.2 [] {} [(("X"), Value.vInt 5)] [("Age")] 2 true true none 0
      (by decide) (by decide)⟩

/-!
### Row-shift and row-delete preservation lemmas
-/

theorem getCell_cons_ne (e : (Nat × Nat) × Cell) (t : SheetL) (r c : Nat)
    (h : ¬ e.1 = (r, c)) : getCell (e :: t) r c = getCell t r c := by
  unfold getCell
  rw [List.find?_cons_of_neg _ (by simpa using h)]

theorem getCell_cons_eq (e : (Nat × Nat) × Cell) (t : SheetL) (r c : Nat)
    (h : e.1 = (r, c)) : getCell (e :: t) r c = some e.2 := by
  unfold getCell
  rw [List.find?_cons_of_pos _ (by simpa using h)]
  rfl

theorem cellValue_congr {s1 s2 : SheetL} {r c : Nat}
    (h : getCell s1 r c = getCell s2 r c) : cellValue s1 r c = cellValue s2 r c := by
  unfold cellValue
  rw [h]

/-- Rows strictly below the insertion point are untouched by insert_rows. -/
theorem getCell_insertRowsAt_lt (k r c : Nat) (hr : r < k) :
    ∀ s : SheetL, getCell (insertRowsAt s k) r c = getCell s r c := by
  intro s
  induction s with
  | nil => rfl
  | cons e t ih =>
      simp only [insertRowsAt, List.map_cons] at *
      by_cases hk : k ≤ e.1.1
      · rw [if_pos hk]
        rw [getCell_cons_ne _ _ _ _ (by simp only [Prod.mk.injEq]; omega)]
        rw [getCell_cons_ne e t r c (by rw [Prod.ext_iff]; omega)]
        exact ih
      · rw [if_neg hk]
        by_cases he : e.1 = (r, c)
        · rw [getCell_cons_eq _ _ _ _ he, getCell_cons_eq e t r c he]
        · rw [getCell_cons_ne _ _ _ _ he, getCell_cons_ne e t r c he]
          exact ih

/-- Rows strictly below the deleted row are untouched by delete_rows. -/
theorem getCell_deleteRowAt_lt (k r c : Nat) (hr : r < k) :
    ∀ s : SheetL, getCell (deleteRowAt s k) r c = getCell s r c := by
  intro s
  induction s with
  | nil => rfl
  | cons e t ih =>
      by_cases h1 : e.1.1 = k
      · have hstep : deleteRowAt (e :: t) k = deleteRowAt t k := by
          simp [deleteRowAt, List.filterMap_cons, h1]
        rw [hstep, ih, getCell_cons_ne e t r c (by rw [Prod.ext_iff]; omega)]
      · by_cases h2 : k < e.1.1
        · have hstep : deleteRowAt (e :: t) k =
              ((e.1.1 - 1, e.1.2), e.2) :: deleteRowAt t k := by
            simp [deleteRowAt, List.filterMap_cons, h1, h2]
          rw [hstep, getCell_cons_ne _ _ _ _ (by simp only [Prod.mk.injEq]; omega),
            ih, getCell_cons_ne e t r c (by rw [Prod.ext_iff]; omega)]
        · have hstep : deleteRowAt (e :: t) k = e :: deleteRowAt t k := by
            simp [deleteRowAt, List.filterMap_cons, h1, h2]
          by_cases he : e.1 = (r, c)
          · rw [hstep, getCell_cons_eq _ _ _ _ he, getCell_cons_eq e t r c he]
          · rw [hstep, getCell_cons_ne _ _ _ _ he, ih, getCell_cons_ne e t r c he]

theorem insertDesc_perm (a : Nat) : ∀ l : List Nat, (insertDesc a l).Perm (a :: l) := by
  intro l
  induction l with
  | nil => exact List.Perm.refl _
  | cons b t ih =>
      unfold insertDesc
      by_cases h : b < a
      · rw [if_pos h]
      · rw [if_neg h]
        exact List.Perm.trans (List.Perm.cons b ih) (List.Perm.swap a b t)

theorem sortDesc_perm : ∀ l : List Nat, (sortDesc l).Perm l := by
  intro l
  induction l with
  | nil => exact List.Perm.refl _
  | cons a t ih =>
      have h1 : sortDesc (a :: t) = insertDesc a (sortDesc t) := rfl
      rw [h1]
      exact List.Perm.trans (insertDesc_perm a (sortDesc t)) (List.Perm.cons a ih)

/-- The reconciler only ever reports rows at index 2 or beyond. -/
theorem detect_ge_two (s : SheetL) (r : Nat) (h : r ∈ detect_empty_rows s) : 2 ≤ r := by
  unfold detect_empty_rows at h
  have h2 := List.mem_of_mem_filter h
  have h3 := List.mem_range'_1.mp h2
  omega

/-- Deleting any set of rows all at index 2 or beyond leaves row 1 intact. -/
theorem getCell_deleteFold_header (c : Nat) :
    ∀ (L : List Nat) (s : SheetL), (∀ x ∈ L, 2 ≤ x) →
      getCell (L.foldl (fun acc r2 => deleteRowAt acc r2) s) 1 c = getCell s 1 c := by
  intro L
  induction L with
  | nil => intro s h; rfl
  | cons a t ih =>
      intro s h
      simp only [List.foldl_cons]
      rw [ih (deleteRowAt s a) (fun x hx => h x (by simp [hx]))]
      exact getCell_deleteRowAt_lt a 1 c (by have := h a (by simp); omega) s

/-- The gap-opening insert_rows loop, all targets at ir or beyond with
ir ≥ 2, leaves row 1 intact. -/
theorem getCell_insertFold_header (c ir : Nat) (hir : 2 ≤ ir) :
    ∀ (n : Nat) (s : SheetL),
      getCell ((List.range n).foldl (fun acc i => insertRowsAt acc (ir + i)) s) 1 c =
        getCell s 1 c := by
  intro n
  induction n with
  | zero => intro s; rfl
  | succ m ih =>
      intro s
      rw [List.range_succ, List.foldl_append]
      simp only [List.foldl_cons, List.foldl_nil]
      rw [getCell_insertRowsAt_lt (ir + m) 1 c (by omega), ih s]

/-- Rows other than the written one keep their values through one
writeRowCells call. -/
theorem writeRowCells_frame_row (s : SheetL) (fr : FormulaReport) (row : Row)
    (headers : List String) (r : Nat) (pf cf : Bool) (rro : Option Nat)
    (r' c' : Nat) (h : r' ≠ r) :
    cellValue ((writeRowCells s fr row headers r pf cf rro).1) r' c' = cellValue s r' c' := by
  have hfr := writeRow_fold_frame row r pf cf rro headers 0 (s, fr) r' c'
    (fun j hj => by
      simp only [ne_eq, Prod.mk.injEq, not_and]
      intro h1
      exact absurd h1 h)
  simp only [writeRowCells, List.enum]
  simpa using hfr

/-- Rows outside the written block keep their values through the per-batch
fold of _insert_data_with_formatting. -/
theorem insertData_fold_frame (headers : List String) (ir2 : Nat) (pf cf : Bool)
    (rro : Option Nat) :
    ∀ (rows : List Row) (i0 : Nat) (p : SheetL × FormulaReport) (r' c' : Nat),
      (∀ i, i < rows.length → r' ≠ ir2 + (i0 + i)) →
      cellValue (((List.enumFrom i0 rows).foldl
        (fun acc ir3 => writeRowCells acc.1 acc.2 ir3.2 headers (ir2 + ir3.1) pf cf rro)
        p).1) r' c' = cellValue p.1 r' c' := by
  intro rows
  induction rows with
  | nil => intro i0 p r' c' h; rfl
  | cons rw0 tl ih =>
      intro i0 p r' c' h
      simp only [List.enumFrom, List.foldl_cons]
      rw [ih (i0 + 1) (writeRowCells p.1 p.2 rw0 headers (ir2 + i0) pf cf rro) r' c'
        (fun i hi => by
          have h2 := h (i + 1) (by simp; omega)
          intro hE
          apply h2
          omega)]
      exact writeRowCells_frame_row p.1 p.2 rw0 headers (ir2 + i0) pf cf rro r' c'
        (by have := h 0 (by simp); omega)

/-- _insert_data_with_formatting leaves every row outside
[insert_row, insert_row + batch) untouched. -/
theorem insert_data_frame (s : SheetL) (rows : List Row) (headers : List String)
    (ir2 : Nat) (pf cf : Bool) (rro : Option Nat) (r' c' : Nat)
    (h : ∀ i, i < rows.length → r' ≠ ir2 + i) :
    cellValue ((insert_data_with_formatting s rows headers ir2 pf cf rro).1) r' c' =
      cellValue s r' c' := by
  have hfr := insertData_fold_frame headers ir2 pf cf rro rows 0 (s, {}) r' c'
    (fun i hi => by have := h i hi; omega)
  simp only [insert_data_with_formatting, List.enum]
  simpa using hfr

/-- The full success path of insert_excel_row on a single-sheet workbook,
as one equation: with all guards passing, the result is the composition
gap-insert, data write, empty-row reconciliation, and the save of the
reconciled sheet. -/
theorem insert_success_eq (fp nm pos : String) (rd : RowData)
    (vr : Option (List (String × VRule))) (pf cf : Bool) (bs : Int) (s : SheetL)
    (hbs1 : bs ≤ 500) (hbs2 : 0 < bs)
    (hlen : ((normalizeRows rd).length : Int) ≤ bs)
    (hv : (validate_data (normalizeRows rd) vr).1 ≠ [])
    (hpe : (determine_insert_position pos (maxRow s)).2 = none)
    (hp1 : 1 ≤ (determine_insert_position pos (maxRow s)).1) :
    insert_excel_row fp true (".xlsx") rd none pos vr pf cf bs [(nm, s)] =
      (let headers := (((List.range' 1 (maxRow s)).map
          (fun r => (List.range' 1 (maxCol s)).map (cellValue s r))).headD []).enum.map
          (fun iv => match iv.2 with
            | .vNone => ("Column_") ++ toString (iv.1 + 1)
            | v => pyStr v)
       let vd := validate_data (normalizeRows rd) vr
       let insert_row := (determine_insert_position pos (maxRow s)).1
       let ir := insert_row.toNat
       let ws1 := if pos ≠ ("end") then
           (List.range vd.1.length).foldl (fun acc i => insertRowsAt acc (ir + i)) s
         else s
       let rro : Option Nat := if pf then some (max 2 (min (maxRow s) (ir - 1))) else none
       let wr := insert_data_with_formatting ws1 vd.1 headers ir pf cf rro
       let er := detect_empty_rows wr.1
       let rem := remove_empty_rows wr.1 er
       ⟨true, none, some (.full {
         inserted_rows := vd.1.length
         insert_position := pos
         actual_insert_row := insert_row
         validation_report := vd.2
         formula_report := wr.2
         empty_rows_removed := rem.2
         empty_rows_detected := er.length
         final_row_count := (maxRow rem.1 : Int) - 1 }), some rem.1⟩) := by
  simp only [insert_excel_row, insert_validate_ok fp bs hbs1 hbs2, resolveSheet_single]
  rw [if_neg (by omega : ¬ ((normalizeRows rd).length : Int) > bs)]
  rw [if_neg (by simp [data_rows_not_empty s])]
  rw [if_neg (by simpa [List.isEmpty_iff] using hv)]
  rw [hpe]
  rw [if_neg (by omega : ¬ (determine_insert_position pos (maxRow s)).1 < 1)]

/-- DeleteRow always rejects row numbers below 2, whatever the other
inputs, with no save. -/
theorem delete_lt_two (fp : String) (fe : Bool) (ext : String) (rn : Int)
    (sn : Option String) (sheets : List (String × SheetL)) (h : rn < 2) :
    (delete_excel_row fp fe ext rn sn sheets).success = false ∧
    (delete_excel_row fp fe ext rn sn sheets).saved = none := by
  unfold delete_excel_row
  cases fe with
  | false => exact ⟨rfl, rfl⟩
  | true =>
      rw [if_neg (by decide)]
      by_cases hx : ext = (".xlsx") ∨ ext = (".xls")
      · rcases hx with hx | hx
        · subst hx
          rw [if_neg (by decide), if_pos h]
          exact ⟨rfl, rfl⟩
        · subst hx
          rw [if_neg (by decide), if_pos h]
          exact ⟨rfl, rfl⟩
      · have hx2 := not_or.mp hx
        rw [if_pos (by simp [hx2.1, hx2.2])]
        exact ⟨rfl, rfl⟩

/-- The success path of delete_excel_row on a single-sheet workbook. -/
theorem delete_success_eq (fp nm : String) (rn : Int) (s : SheetL)
    (h2 : 2 ≤ rn) (hmr : rn ≤ (maxRow s : Int)) :
    delete_excel_row fp true (".xlsx") rn none [(nm, s)] =
      ⟨true, none, some {
        deleted_row_number := rn
        remaining_rows_count := (maxRow s : Int) - 1
        data_rows_count := (maxRow s : Int) - 1 - 1 }, some (deleteRowAt s rn.toNat)⟩ := by
  unfold delete_excel_row
  rw [if_neg (by decide), if_neg (by decide), if_neg (by omega)]
  simp only [resolveSheet_single]
  rw [if_neg (by omega), if_neg (by omega : ¬ maxRow s ≤ 1)]

/-- Composition of the insert success path after validation: whenever the
resolved target row is at least 2, row 1 survives the gap insert, the data
writes, and the empty-row deletions unchanged. -/
theorem composed_header_preserved (s : SheetL) (validated : List Row)
    (headers : List String) (ir : Nat) (pos : String) (pf cf : Bool)
    (rro : Option Nat) (c : Nat) (hir : 2 ≤ ir) :
    cellValue
      ((sortDesc (detect_empty_rows
        (insert_data_with_formatting
          (if pos ≠ ("end") then
            (List.range validated.length).foldl (fun acc i => insertRowsAt acc (ir + i)) s
           else s)
          validated headers ir pf cf rro).1)).foldl
        (fun acc r => deleteRowAt acc r)
        ((insert_data_with_formatting
          (if pos ≠ ("end") then
            (List.range validated.length).foldl (fun acc i => insertRowsAt acc (ir + i)) s
           else s)
          validated headers ir pf cf rro).1)) 1 c = cellValue s 1 c := by
  set w1 : SheetL := (if pos ≠ ("end") then
      (List.range validated.length).foldl (fun acc i => insertRowsAt acc (ir + i)) s
    else s) with hw1
  set w2 : SheetL := (insert_data_with_formatting w1 validated headers ir pf cf rro).1
    with hw2
  have h3 : cellValue ((sortDesc (detect_empty_rows w2)).foldl
      (fun acc r => deleteRowAt acc r) w2) 1 c = cellValue w2 1 c :=
    cellValue_congr (getCell_deleteFold_header c (sortDesc (detect_empty_rows w2)) w2
      (fun x hx => detect_ge_two w2 x
        ((sortDesc_perm (detect_empty_rows w2)).mem_iff.mp hx)))
  have h2 : cellValue w2 1 c = cellValue w1 1 c := by
    rw [hw2]
    exact insert_data_frame w1 validated headers ir pf cf rro 1 c (fun i hi => by omega)
  have h1 : cellValue w1 1 c = cellValue s 1 c := by
    rw [hw1]
    by_cases hend : pos = ("end")
    · rw [if_neg (by simp [hend])]
    · rw [if_pos hend]
      exact cellValue_congr (getCell_insertFold_header c ir hir validated.length s)
  rw [h3, h2, h1]

/-!
### Claim C2 — header-row protection (corrected)
-/

/-- C2, counterexample: the position string after_row_0 resolves to target
row 1, and a successful InsertRows call at that position overwrites the
header cell (1,1) — Name before, the inserted B after. -/
theorem claimC2_counterexample :
    (determine_insert_position ("after_row_0") 2).1 = 1 ∧
    cellValue [((1, 1), (⟨Value.vStr ("Name"), {}⟩ : Cell)),
      ((2, 1), (⟨Value.vStr ("A"), {}⟩ : Cell))] 1 1 = Value.vStr ("Name") ∧
    ((insert_excel_row ("f.xlsx") true (".xlsx")
        (.many [[(("Name"), Value.vStr ("B"))]]) none ("after_row_0") none
        false false 100
        [(("S"), [((1, 1), (⟨Value.vStr ("Name"), {}⟩ : Cell)),
          ((2, 1), (⟨Value.vStr ("A"), {}⟩ : Cell))])]).saved.map
      (fun s2 => cellValue s2 1 1)) = some (Value.vStr ("B")) := by
  decide

/-- C2, amended: header-row protection holds for the documented positions
and for deletion, but not for arbitrary inputs.  The resolver sends
beginning to row 2, end to max_row + 1 ≥ 2, and after_row_N with N ≥ 1 to
N + 1 ≥ 2; DeleteRow rejects every row number below 2 with no save, and a
successful deletion of row rn ≥ 2 leaves row 1 intact; the empty-row
reconciler only reports rows ≥ 2; and every successful InsertRows whose
resolved target row is at least 2 saves a sheet whose row 1 equals the
input sheet's row 1. -/
theorem claimC2_amended_theorem :
    (∀ m : Nat, (determine_insert_position ("beginning") m).1 = 2) ∧
    (∀ m : Nat, 1 ≤ m → 2 ≤ (determine_insert_position ("end") m).1) ∧
    (∀ (k : Int) (m : Nat), 1 ≤ k →
      2 ≤ (determine_insert_position (("after_row_") ++ String.mk (intChars k)) m).1) ∧
    (∀ (fp : String) (fe : Bool) (ext : String) (rn : Int) (sn : Option String)
      (sheets : List (String × SheetL)), rn < 2 →
      (delete_excel_row fp fe ext rn sn sheets).success = false ∧
      (delete_excel_row fp fe ext rn sn sheets).saved = none) ∧
    (∀ (fp nm : String) (rn : Int) (s : SheetL) (c : Nat),
      2 ≤ rn → rn ≤ (maxRow s : Int) →
      (delete_excel_row fp true (".xlsx") rn none [(nm, s)]).saved =
        some (deleteRowAt s rn.toNat) ∧
      getCell (deleteRowAt s rn.toNat) 1 c = getCell s 1 c) ∧
    (∀ (s : SheetL) (r : Nat), r ∈ detect_empty_rows s → 2 ≤ r) ∧
    (∀ (fp nm pos : String) (rd : RowData) (vr : Option (List (String × VRule)))
      (pf cf : Bool) (bs : Int) (s : SheetL) (c : Nat),
      bs ≤ 500 → 0 < bs → ((normalizeRows rd).length : Int) ≤ bs →
      (validate_data (normalizeRows rd) vr).1 ≠ [] →
      (determine_insert_position pos (maxRow s)).2 = none →
      2 ≤ (determine_insert_position pos (maxRow s)).1 →
      ∃ ws3, (insert_excel_row fp true (".xlsx") rd none pos vr pf cf bs
        [(nm, s)]).saved = some ws3 ∧ cellValue ws3 1 c = cellValue s 1 c) := by
  refine ⟨?_, ?_, ?_, ?_, ?_, detect_ge_two, ?_⟩
  · intro m
    rw [resolver_beginning]
  · intro m hm
    rw [resolver_end]
    simp
    omega
  · intro k m hk
    rw [resolver_after_row_int]
    simp
    omega
  · intro fp fe ext rn sn sheets h
    exact delete_lt_two fp fe ext rn sn sheets h
  · intro fp nm rn s c h2 hmr
    refine ⟨?_, getCell_deleteRowAt_lt rn.toNat 1 c (by omega) s⟩
    rw [delete_success_eq fp nm rn s h2 hmr]
  · intro fp nm pos rd vr pf cf bs s c hbs1 hbs2 hlen hv hpe hp2
    have hsv : (insert_excel_row fp true (".xlsx") rd none pos vr pf cf bs
        [(nm, s)]).saved = some ((insert_excel_row fp true (".xlsx") rd none pos vr
          pf cf bs [(nm, s)]).saved.getD []) := by
      rw [insert_success_eq fp nm pos rd vr pf cf bs s hbs1 hbs2 hlen hv hpe (by omega)]
      rfl
    refine ⟨_, hsv, ?_⟩
    rw [insert_success_eq fp nm pos rd vr pf cf bs s hbs1 hbs2 hlen hv hpe (by omega)]
    exact composed_header_preserved s (validate_data (normalizeRows rd) vr).1 _
      ((determine_insert_position pos (maxRow s)).1.toNat) pos pf cf _ c (by omega)

/-- C2, amended, witness: a beginning-position insert on a two-row sheet
keeps the Name header, and DeleteRow at row 1 is rejected. -/
theorem claimC2_amended_witness :
    (∃ ws3, (insert_excel_row ("f.xlsx") true (".xlsx")
        (.many [[(("Name"), Value.vStr ("B"))]]) none ("beginning") none
        false false 100
        [(("S"), [((1, 1), (⟨Value.vStr ("Name"), {}⟩ : Cell)),
          ((2, 1), (⟨Value.vStr ("A"), {}⟩ : Cell))])]).saved = some ws3 ∧
      cellValue ws3 1 1 =
        cellValue [((1, 1), (⟨Value.vStr ("Name"), {}⟩ : Cell)),
          ((2, 1), (⟨Value.vStr ("A"), {}⟩ : Cell))] 1 1) ∧
    (delete_excel_row ("f.xlsx") true (".xlsx") 1 none
      [(("S"), [((1, 1), (⟨Value.vStr ("Name"), {}⟩ : Cell))])]).success = false :=
  ⟨claimC2_amended_theorem.2.2.2.2.2.2 ("f.xlsx") ("S") ("beginning")
      (.many [[(("Name"), Value.vStr ("B"))]]) none false false 100
      [((1, 1), ⟨Value.vStr ("Name"), {}⟩), ((2, 1), ⟨Value.vStr ("A"), {}⟩)] 1
      (by omega) (by omega) (by decide) (by decide) (by decide) (by decide),
    (claimC2_amended_theorem.2.2.2.1 ("f.xlsx") true (".xlsx") 1 none
      [(("S"), [((1, 1), ⟨Value.vStr ("Name"), {}⟩)])] (by omega)).1⟩

/-!
### Writer commitment lemmas
-/

/-- A header column present in the row mapping with a non-formula-path value
is written verbatim by the per-row fold. -/
theorem writeRow_fold_value (row : Row) (r : Nat) (pf cf : Bool) (rro : Option Nat) :
    ∀ (headers : List String) (i0 : Nat) (p : SheetL × FormulaReport) (j : Nat)
      (hj : j < headers.length) (v : Value),
      lookupRow row (headers.get ⟨j, hj⟩) = some v →
      (cf = true → isFormulaValue v = false) →
      cellValue (((List.enumFrom i0 headers).foldl
        (fun acc ih2 => writeCell acc.1 acc.2 row ih2.2 r (ih2.1 + 1) pf cf rro) p).1)
        r (i0 + j + 1) = v := by
  intro headers
  induction headers with
  | nil => intro i0 p j hj; exact absurd hj (by simp)
  | cons hd tl ih =>
      intro i0 p j hj v hlk hnf
      simp only [List.enumFrom, List.foldl_cons]
      cases j with
      | zero =>
          rw [writeRow_fold_frame row r pf cf rro tl (i0 + 1)
            (writeCell p.1 p.2 row hd r (i0 + 1) pf cf rro) r (i0 + 0 + 1) ?hc]
          · exact writeCell_value_raw p.1 p.2 row hd r (i0 + 1) pf cf rro hlk hnf
          case hc =>
            intro j2 hj2
            simp only [ne_eq, Prod.mk.injEq, not_and]
            intro _
            omega
      | succ j2 =>
          have hco : i0 + (j2 + 1) + 1 = i0 + 1 + j2 + 1 := by omega
          rw [hco]
          exact ih (i0 + 1) (writeCell p.1 p.2 row hd r (i0 + 1) pf cf rro) j2
            (by simpa using Nat.lt_of_succ_lt_succ (by simpa using hj)) v hlk hnf

/-- One committed row is written in full: cell j+1 of the target row holds
exactly the row's value for header j (null when the column is absent). -/
theorem writeRowCells_cell (s : SheetL) (fr : FormulaReport) (row : Row)
    (headers : List String) (r : Nat) (pf cf : Bool) (rro : Option Nat)
    (j : Nat) (hj : j < headers.length)
    (hnf : cf = true →
      isFormulaValue ((lookupRow row (headers.get ⟨j, hj⟩)).getD .vNone) = false) :
    cellValue ((writeRowCells s fr row headers r pf cf rro).1) r (j + 1) =
      (lookupRow row (headers.get ⟨j, hj⟩)).getD .vNone := by
  cases hlk : lookupRow row (headers.get ⟨j, hj⟩) with
  | none =>
      have h := writeRow_fold_absent row r pf cf rro headers 0 (s, fr) j hj hlk
      simp only [writeRowCells, List.enum]
      simpa using h
  | some v =>
      have h := writeRow_fold_value row r pf cf rro headers 0 (s, fr) j hj v hlk
        (by intro hcf; have h2 := hnf hcf; rw [hlk] at h2; simpa using h2)
      simp only [writeRowCells, List.enum]
      simpa using h

/-- Batch-level commitment: validated row i, header column j land verbatim
at sheet row ir2 + i, column j + 1. -/
theorem insertData_fold_cell (headers : List String) (ir2 : Nat) (pf cf : Bool)
    (rro : Option Nat) :
    ∀ (rows : List Row) (i0 : Nat) (p : SheetL × FormulaReport) (i : Nat)
      (hi : i < rows.length) (j : Nat) (hj : j < headers.length),
      (cf = true → isFormulaValue
        ((lookupRow (rows.get ⟨i, hi⟩) (headers.get ⟨j, hj⟩)).getD .vNone) = false) →
      cellValue (((List.enumFrom i0 rows).foldl
        (fun acc ir3 => writeRowCells acc.1 acc.2 ir3.2 headers (ir2 + ir3.1) pf cf rro)
        p).1) (ir2 + (i0 + i)) (j + 1) =
        (lookupRow (rows.get ⟨i, hi⟩) (headers.get ⟨j, hj⟩)).getD .vNone := by
  intro rows
  induction rows with
  | nil => intro i0 p i hi; exact absurd hi (by simp)
  | cons rw0 tl ih =>
      intro i0 p i hi j hj hnf
      simp only [List.enumFrom, List.foldl_cons]
      cases i with
      | zero =>
          rw [insertData_fold_frame headers ir2 pf cf rro tl (i0 + 1)
            (writeRowCells p.1 p.2 rw0 headers (ir2 + i0) pf cf rro)
            (ir2 + (i0 + 0)) (j + 1) (fun i2 hi2 => by omega)]
          exact writeRowCells_cell p.1 p.2 rw0 headers (ir2 + i0) pf cf rro j hj hnf
      | succ i2 =>
          have hco : ir2 + (i0 + (i2 + 1)) = ir2 + (i0 + 1 + i2) := by omega
          rw [hco]
          exact ih (i0 + 1) (writeRowCells p.1 p.2 rw0 headers (ir2 + i0) pf cf rro) i2
            (by simpa using Nat.lt_of_succ_lt_succ (by simpa using hi)) j hj hnf

/-- _insert_data_with_formatting writes validated row i, header column j,
verbatim at sheet row ir2 + i, column j + 1. -/
theorem insert_data_cell (s : SheetL) (rows : List Row) (headers : List String)
    (ir2 : Nat) (pf cf : Bool) (rro : Option Nat) (i j : Nat)
    (hi : i < rows.length) (hj : j < headers.length)
    (hnf : cf = true → isFormulaValue
      ((lookupRow (rows.get ⟨i, hi⟩) (headers.get ⟨j, hj⟩)).getD .vNone) = false) :
    cellValue ((insert_data_with_formatting s rows headers ir2 pf cf rro).1)
      (ir2 + i) (j + 1) =
      (lookupRow (rows.get ⟨i, hi⟩) (headers.get ⟨j, hj⟩)).getD .vNone := by
  have h := insertData_fold_cell headers ir2 pf cf rro rows 0 (s, {}) i hi j hj hnf
  simp only [insert_data_with_formatting, List.enum]
  simpa using h

/-!
### Validation characterization
-/

/-- The _validate_data accumulator fold, solved: committed rows are the
error-free rows appended in order, the counts count both classes, and the
error list strings every failing row's messages with its 1-based batch
index. -/
theorem validate_fold_spec (rules : List (String × VRule)) :
    ∀ (rows : List Row) (i0 : Nat) (acc : List Row × VReport),
      (List.enumFrom i0 rows).foldl
        (fun acc ir =>
          let errs := row_errors rules ir.2
          if errs.isEmpty then
            (acc.1 ++ [ir.2], { acc.2 with passed := acc.2.passed + 1 })
          else
            (acc.1,
              { acc.2 with
                failed := acc.2.failed + 1
                errors := acc.2.errors ++
                  errs.map (fun e => ("第") ++ toString (ir.1 + 1) ++ ("行: ") ++ e) }))
        acc =
      (acc.1 ++ rows.filter (fun row => (row_errors rules row).isEmpty),
       { passed := acc.2.passed +
           (rows.filter (fun row => (row_errors rules row).isEmpty)).length
         failed := acc.2.failed +
           (rows.filter (fun row => !(row_errors rules row).isEmpty)).length
         errors := acc.2.errors ++ (List.enumFrom i0 rows).flatMap (fun ir =>
           (row_errors rules ir.2).map
             (fun e => ("第") ++ toString (ir.1 + 1) ++ ("行: ") ++ e)) }) := by
  intro rows
  induction rows with
  | nil =>
      intro i0 acc
      simp only [List.enumFrom, List.foldl_nil, List.filter_nil, List.flatMap_nil,
        List.append_nil, List.length_nil, Nat.add_zero]
  | cons row tl ih =>
      intro i0 acc
      simp only [List.enumFrom, List.foldl_cons, List.filter_cons, List.flatMap_cons]
      by_cases he : (row_errors rules row).isEmpty = true
      · rw [if_pos he]
        rw [ih (i0 + 1) (acc.1 ++ [row], { acc.2 with passed := acc.2.passed + 1 })]
        have hemp : row_errors rules row = [] := by
          simpa [List.isEmpty_iff] using he
        simp [he, hemp, List.filter_cons, List.append_assoc, Prod.ext_iff,
          VReport.mk.injEq]
        omega
      · rw [if_neg he]
        rw [ih (i0 + 1) (acc.1,
          { acc.2 with
            failed := acc.2.failed + 1
            errors := acc.2.errors ++
              (row_errors rules row).map
                (fun e => ("第") ++ toString (i0 + 1) ++ ("行: ") ++ e) })]
        simp [he, List.filter_cons, List.append_assoc, Prod.ext_iff,
          VReport.mk.injEq]
        omega

/-- _validate_data with a nonempty rule set, solved in terms of the filter
of error-free rows. -/
theorem validate_data_spec (rows : List Row) (rules : List (String × VRule)) :
    validate_data rows (some rules) =
      (rows.filter (fun row => (row_errors rules row).isEmpty),
       { passed := (rows.filter (fun row => (row_errors rules row).isEmpty)).length
         failed := (rows.filter (fun row => !(row_errors rules row).isEmpty)).length
         errors := rows.enum.flatMap (fun ir =>
           (row_errors rules ir.2).map
             (fun e => ("第") ++ toString (ir.1 + 1) ++ ("行: ") ++ e)) }) := by
  cases rules with
  | nil =>
      simp only [validate_data]
      have hre : ∀ row : Row, row_errors [] row = [] := fun _ => rfl
      simp [hre, List.filter_eq_self, List.enum]
  | cons cr rs =>
      simp only [validate_data]
      rw [show rows.enum = List.enumFrom 0 rows from rfl,
        validate_fold_spec (cr :: rs) rows 0 ([], {})]
      simp [List.enum]

/-!
### Claim C7 — all-or-nothing row validation (confirmed)
-/

/-- C7: validation is all-or-nothing per row.  The committed set is exactly
the error-free rows of the batch in their original order, the counts count
each class, every error message carries the 1-based index of its row in the
input batch, each committed row is written in full (every header column gets
exactly that row's value for it, null when absent), and no cell outside the
written block is touched — in particular no field of a dropped row is ever
written. -/
theorem claimC7_theorem :
    (∀ (rows : List Row) (rules : List (String × VRule)),
      (validate_data rows (some rules)).1 =
        rows.filter (fun row => (row_errors rules row).isEmpty)) ∧
    (∀ (rows : List Row) (rules : List (String × VRule)),
      (validate_data rows (some rules)).2.errors =
        rows.enum.flatMap (fun ir =>
          (row_errors rules ir.2).map
            (fun e => ("第") ++ toString (ir.1 + 1) ++ ("行: ") ++ e))) ∧
    (∀ (rows : List Row) (rules : List (String × VRule)),
      (validate_data rows (some rules)).2.passed =
        (rows.filter (fun row => (row_errors rules row).isEmpty)).length ∧
      (validate_data rows (some rules)).2.failed =
        (rows.filter (fun row => !(row_errors rules row).isEmpty)).length) ∧
    (∀ (s : SheetL) (rows : List Row) (headers : List String) (ir2 : Nat)
      (pf cf : Bool) (rro : Option Nat) (i j : Nat) (hi : i < rows.length)
      (hj : j < headers.length),
      (cf = true → isFormulaValue
        ((lookupRow (rows.get ⟨i, hi⟩) (headers.get ⟨j, hj⟩)).getD .vNone) = false) →
      cellValue ((insert_data_with_formatting s rows headers ir2 pf cf rro).1)
        (ir2 + i) (j + 1) =
        (lookupRow (rows.get ⟨i, hi⟩) (headers.get ⟨j, hj⟩)).getD .vNone) ∧
    (∀ (s : SheetL) (rows : List Row) (headers : List String) (ir2 : Nat)
      (pf cf : Bool) (rro : Option Nat) (r' c' : Nat),
      (∀ i, i < rows.length → r' ≠ ir2 + i) →
      cellValue ((insert_data_with_formatting s rows headers ir2 pf cf rro).1) r' c' =
        cellValue s r' c') := by
  refine ⟨?_, ?_, ?_, insert_data_cell, insert_data_frame⟩
  · intro rows rules
    rw [validate_data_spec]
  · intro rows rules
    rw [validate_data_spec]
  · intro rows rules
    rw [validate_data_spec]
    exact ⟨rfl, rfl⟩

/-- C7, witness: a two-row batch under a required-Age rule commits only the
error-free second row, and the writer lands its value verbatim. -/
theorem claimC7_witness :
    (validate_data [[(("Age"), Value.vStr (""))], [(("Age"), Value.vInt 3)]]
        (some [(("Age"), { required := true })])).1 =
      [[(("Age"), Value.vInt 3)]] ∧
    cellValue ((insert_data_with_formatting [] [[(("Age"), Value.vInt 3)]]
      [("Age")] 2 true false none).1) 2 1 = Value.vInt 3 := by
  constructor
  · rw [claimC7_theorem.1]
    decide
  · exact claimC7_theorem.2.2.2.1 [] [[(("Age"), Value.vInt 3)]] [("Age")] 2 true
      false none 0 0 (by decide) (by decide) (by decide)

/-!
### Claim C1 — formula reference shift (corrected)
-/

/-- The value actually written by the formula branch of the writer: the
rewrite is invoked with the sheet's max_row as read after the target cell
was created by the subscript access — max (maxRow s) r — not any earlier
snapshot. -/
theorem writeCell_formula_value (s : SheetL) (fr : FormulaReport) (row : Row)
    (hdr : String) (r c : Nat) (pf : Bool) (rro : Option Nat) {f : String}
    (hlk : lookupRow row hdr = some (.vStr f)) (hf : pyStartsWith f ("=") = true) :
    cellValue ((writeCell s fr row hdr r c pf true rro).1) r c =
      .vStr (adjust_formula_references f (r : Int) ((max (maxRow s) r : Nat) : Int)) := by
  cases rro with
  | some rr =>
      simp only [writeCell, hlk]
      rw [if_pos hf]
      simp only [cellValue_setStyle, cellValue_createCell, cellValue_setValue_same]
      rw [maxRow_createCell]
  | none =>
      simp only [writeCell, hlk]
      rw [if_pos hf]
      simp only [cellValue_setStyle, cellValue_setValue_same]
      rw [maxRow_createCell]

/-- C1, counterexample: a one-cell sheet (max_row 1 before the batch), one
row {A: =A3} appended at the end (target row 2) with calculate_formulas on.
The claim predicts the written formula =A3 (3 > 1 shifts by
2 - 1 - 1 = 0), but the saved sheet holds =A2: the code reads max_row after
creating the target cell, so it shifts by 2 - 2 - 1 = -1. -/
theorem claimC1_counterexample :
    maxRow [((1, 1), (⟨Value.vStr ("A"), {}⟩ : Cell))] = 1 ∧
    adjust_formula_references ("=A3") 2 1 = ("=A3") ∧
    ((insert_excel_row ("f.xlsx") true (".xlsx")
        (.many [[(("A"), Value.vStr ("=A3"))]]) none ("end") none
        false true 100
        [(("S"), [((1, 1), (⟨Value.vStr ("A"), {}⟩ : Cell))])]).saved.map
      (fun s2 => cellValue s2 2 1)) = some (Value.vStr ("=A2")) := by
  decide

/-- C1, amended: the rewrite itself shifts exactly as documented relative to
whatever max_row value M it is handed — tokens with row ≤ M unchanged,
tokens with row > M shifted by R - M - 1, column letters and order
preserved — but the M the writer hands it is the sheet's max_row as read
after the target cell of row R was created, max (maxRow s) R, which is at
least R and not the pre-insertion max_row. -/
theorem claimC1_amended_theorem :
    (∀ (f : String) (R M : Int), 1 ≤ R →
      cellRefs (adjust_formula_references f R M) =
        (cellRefs f).map (fun t =>
          (t.1, if (t.2 : Int) > M then ((t.2 : Int) + (R - M - 1)).toNat else t.2))) ∧
    (∀ (s : SheetL) (r c : Nat), maxRow (createCell s r c) = max (maxRow s) r) ∧
    (∀ (s : SheetL) (fr : FormulaReport) (row : Row) (hdr : String) (r c : Nat)
      (pf : Bool) (rro : Option Nat) (f : String),
      lookupRow row hdr = some (.vStr f) → pyStartsWith f ("=") = true →
      cellValue ((writeCell s fr row hdr r c pf true rro).1) r c =
        .vStr (adjust_formula_references f (r : Int) ((max (maxRow s) r : Nat) : Int))) :=
  ⟨cellRefs_adjust, maxRow_createCell,
    fun s fr row hdr r c pf rro f hlk hf => writeCell_formula_value s fr row hdr r c pf
      rro hlk hf⟩

/-- C1, amended, witness: the token of =A3 rewritten for target row 5
against max_row 2 shifts to A5, and the writer hands the rewriter
max (maxRow s) r on a concrete one-cell sheet. -/
theorem claimC1_amended_witness :
    cellRefs (adjust_formula_references ("=A3") 5 2) =
      [(("A"), 5)] ∧
    cellValue ((writeCell [((1, 1), (⟨Value.vStr ("A"), {}⟩ : Cell))] {}
        [(("A"), Value.vStr ("=A3"))] ("A") 2 1 false true none).1) 2 1 =
      Value.vStr (adjust_formula_references ("=A3") 2 2) := by
  constructor
  · rw [claimC1_amended_theorem.1 ("=A3") 5 2 (by omega)]
    decide
  · exact claimC1_amended_theorem.2.2 [((1, 1), ⟨Value.vStr ("A"), {}⟩)] {}
      [(("A"), Value.vStr ("=A3"))] ("A") 2 1 false none ("=A3") (by decide) (by decide)

/-!
### The empty-row reconciler, solved
-/

theorem insertDesc_pairwise (a : Nat) :
    ∀ l : List Nat, List.Pairwise (· ≥ ·) l → List.Pairwise (· ≥ ·) (insertDesc a l) := by
  intro l
  induction l with
  | nil => intro _; simp [insertDesc]
  | cons b t ih =>
      intro hp
      have hbt := (List.pairwise_cons.mp hp).1
      have hpt := (List.pairwise_cons.mp hp).2
      unfold insertDesc
      by_cases h : b < a
      · rw [if_pos h]
        refine List.pairwise_cons.mpr ⟨?_, hp⟩
        intro x hx
        rcases List.mem_cons.mp hx with h1 | h1
        · omega
        · have := hbt x h1; omega
      · rw [if_neg h]
        refine List.pairwise_cons.mpr ⟨?_, ih hpt⟩
        intro x hx
        rcases List.mem_cons.mp ((insertDesc_perm a t).mem_iff.mp hx) with h1 | h1
        · omega
        · exact hbt x h1

theorem sortDesc_pairwise : ∀ l : List Nat, List.Pairwise (· ≥ ·) (sortDesc l) := by
  intro l
  induction l with
  | nil => simp [sortDesc]
  | cons a t ih => exact insertDesc_pairwise a (sortDesc t) ih

theorem sortDesc_strict {l : List Nat} (h : l.Nodup) :
    List.Pairwise (· > ·) (sortDesc l) := by
  have h1 : (sortDesc l).Nodup := (sortDesc_perm l).nodup_iff.mpr h
  have h2 := sortDesc_pairwise l
  exact (h1.and h2).imp (fun hx => by omega)

/-- One pass of the reconciler's deletion loop, solved: with the deleted
rows strictly descending, the fold drops every cell in a deleted row and
shifts every other cell down by the number of deleted rows below it. -/
theorem delete_fold_filterMap :
    ∀ (L : List Nat), List.Pairwise (· > ·) L → ∀ (w : SheetL),
      L.foldl (fun acc r => deleteRowAt acc r) w =
        w.filterMap (fun e =>
          if e.1.1 ∈ L then none
          else some ((e.1.1 - L.countP (fun x => decide (x < e.1.1)), e.1.2), e.2)) := by
  intro L
  induction L with
  | nil =>
      intro _ w
      simp only [List.foldl_nil]
      induction w with
      | nil => rfl
      | cons e t ihw =>
          simp only [List.filterMap_cons, List.not_mem_nil, if_false,
            List.countP_nil, Nat.sub_zero] at ihw ⊢
          rw [← ihw]
  | cons a L2 ih =>
      intro hp w
      have hgt : ∀ x ∈ L2, a > x := (List.pairwise_cons.mp hp).1
      have hp2 := (List.pairwise_cons.mp hp).2
      simp only [List.foldl_cons]
      rw [ih hp2 (deleteRowAt w a)]
      unfold deleteRowAt
      rw [List.filterMap_filterMap]
      congr 1
      funext e
      by_cases h1 : e.1.1 = a
      · simp [h1]
      · by_cases h2 : a < e.1.1
        · have hnot2 : ¬ (e.1.1 - 1 ∈ L2) := fun hmem => by have := hgt _ hmem; omega
          have hnot : ¬ (e.1.1 ∈ a :: L2) := by
            simp only [List.mem_cons]
            rintro (h | h)
            · exact h1 h
            · have := hgt _ h; omega
          rw [if_neg h1, if_pos h2]
          simp only [Option.some_bind]
          rw [if_neg hnot2, if_neg hnot]
          have hcnt : L2.countP (fun x => decide (x < e.1.1 - 1)) =
              L2.countP (fun x => decide (x < e.1.1)) := by
            apply List.countP_congr
            intro x hx
            have := hgt x hx
            first
            | (simp only [decide_eq_decide]; omega)
            | omega
            | (simp only [decide_eq_true_eq]; omega)
          rw [List.countP_cons]
          simp only [hcnt]
          have hda : (if (fun x => decide (x < e.1.1)) a = true then 1 else 0) = 1 := by
            simp only [decide_eq_true_eq]
            rw [if_pos h2]
          rw [hda]
          have harith : e.1.1 - 1 - L2.countP (fun x => decide (x < e.1.1)) =
              e.1.1 - (L2.countP (fun x => decide (x < e.1.1)) + 1) := by omega
          rw [harith]
        · have h3 : e.1.1 < a := by omega
          rw [if_neg h1, if_neg h2]
          simp only [Option.some_bind]
          by_cases h4 : e.1.1 ∈ L2
          · rw [if_pos h4, if_pos (by simp [h4])]
          · rw [if_neg h4, if_neg (by
              simp only [List.mem_cons]
              rintro (h | h)
              · exact h1 h
              · exact h4 h)]
            rw [List.countP_cons]
            have hda : (if (fun x => decide (x < e.1.1)) a = true then 1 else 0) = 0 := by
              simp only [decide_eq_true_eq]
              rw [if_neg (by omega)]
            rw [hda, Nat.add_zero]

theorem detect_mem_iff (w : SheetL) (t : Nat) :
    t ∈ detect_empty_rows w ↔
      2 ≤ t ∧ t ≤ maxRow w ∧ rowIsEmpty w (maxCol w) t = true := by
  unfold detect_empty_rows
  rw [List.mem_filter, List.mem_range'_1]
  have h1 := one_le_maxRow w
  constructor
  · rintro ⟨⟨ha, hb⟩, hc⟩
    exact ⟨ha, by omega, hc⟩
  · rintro ⟨ha, hb, hc⟩
    exact ⟨⟨ha, by omega⟩, hc⟩

theorem detect_nodup (w : SheetL) : (detect_empty_rows w).Nodup := by
  unfold detect_empty_rows
  exact (List.nodup_range' 2 (maxRow w - 1)).filter _

theorem detect_length_le (w : SheetL) :
    (detect_empty_rows w).length ≤ maxRow w - 1 := by
  unfold detect_empty_rows
  have h := List.length_filter_le (fun r => rowIsEmpty w (maxCol w) r)
    (List.range' 2 (maxRow w - 1))
  rwa [List.length_range'] at h

/-- A coordinate holding a non-blank value names a created cell, hence an
entry of the sheet in that row. -/
theorem cell_of_nonblank {w : SheetL} {t c : Nat}
    (h : isBlankCell (cellValue w t c) = false) : ∃ e ∈ w, e.1.1 = t := by
  unfold cellValue at h
  cases hg : getCell w t c with
  | none => rw [hg] at h; simp [isBlankCell] at h
  | some cl =>
      unfold getCell at hg
      cases hf : List.find? (fun e => e.1 == (t, c)) w with
      | none => rw [hf] at hg; simp at hg
      | some e =>
          have hmem := List.mem_of_find?_eq_some hf
          have hkey := List.find?_some hf
          refine ⟨e, hmem, ?_⟩
          have hkey2 : e.1 = (t, c) := by simpa using hkey
          exact congrArg Prod.fst hkey2

/-- A non-empty row (in the reconciler's sense) has an entry. -/
theorem row_nonempty_cell {w : SheetL} {t : Nat}
    (h : rowIsEmpty w (maxCol w) t = false) : ∃ e ∈ w, e.1.1 = t := by
  unfold rowIsEmpty at h
  rw [List.all_eq_false] at h
  obtain ⟨c, hc, hpc⟩ := h
  exact cell_of_nonblank (by simpa using hpc)

/-- Splitting a list's length at a threshold predicate. -/
theorem length_split_at (r : Nat) :
    ∀ l : List Nat, l.length =
      l.countP (fun x => decide (x < r)) + (l.filter (fun x => !decide (x < r))).length := by
  intro l
  induction l with
  | nil => rfl
  | cons a t ih =>
      rw [List.countP_cons, List.filter_cons]
      by_cases h : a < r
      · have hd : decide (a < r) = true := decide_eq_true h
        simp [hd]
        omega
      · have hd : decide (a < r) = false := decide_eq_false h
        simp [hd]
        omega

/-- The crown lemma of the reconciler: removing the detected empty rows
lowers max_row by exactly their number. -/
theorem maxRow_remove_empty (w : SheetL) :
    maxRow ((sortDesc (detect_empty_rows w)).foldl (fun acc r => deleteRowAt acc r) w) =
      maxRow w - (detect_empty_rows w).length := by
  have hnodE : (detect_empty_rows w).Nodup := detect_nodup w
  have hperm := sortDesc_perm (detect_empty_rows w)
  have hstrict : List.Pairwise (· > ·) (sortDesc (detect_empty_rows w)) :=
    sortDesc_strict hnodE
  rw [delete_fold_filterMap _ hstrict w]
  set E := detect_empty_rows w with hE
  set L := sortDesc E with hL
  set m := maxRow w with hm
  have h1m : 1 ≤ m := one_le_maxRow w
  have hElen : E.length ≤ m - 1 := detect_length_le w
  have hLmem : ∀ x : Nat, x ∈ L ↔ x ∈ E := fun x => hperm.mem_iff
  have hLcnt : ∀ p : Nat → Bool, L.countP p = E.countP p := fun p => hperm.countP_eq p
  have hEt : ∀ t ∈ E, 2 ≤ t ∧ t ≤ m := by
    intro t ht
    have h2 := (detect_mem_iff w t).mp ht
    exact ⟨h2.1, h2.2.1⟩
  have hhigh : ∀ r : Nat, r ∉ E →
      (E.filter (fun x => !decide (x < r))).length ≤ m - r := by
    intro r hr
    have hsub : (E.filter (fun x => !decide (x < r))) ⊆ List.range' (r + 1) (m - r) := by
      intro x hx
      have hx1 := List.mem_of_mem_filter hx
      have hx2 := List.of_mem_filter hx
      have hx3 : ¬ x < r := by simpa using hx2
      have hx4 := hEt x hx1
      have hx5 : x ≠ r := fun he => hr (he ▸ hx1)
      rw [List.mem_range'_1]
      omega
    have hnd : (E.filter (fun x => !decide (x < r))).Nodup := hnodE.filter _
    have hsl := (List.subperm_of_subset hnd hsub).length_le
    rwa [List.length_range'] at hsl
  apply Nat.le_antisymm
  · apply maxRow_le (by omega)
    intro e he
    obtain ⟨a, ha, hfa⟩ := List.mem_filterMap.mp he
    by_cases hmem : a.1.1 ∈ L
    · rw [if_pos hmem] at hfa
      exact absurd hfa (by simp)
    · rw [if_neg hmem] at hfa
      have he2 : e = ((a.1.1 - L.countP (fun x => decide (x < a.1.1)), a.1.2), a.2) := by
        injection hfa with h
        exact h.symm
      rw [he2]
      show a.1.1 - L.countP (fun x => decide (x < a.1.1)) ≤ m - E.length
      rw [hLcnt]
      have hnotE : a.1.1 ∉ E := fun hh => hmem ((hLmem _).mpr hh)
      have hle : a.1.1 ≤ m := le_maxRow_of_mem ha
      have hh1 := hhigh a.1.1 hnotE
      have hh2 := length_split_at a.1.1 E
      have hcle : E.countP (fun x => decide (x < a.1.1)) ≤ E.length :=
        List.countP_le_length _
      omega
  · set w2 := w.filter (fun e => decide (e.1.1 ∉ E)) with hw2
    set r0 := maxRow w2 with hr0
    have hEcover : ∀ t : Nat, 2 ≤ t → t ≤ m → t ∉ E → ∃ e2 ∈ w2, e2.1.1 = t := by
      intro t h2t htm hnt
      have hemp : rowIsEmpty w (maxCol w) t = false := by
        cases hre : rowIsEmpty w (maxCol w) t with
        | false => rfl
        | true => exact absurd ((detect_mem_iff w t).mpr ⟨h2t, htm, hre⟩) hnt
      obtain ⟨e2, he2x, hrowt⟩ := row_nonempty_cell hemp
      refine ⟨e2, ?_, hrowt⟩
      rw [hw2]
      exact List.mem_filter.mpr ⟨he2x, by simp [hrowt, hnt]⟩
    by_cases hr01 : r0 ≤ 1
    · have hcover : ∀ t : Nat, 2 ≤ t → t ≤ m → t ∈ E := by
        intro t h2t htm
        by_contra hnt
        obtain ⟨e2, he2, hrowt⟩ := hEcover t h2t htm hnt
        have := le_maxRow_of_mem he2
        omega
      have hsub2 : List.range' 2 (m - 1) ⊆ E := by
        intro x hx
        rw [List.mem_range'_1] at hx
        exact hcover x hx.1 (by omega)
      have hlen2 := (List.subperm_of_subset (List.nodup_range' 2 (m - 1)) hsub2).length_le
      rw [List.length_range'] at hlen2
      have hEeq : E.length = m - 1 := by omega
      have hone := one_le_maxRow (w.filterMap (fun e =>
        if e.1.1 ∈ L then none
        else some ((e.1.1 - L.countP (fun x => decide (x < e.1.1)), e.1.2), e.2)))
      omega
    · obtain ⟨e0, he0, he0r⟩ := (maxRow_attained w2).resolve_left (by omega)
      rw [← hr0] at he0r
      have he0w : e0 ∈ w := List.mem_of_mem_filter he0
      have he0nE : e0.1.1 ∉ E := by
        have h := List.of_mem_filter he0
        simpa using h
      have hr0nE : r0 ∉ E := he0r ▸ he0nE
      have hr0m : r0 ≤ m := he0r ▸ le_maxRow_of_mem he0w
      have hcov : ∀ t : Nat, r0 < t → t ≤ m → t ∈ E := by
        intro t hrt htm
        by_contra hnt
        obtain ⟨e2, he2, hrowt⟩ := hEcover t (by omega) htm hnt
        have := le_maxRow_of_mem he2
        omega
      have hs1 : (E.filter (fun x => !decide (x < r0))) ⊆
          List.range' (r0 + 1) (m - r0) := by
        intro x hx
        have hx1 := List.mem_of_mem_filter hx
        have hx2 := List.of_mem_filter hx
        have hx3 : ¬ x < r0 := by simpa using hx2
        have hx4 := hEt x hx1
        have hx5 : x ≠ r0 := fun he => hr0nE (he ▸ hx1)
        rw [List.mem_range'_1]
        omega
      have hs2 : List.range' (r0 + 1) (m - r0) ⊆
          E.filter (fun x => !decide (x < r0)) := by
        intro x hx
        rw [List.mem_range'_1] at hx
        refine List.mem_filter.mpr ⟨hcov x (by omega) (by omega), by simp; omega⟩
      have hl1 := (List.subperm_of_subset (hnodE.filter _) hs1).length_le
      have hl2 := (List.subperm_of_subset (List.nodup_range' (r0 + 1) (m - r0)) hs2).length_le
      rw [List.length_range'] at hl1 hl2
      have hsplit := length_split_at r0 E
      have hmem2 : ((r0 - E.countP (fun x => decide (x < r0)), e0.1.2), e0.2) ∈
          w.filterMap (fun e =>
            if e.1.1 ∈ L then none
            else some ((e.1.1 - L.countP (fun x => decide (x < e.1.1)), e.1.2), e.2)) := by
        apply List.mem_filterMap.mpr
        refine ⟨e0, he0w, ?_⟩
        rw [if_neg (fun hc => he0nE ((hLmem _).mp hc))]
        rw [he0r, hLcnt]
      have hle2 : r0 - E.countP (fun x => decide (x < r0)) ≤ maxRow _ :=
        le_maxRow_of_mem hmem2
      have hcle : E.countP (fun x => decide (x < r0)) ≤ E.length :=
        List.countP_le_length _
      omega

/-!
### max_row through the gap insert and the writes
-/

theorem insertRowsAt_noop {s : SheetL} {k : Nat} (h : ∀ e ∈ s, e.1.1 < k) :
    insertRowsAt s k = s := by
  induction s with
  | nil => rfl
  | cons e t ih =>
      simp only [insertRowsAt, List.map_cons] at ih ⊢
      rw [if_neg (by have := h e (by simp); omega)]
      rw [ih (fun e2 he2 => h e2 (by simp [he2]))]

theorem maxRow_insertRowsAt_shift {s : SheetL} {k : Nat}
    (hatt : ∃ e ∈ s, e.1.1 = maxRow s) (hk : k ≤ maxRow s) :
    maxRow (insertRowsAt s k) = maxRow s + 1 ∧
      ∃ e ∈ insertRowsAt s k, e.1.1 = maxRow s + 1 := by
  obtain ⟨e0, he0, he0r⟩ := hatt
  have hup : maxRow (insertRowsAt s k) ≤ maxRow s + 1 := by
    apply maxRow_le (by omega)
    intro e he
    obtain ⟨a, ha, hae⟩ := List.mem_map.mp he
    have hle := le_maxRow_of_mem ha
    by_cases hka : k ≤ a.1.1
    · rw [if_pos hka] at hae
      rw [← hae]
      show a.1.1 + 1 ≤ maxRow s + 1
      omega
    · rw [if_neg hka] at hae
      rw [← hae]
      omega
  have hmem : ((e0.1.1 + 1, e0.1.2), e0.2) ∈ insertRowsAt s k := by
    apply List.mem_map.mpr
    refine ⟨e0, he0, ?_⟩
    rw [if_pos (by omega)]
  have hlow : e0.1.1 + 1 ≤ maxRow (insertRowsAt s k) := le_maxRow_of_mem hmem
  refine ⟨by omega, ⟨((e0.1.1 + 1, e0.1.2), e0.2), hmem, ?_⟩⟩
  show e0.1.1 + 1 = maxRow s + 1
  omega

/-- When the target row is beyond every existing row, the gap-opening loop
is the identity. -/
theorem gap_fold_noop {s : SheetL} {ir : Nat} (h : maxRow s < ir) :
    ∀ n : Nat, (List.range n).foldl (fun acc i => insertRowsAt acc (ir + i)) s = s := by
  intro n
  induction n with
  | zero => rfl
  | succ m ih =>
      rw [List.range_succ, List.foldl_append, ih]
      simp only [List.foldl_cons, List.foldl_nil]
      exact insertRowsAt_noop (fun e he => by have := le_maxRow_of_mem he; omega)

/-- When the target row is inside the sheet, each pass of the gap-opening
loop pushes max_row up by one. -/
theorem gap_fold_shift {s : SheetL} {ir : Nat} (h2 : 2 ≤ maxRow s)
    (hk : ir ≤ maxRow s) :
    ∀ n : Nat,
      maxRow ((List.range n).foldl (fun acc i => insertRowsAt acc (ir + i)) s) =
        maxRow s + n ∧
      ∃ e ∈ (List.range n).foldl (fun acc i => insertRowsAt acc (ir + i)) s,
        e.1.1 = maxRow s + n := by
  intro n
  induction n with
  | zero =>
      refine ⟨rfl, ?_⟩
      rcases maxRow_attained s with h1 | h1
      · omega
      · simpa using h1
  | succ m ih =>
      rw [List.range_succ, List.foldl_append]
      simp only [List.foldl_cons, List.foldl_nil]
      have hatt : ∃ e ∈ (List.range m).foldl (fun acc i => insertRowsAt acc (ir + i)) s,
          e.1.1 = maxRow ((List.range m).foldl (fun acc i => insertRowsAt acc (ir + i)) s) := by
        rw [ih.1]
        exact ih.2
      have hk2 : ir + m ≤
          maxRow ((List.range m).foldl (fun acc i => insertRowsAt acc (ir + i)) s) := by
        rw [ih.1]
        omega
      have hstep := maxRow_insertRowsAt_shift hatt hk2
      constructor
      · rw [hstep.1, ih.1]
        omega
      · obtain ⟨e, he, her⟩ := hstep.2
        refine ⟨e, he, ?_⟩
        rw [her, ih.1]
        omega

/-- max_row after one cell write: the target row and the reference row (when
present) join the occupied extent. -/
theorem maxRow_writeCell (s : SheetL) (fr : FormulaReport) (row : Row)
    (hdr : String) (r c : Nat) (pf cf : Bool) (rro : Option Nat) :
    maxRow ((writeCell s fr row hdr r c pf cf rro).1) =
      max (max (maxRow s) r) (rro.getD 1) := by
  have h1 := one_le_maxRow s
  cases rro with
  | some rr =>
      obtain ⟨V, ST, hsh⟩ := writeCell_sheet_shape s fr row hdr r c pf cf (some rr)
      rw [hsh]
      simp only [maxRow_setStyle, maxRow_createCell, maxRow_setValue, Option.getD_some]
      omega
  | none =>
      obtain ⟨V, ST, hsh⟩ := writeCell_sheet_shape s fr row hdr r c pf cf none
      rw [hsh]
      simp only [maxRow_setStyle, maxRow_createCell, maxRow_setValue, Option.getD_none]
      omega

/-- Writes inside the occupied extent leave max_row unchanged. -/
theorem maxRow_writeRow_preserve (row : Row) (r : Nat) (pf cf : Bool)
    (rro : Option Nat) :
    ∀ (headers : List String) (i0 : Nat) (p : SheetL × FormulaReport),
      r ≤ maxRow p.1 → rro.getD 1 ≤ maxRow p.1 →
      maxRow (((List.enumFrom i0 headers).foldl
        (fun acc ih2 => writeCell acc.1 acc.2 row ih2.2 r (ih2.1 + 1) pf cf rro) p).1) =
        maxRow p.1 := by
  intro headers
  induction headers with
  | nil => intro i0 p _ _; rfl
  | cons hd tl ih =>
      intro i0 p hr hrr
      simp only [List.enumFrom, List.foldl_cons]
      have hmw : maxRow ((writeCell p.1 p.2 row hd r (i0 + 1) pf cf rro).1) =
          maxRow p.1 := by
        rw [maxRow_writeCell]
        omega
      rw [ih (i0 + 1) (writeCell p.1 p.2 row hd r (i0 + 1) pf cf rro)
        (by rw [hmw]; exact hr) (by rw [hmw]; exact hrr), hmw]

/-- max_row after one whole written row. -/
theorem maxRow_writeRowCells (s : SheetL) (fr : FormulaReport) (row : Row)
    (headers : List String) (r : Nat) (pf cf : Bool) (rro : Option Nat)
    (hne : headers ≠ []) (hrr : rro.getD 1 ≤ max (maxRow s) r) :
    maxRow ((writeRowCells s fr row headers r pf cf rro).1) = max (maxRow s) r := by
  cases headers with
  | nil => exact absurd rfl hne
  | cons hd tl =>
      simp only [writeRowCells, List.enum, List.enumFrom, List.foldl_cons]
      have h1 : maxRow ((writeCell s fr row hd r (0 + 1) pf cf rro).1) =
          max (maxRow s) r := by
        rw [maxRow_writeCell]
        omega
      rw [maxRow_writeRow_preserve row r pf cf rro tl 1
        (writeCell s fr row hd r (0 + 1) pf cf rro)
        (by rw [h1]; omega) (by rw [h1]; exact hrr), h1]

/-- max_row after the whole batch of writes. -/
theorem maxRow_insertData (headers : List String) (ir2 : Nat) (pf cf : Bool)
    (rro : Option Nat) (hne : headers ≠ []) :
    ∀ (tl : List Row) (rw0 : Row) (i0 : Nat) (p : SheetL × FormulaReport),
      rro.getD 1 ≤ max (maxRow p.1) (ir2 + i0) →
      maxRow (((List.enumFrom i0 (rw0 :: tl)).foldl
        (fun acc ir3 => writeRowCells acc.1 acc.2 ir3.2 headers (ir2 + ir3.1) pf cf rro)
        p).1) = max (maxRow p.1) (ir2 + (i0 + tl.length)) := by
  intro tl
  induction tl with
  | nil =>
      intro rw0 i0 p hrr
      simp only [List.enumFrom, List.foldl_cons, List.foldl_nil]
      rw [maxRow_writeRowCells p.1 p.2 rw0 headers (ir2 + i0) pf cf rro hne hrr]
      simp
  | cons rw1 tl2 ih =>
      intro rw0 i0 p hrr
      have h1 : maxRow ((writeRowCells p.1 p.2 rw0 headers (ir2 + i0) pf cf rro).1) =
          max (maxRow p.1) (ir2 + i0) :=
        maxRow_writeRowCells p.1 p.2 rw0 headers (ir2 + i0) pf cf rro hne hrr
      have h2 := ih rw1 (i0 + 1)
        (writeRowCells p.1 p.2 rw0 headers (ir2 + i0) pf cf rro)
        (by rw [h1]; omega)
      simp only [List.enumFrom, List.foldl_cons] at h2 ⊢
      rw [h2, h1]
      simp only [List.length_cons]
      omega

/-- max_row after _insert_data_with_formatting on a non-empty batch. -/
theorem maxRow_insert_data_full (s : SheetL) (rows : List Row)
    (headers : List String) (ir2 : Nat) (pf cf : Bool) (rro : Option Nat)
    (hne : headers ≠ []) (hrows : rows ≠ [])
    (hrr : rro.getD 1 ≤ max (maxRow s) ir2) :
    maxRow ((insert_data_with_formatting s rows headers ir2 pf cf rro).1) =
      max (maxRow s) (ir2 + (rows.length - 1)) := by
  cases rows with
  | nil => exact absurd rfl hrows
  | cons rw0 tl =>
      have h := maxRow_insertData headers ir2 pf cf rro hne tl rw0 0 (s, {})
        (by simpa using hrr)
      simp only [insert_data_with_formatting, List.enum]
      simp only [List.enumFrom] at h ⊢
      rw [h]
      simp only [List.length_cons]
      omega

/-- The headers list computed from the first data row is never empty. -/
theorem headers_ne_nil (s : SheetL) :
    ((((List.range' 1 (maxRow s)).map
      (fun r => (List.range' 1 (maxCol s)).map (cellValue s r))).headD []).enum.map
      (fun iv => match iv.2 with
        | .vNone => ("Column_") ++ toString (iv.1 + 1)
        | v => pyStr v)) ≠ [] := by
  have h1 : 1 ≤ maxRow s := one_le_maxRow s
  have h2 : 1 ≤ maxCol s := one_le_maxCol s
  have hr : List.range' 1 (maxRow s) = 1 :: List.range' 2 (maxRow s - 1) := by
    cases hm : maxRow s with
    | zero => omega
    | succ k =>
        rw [List.range'_succ]
        rfl
  rw [hr]
  intro hnil
  have hl := congrArg List.length hnil
  simp only [List.map_cons, List.headD_cons, List.length_map, List.enum_length,
    List.length_range', List.length_nil] at hl
  omega

/-- The row-count arithmetic of the insert success path, when the resolved
target row does not overshoot the sheet: final max_row is the old max_row
plus the batch size minus the removed empty rows. -/
theorem composed_final_count (s : SheetL) (validated : List Row)
    (headers : List String) (ir : Nat) (pos : String) (pf cf : Bool)
    (hv : validated ≠ []) (hh : headers ≠ []) (hir2 : 2 ≤ ir)
    (hirle : ir ≤ maxRow s + 1) (hend : pos = ("end") → ir = maxRow s + 1) :
    (maxRow ((sortDesc (detect_empty_rows
        ((insert_data_with_formatting
          (if pos ≠ ("end") then
            (List.range validated.length).foldl (fun acc i => insertRowsAt acc (ir + i)) s
           else s)
          validated headers ir pf cf
          (if pf then some (max 2 (min (maxRow s) (ir - 1))) else none)).1))).foldl
        (fun acc r => deleteRowAt acc r)
        ((insert_data_with_formatting
          (if pos ≠ ("end") then
            (List.range validated.length).foldl (fun acc i => insertRowsAt acc (ir + i)) s
           else s)
          validated headers ir pf cf
          (if pf then some (max 2 (min (maxRow s) (ir - 1))) else none)).1)) : Int) - 1 =
      ((maxRow s : Int) - 1) + (validated.length : Int) -
        ((detect_empty_rows
          ((insert_data_with_formatting
            (if pos ≠ ("end") then
              (List.range validated.length).foldl (fun acc i => insertRowsAt acc (ir + i)) s
             else s)
            validated headers ir pf cf
            (if pf then some (max 2 (min (maxRow s) (ir - 1))) else none)).1)).length : Int) := by
  set rro : Option Nat := (if pf then some (max 2 (min (maxRow s) (ir - 1))) else none)
    with hrro
  set w1 : SheetL := (if pos ≠ ("end") then
      (List.range validated.length).foldl (fun acc i => insertRowsAt acc (ir + i)) s
    else s) with hw1
  set w2 : SheetL := (insert_data_with_formatting w1 validated headers ir pf cf rro).1
    with hw2v
  have h1m := one_le_maxRow s
  have hlen1 : 1 ≤ validated.length := List.length_pos.mpr hv
  have hrrb : rro.getD 1 ≤ max (maxRow s) ir := by
    rw [hrro]
    cases pf with
    | true =>
        show max 2 (min (maxRow s) (ir - 1)) ≤ max (maxRow s) ir
        omega
    | false =>
        show (1 : Nat) ≤ max (maxRow s) ir
        omega
  have hm2 : maxRow w2 = maxRow s + validated.length := by
    by_cases hpe : pos = ("end")
    · have hw1s : w1 = s := by rw [hw1, if_neg (by simp [hpe])]
      have hire := hend hpe
      rw [hw2v, hw1s]
      rw [maxRow_insert_data_full s validated headers ir pf cf rro hh hv hrrb]
      omega
    · have hw1g : w1 = (List.range validated.length).foldl
          (fun acc i => insertRowsAt acc (ir + i)) s := by
        rw [hw1, if_pos hpe]
      by_cases hle : ir ≤ maxRow s
      · have h2s : 2 ≤ maxRow s := by omega
        have hg := gap_fold_shift h2s hle validated.length
        have hm1 : maxRow w1 = maxRow s + validated.length := by
          rw [hw1g]
          exact hg.1
        rw [hw2v]
        rw [maxRow_insert_data_full w1 validated headers ir pf cf rro hh hv
          (by rw [hm1]; omega)]
        rw [hm1]
        omega
      · have hgt : maxRow s < ir := by omega
        have hw1n : w1 = s := by
          rw [hw1g]
          exact gap_fold_noop hgt validated.length
        rw [hw2v, hw1n]
        rw [maxRow_insert_data_full s validated headers ir pf cf rro hh hv hrrb]
        omega
  have hrem := maxRow_remove_empty w2
  have hElen := detect_length_le w2
  rw [hrem]
  omega

/-!
### Claim C3 — final row-count arithmetic (corrected)
-/

/-- C3, counterexample: a 3-row sheet (2 data rows), one row inserted at
after_row_10.  The call succeeds and reports inserted_rows 1,
empty_rows_removed 7 and final_row_count 3, but
previous + inserted - removed = 2 + 1 - 7 = -4 ≠ 3: the overshooting
target manufactures seven phantom blank rows that the reconciler then
removes, breaking the claimed equation. -/
theorem claimC3_counterexample :
    ((insert_excel_row ("f.xlsx") true (".xlsx")
        (.many [[(("H"), Value.vStr ("x"))]]) none ("after_row_10") none
        false false 100
        [(("S"), [((1, 1), (⟨Value.vStr ("H"), {}⟩ : Cell)),
          ((2, 1), (⟨Value.vStr ("a"), {}⟩ : Cell)),
          ((3, 1), (⟨Value.vStr ("b"), {}⟩ : Cell))])]).data.map
      (fun p => match p with
        | .full d => (d.final_row_count, d.inserted_rows, d.empty_rows_removed)
        | .reportOnly _ => ((0 : Int), 0, 0))) = some (3, 1, 7) ∧
    maxRow [((1, 1), (⟨Value.vStr ("H"), {}⟩ : Cell)),
      ((2, 1), (⟨Value.vStr ("a"), {}⟩ : Cell)),
      ((3, 1), (⟨Value.vStr ("b"), {}⟩ : Cell))] = 3 ∧
    ¬ ((3 : Int) = ((3 : Int) - 1) + 1 - 7) := by
  decide

/-- C3, amended: the row-count equation does hold for every successful
insert whose resolved target row lies within the sheet (at most max_row+1,
as end, beginning and any in-range after_row_N produce): the reported
final_row_count equals the previous data-row count plus the rows inserted
minus the empty rows removed. -/
theorem claimC3_amended_theorem (fp nm pos : String) (rd : RowData)
    (vr : Option (List (String × VRule))) (pf cf : Bool) (bs : Int) (s : SheetL)
    (hbs1 : bs ≤ 500) (hbs2 : 0 < bs)
    (hlen : ((normalizeRows rd).length : Int) ≤ bs)
    (hv : (validate_data (normalizeRows rd) vr).1 ≠ [])
    (hpe : (determine_insert_position pos (maxRow s)).2 = none)
    (hp2 : 2 ≤ (determine_insert_position pos (maxRow s)).1)
    (hple : (determine_insert_position pos (maxRow s)).1 ≤ (maxRow s : Int) + 1) :
    ∃ d, (insert_excel_row fp true (".xlsx") rd none pos vr pf cf bs [(nm, s)]).data =
        some (.full d) ∧
      d.inserted_rows = (validate_data (normalizeRows rd) vr).1.length ∧
      d.final_row_count = ((maxRow s : Int) - 1) + (d.inserted_rows : Int) -
        (d.empty_rows_removed : Int) := by
  have hEQ := insert_success_eq fp nm pos rd vr pf cf bs s hbs1 hbs2 hlen hv hpe
    (by omega)
  have hdd : (insert_excel_row fp true (".xlsx") rd none pos vr pf cf bs
      [(nm, s)]).data =
      some (.full (match (insert_excel_row fp true (".xlsx") rd none pos vr pf cf bs
        [(nm, s)]).data with
        | some (.full d) => d
        | _ => ⟨0, (""), 0, {}, {}, 0, 0, 0⟩)) := by
    rw [hEQ]
  refine ⟨_, hdd, ?_, ?_⟩
  · rw [hEQ]
  · rw [hEQ]
    exact composed_final_count s (validate_data (normalizeRows rd) vr).1 _
      ((determine_insert_position pos (maxRow s)).1.toNat) pos pf cf hv
      (headers_ne_nil s) (by omega) (by omega)
      (by
        intro hpos
        subst hpos
        rw [resolver_end]
        show ((maxRow s : Int) + 1).toNat = maxRow s + 1
        omega)

/-- C3, amended, witness: an end-position insert of one row on a two-row
sheet reports final_row_count 2 = 1 + 1 - 0. -/
theorem claimC3_amended_witness :
    ∃ d, (insert_excel_row ("f.xlsx") true (".xlsx")
        (.many [[(("H"), Value.vInt 1)]]) none ("end") none false false 100
        [(("S"), [((1, 1), (⟨Value.vStr ("H"), {}⟩ : Cell)),
          ((2, 1), (⟨Value.vStr ("a"), {}⟩ : Cell))])]).data = some (.full d) ∧
      d.inserted_rows = 1 ∧
      d.final_row_count = ((2 : Int) - 1) + (d.inserted_rows : Int) -
        (d.empty_rows_removed : Int) := by
  obtain ⟨d, h1, h2, h3⟩ := claimC3_amended_theorem ("f.xlsx") ("S") ("end")
    (.many [[(("H"), Value.vInt 1)]]) none false false 100
    [((1, 1), ⟨Value.vStr ("H"), {}⟩), ((2, 1), ⟨Value.vStr ("a"), {}⟩)]
    (by omega) (by omega) (by decide) (by decide) (by decide) (by decide) (by decide)
  refine ⟨d, h1, ?_, ?_⟩
  · rw [h2]
    rfl
  · rw [h3]
    have hm : maxRow [((1, 1), (⟨Value.vStr ("H"), {}⟩ : Cell)),
        ((2, 1), (⟨Value.vStr ("a"), {}⟩ : Cell))] = 2 := by decide
    rw [hm]
    omega

end ExcelMCP
